import Mathlib

/-!
# Hierarchical kernels of libdynd: reduction frames, assignment kernels, kernel builder

A shallow embedding of

* `include/dynd/kernels/reduction_kernel.hpp` (the reduction kernel family),
* `src/dynd/kernels/assignment_kernels.cpp` (the assignment kernel factory),
* `include/dynd/kernels/ckernel_builder.hpp` (the growable kernel buffer),
* `include/dnd/shortvector.hpp` (the short vector),

together with the properties of them that are checked here.

Conventions of the embedding.

* A `char *` is an address, an `Int`; pointer arithmetic is integer arithmetic.
* `intptr_t` values are `Int`; a `size_t` is a `Nat`, and wherever the source passes an
  `intptr_t` where a `size_t` is expected the conversion `to_size_t` (reduction modulo `2 ^ 64`)
  is applied.
* A kernel function is a state transformer on the memory.  A child kernel, which the source
  reaches through a function pointer stored in the kernel buffer, is a field of the frame that
  owns it.
-/

namespace dynd

/-! ## Memory -/

/-- The memory seen by the reduction kernels: one element value per address. -/
abbrev Mem (α : Type) := Int → α

/-- Store `v` at address `a`. -/
def Mem.write {α : Type} (m : Mem α) (a : Int) (v : α) : Mem α :=
  fun x => if x = a then v else m x

/-- Conversion of an `intptr_t` to `size_t` (64-bit target). -/
def to_size_t (x : Int) : Nat := (x % 2 ^ 64).toNat

/-- The `n` elements at `src, src + stride, ..., src + (n - 1) * stride` of a strided source
row, in order. -/
def row {α : Type} (m : Mem α) (src stride : Int) (n : Nat) : List α :=
  (List.range n).map (fun (j : Nat) => m (src + (j : Int) * stride))

/-- The `R` rows (each of `C` elements) of a strided two-dimensional source, in order: element
`j` of row `i` is at `src + i * row_stride + j * col_stride`. -/
def rows {α : Type} (m : Mem α) (src row_stride col_stride : Int) (R C : Nat) : List (List α) :=
  (List.range R).map (fun (i : Nat) => row m (src + (i : Int) * row_stride) col_stride C)

/-- The `n` destination cells `dst, dst + stride, ...` are pairwise different addresses (the
stride is not zero, or there is at most one cell). -/
def distinct_cells (dst stride : Int) (n : Nat) : Prop :=
  ∀ i j : Nat, i < n → j < n → i ≠ j → dst + (i : Int) * stride ≠ dst + (j : Int) * stride

/-! ## Kernel calling conventions -/

/-- A `single` kernel function `(dst, src[0])`. -/
abbrev kernel_single_t (α : Type) := Int → Int → Mem α → Mem α

/-- A `strided` kernel function `(dst, dst_stride, src[0], src_stride[0], count)`. -/
abbrev kernel_strided_t (α : Type) := Int → Int → Int → Int → Nat → Mem α → Mem α

/-- The loop `for (size_t i = 0; i != count; ++i) { body(dst, src0); dst += dst_stride;
src0 += src0_stride; }` shared by the strided entry points. -/
def strided_loop {α : Type} (body : Int → Int → Mem α → Mem α)
    (dst dst_stride src0 src0_stride : Int) : Nat → Mem α → Mem α
  | 0, m => m
  | n + 1, m =>
    strided_loop body (dst + dst_stride) dst_stride (src0 + src0_stride) src0_stride n
      (body dst src0 m)

/-- The value `n - 1` in `size_t` arithmetic, `2 ^ 64 - 1` for `n = 0`.  It is also the number of
iterations of `for (size_t i = 1; i != n; ++i)`. -/
def size_t_dec (n : Nat) : Nat := (n + (2 ^ 64 - 1)) % 2 ^ 64

/-- Conversion of a `size_t` to `intptr_t` (64-bit target, two's complement). -/
def to_intptr_t (n : Nat) : Int :=
  if n % 2 ^ 64 < 2 ^ 63 then ((n % 2 ^ 64 : Nat) : Int) else ((n % 2 ^ 64 : Nat) : Int) - 2 ^ 64

/-- The function pointers of a reduction frame seen by its parent: the `first_call` slot, callable
as `single` or as `strided` according to the request the frame was built for, and the
`followup_call` slot. -/
structure reduction_kernel_prefix (α : Type) where
  single_first : kernel_single_t α
  strided_first : kernel_strided_t α
  strided_followup : kernel_strided_t α

/-! ## Build-time data -/

/-- The kernel requests; `unrecognized` stands for any other value of the enumeration. -/
inductive kernel_request_t
  | kernel_request_call
  | kernel_request_single
  | kernel_request_strided
  | unrecognized (value : Int)
  deriving DecidableEq

/-- A type together with its arrmeta, as far as the reduction frames read them: a `fixed_dim`
carries its size and the stride of its arrmeta, a `var_dim` the stride of its arrmeta; `scalar`
is any type that is not a dimension. -/
inductive ndt_type
  | scalar
  | fixed_dim (size stride : Int) (element_tp : ndt_type)
  | var_dim (stride : Int) (element_tp : ndt_type)
  deriving DecidableEq

/-- The record `reduction_data_type`.  `axes` is `none` for a null pointer and otherwise the
entries from the pointer on, so that `++axes` drops the first entry.  The offsets `init_offset`
and `child_data` have no counterpart here, children being fields of their frame. -/
structure reduction_data_type (α : Type) where
  identity : Option α
  ndim : Int
  naxis : Int
  axes : Option (List Int)
  keepdims : Bool
  stored_ndim : Int

def reduction_data_type.is_inner {α : Type} (data : reduction_data_type α) : Bool :=
  data.ndim == 1

/-- The wrapper that `base_reduction_kernel::init` installs in the `first_call` slot. -/
inductive first_call_t
  | call_wrapper
  | single_first_wrapper
  | strided_first_wrapper
  deriving DecidableEq

/-- The part of `base_reduction_kernel::init` that depends on the kernel request: the choice of
the `first_call` function, or the `std::runtime_error` of the default case. -/
def base_reduction_kernel.init (kernreq : kernel_request_t) : Except String first_call_t :=
  match kernreq with
  | .kernel_request_call => .ok .call_wrapper
  | .kernel_request_single => .ok .single_first_wrapper
  | .kernel_request_strided => .ok .strided_first_wrapper
  | .unrecognized value =>
    .error ("make_lifted_reduction_ckernel: unrecognized request " ++ toString value)

/-- The arguments of a recursive `self->instantiate` call that the reduction frames set: the data
record, the destination type, the source type and the kernel request.  The result is what the
call appends to the kernel buffer, or the exception it throws. -/
abbrev instantiate_t (β : Type) (α : Type) :=
  reduction_data_type α → ndt_type → ndt_type → kernel_request_t → Except String β

/-! ## Leaf kernels

The leaves of a reduction kernel (the destination-initialisation kernel and the accumulation
kernel) are built by the reduction callable, outside `reduction_kernel.hpp`. -/

/-- Modelled from the spec: the destination-initialisation kernel of a reduction with identity
`e` (built outside `reduction_kernel.hpp`), `single` request: it copies the identity into
`dst`. -/
def identity_init_single {α : Type} (e : α) : kernel_single_t α :=
  fun dst _ m => m.write dst e

/-- Modelled from the spec: the destination-initialisation kernel of a reduction without
identity (an assignment kernel built outside `reduction_kernel.hpp`), `single` request: it copies
the source element into `dst`. -/
def copy_init_single {α : Type} : kernel_single_t α :=
  fun dst src m => m.write dst (m src)

/-- Modelled from the spec: the destination-initialisation kernel of a reduction with identity
`e`, `strided` request: it copies the identity into each of the `count` destination cells. -/
def identity_init_strided {α : Type} (e : α) : kernel_strided_t α :=
  strided_loop (identity_init_single e)

/-- Modelled from the spec: the destination-initialisation kernel of a reduction without
identity, `strided` request: an element-wise copy of `count` elements. -/
def copy_init_strided {α : Type} : kernel_strided_t α :=
  strided_loop copy_init_single

/-- Modelled from the spec: the accumulation kernel of the binary operator `op` (the kernel of
the reduced callable, built outside `reduction_kernel.hpp`), `strided` request: for each of the
`count` elements in turn, `dst <- op(dst, src)`. -/
def accumulate_strided {α : Type} (op : α → α → α) : kernel_strided_t α :=
  strided_loop (fun dst src m => m.write dst (op (m dst) (m src)))

/-! ## `reduction_kernel<fixed_dim_id, false, true>`: strided inner reduction dimension -/

/-- The frame `reduction_kernel<fixed_dim_id, false, true>`.  `init_child` is
`get_child(init_offset)`, `reduction_child` is `get_child()`. -/
structure reduction_kernel_fixed_dim_false_true (α : Type) where
  size_first : Int
  src_stride_first : Int
  _size : Int
  src_stride : Int
  init_child : kernel_single_t α
  reduction_child : kernel_strided_t α

namespace reduction_kernel_fixed_dim_false_true

variable {α : Type}

def single_first (k : reduction_kernel_fixed_dim_false_true α) : kernel_single_t α :=
  fun dst src0 m =>
    -- Initialize the dst values
    let m := k.init_child dst src0 m
    let src0 := src0 + k.src_stride_first
    -- Do the reduction
    k.reduction_child dst 0 src0 k.src_stride (to_size_t k.size_first) m

def strided_first (k : reduction_kernel_fixed_dim_false_true α) : kernel_strided_t α :=
  fun dst dst_stride src0 src_stride0 count m =>
    if dst_stride = 0 then
      let m := k.init_child dst src0 m
      let src0 := src0 + k.src_stride_first
      let m := k.reduction_child dst 0 src0 k.src_stride (to_size_t k.size_first) m
      strided_loop
        (fun dst src0 m => k.reduction_child dst 0 src0 k.src_stride (to_size_t k.size_first) m)
        dst dst_stride src0 src_stride0 (size_t_dec count) m
    else
      strided_loop
        (fun dst src0 m =>
          let m := k.init_child dst src0 m
          let inner_child_src := src0 + k.src_stride_first
          k.reduction_child dst 0 inner_child_src k.src_stride (to_size_t k.size_first) m)
        dst dst_stride src0 src_stride0 count m

def strided_followup (k : reduction_kernel_fixed_dim_false_true α) : kernel_strided_t α :=
  fun dst dst_stride src0 src_stride0 count m =>
    strided_loop
      (fun dst src0 m => k.reduction_child dst 0 src0 k.src_stride (to_size_t k._size) m)
      dst dst_stride src0 src_stride0 count m

/-- The frame that `instantiate` leaves in the kernel buffer.  `src_size` and `src_stride` are
read from the source `fixed_dim` type and its arrmeta, `identity` is `data->identity` (`none` when
it is null), and the two children are the kernels the recursive `self->instantiate` appends. -/
def instantiate_frame (src_size src_stride : Int) (identity : Option α)
    (init_child : kernel_single_t α) (reduction_child : kernel_strided_t α) :
    reduction_kernel_fixed_dim_false_true α :=
  match identity with
  | none =>
    { src_stride := src_stride, _size := src_size,
      size_first := src_size - 1, src_stride_first := src_stride,
      init_child := init_child, reduction_child := reduction_child }
  | some _ =>
    { src_stride := src_stride, _size := src_size,
      size_first := src_size, src_stride_first := 0,
      init_child := init_child, reduction_child := reduction_child }

/-- The frame as seen by a parent frame. -/
def to_reduction_child (k : reduction_kernel_fixed_dim_false_true α) :
    reduction_kernel_prefix α :=
  { single_first := k.single_first, strided_first := k.strided_first,
    strided_followup := k.strided_followup }

end reduction_kernel_fixed_dim_false_true

/-! ## `reduction_kernel<fixed_dim_id, false, false>`: strided initial reduction dimension -/

/-- The frame `reduction_kernel<fixed_dim_id, false, false>`; `child` is `get_reduction_child()`. -/
structure reduction_kernel_fixed_dim_false_false (α : Type) where
  src0_element_size : Int
  src0_element_stride : Int
  child : reduction_kernel_prefix α

namespace reduction_kernel_fixed_dim_false_false

variable {α : Type}

def single_first (k : reduction_kernel_fixed_dim_false_false α) : kernel_single_t α :=
  fun dst src0 m =>
    -- The first call at the "dst" address
    let m := k.child.single_first dst src0 m
    if k.src0_element_size > 1 then
      -- All the followup calls at the "dst" address
      let src_second := src0 + k.src0_element_stride
      k.child.strided_followup dst 0 src_second k.src0_element_stride
        (to_size_t (k.src0_element_size - 1)) m
    else m

def strided_first (k : reduction_kernel_fixed_dim_false_false α) : kernel_strided_t α :=
  fun dst dst_stride src0 src0_stride count m =>
    if dst_stride = 0 then
      let m := k.child.single_first dst src0 m
      let m :=
        if k.src0_element_size > 1 then
          let inner_src_second := src0 + k.src0_element_stride
          k.child.strided_followup dst 0 inner_src_second k.src0_element_stride
            (to_size_t (k.src0_element_size - 1)) m
        else m
      let src0 := src0 + src0_stride
      strided_loop
        (fun dst src0 m =>
          k.child.strided_followup dst 0 src0 k.src0_element_stride
            (to_size_t k.src0_element_size) m)
        dst 0 src0 src0_stride (size_t_dec count) m
    else
      strided_loop
        (fun dst src0 m =>
          let m := k.child.single_first dst src0 m
          if k.src0_element_size > 1 then
            let inner_src_second := src0 + k.src0_element_stride
            k.child.strided_followup dst 0 inner_src_second k.src0_element_stride
              (to_size_t (k.src0_element_size - 1)) m
          else m)
        dst dst_stride src0 src0_stride count m

def strided_followup (k : reduction_kernel_fixed_dim_false_false α) : kernel_strided_t α :=
  fun dst dst_stride src0 src0_stride count m =>
    strided_loop
      (fun dst src0 m =>
        k.child.strided_followup dst 0 src0 k.src0_element_stride
          (to_size_t k.src0_element_size) m)
      dst dst_stride src0 src0_stride count m

/-- The frame that `instantiate` leaves in the kernel buffer:
`emplace_back<reduction_kernel>(kernreq, src_size, src_stride)`, followed by the child that the
recursive `self->instantiate` appends. -/
def instantiate_frame (src_size src_stride : Int) (child : reduction_kernel_prefix α) :
    reduction_kernel_fixed_dim_false_false α :=
  { src0_element_size := src_size, src0_element_stride := src_stride, child := child }

def to_reduction_child (k : reduction_kernel_fixed_dim_false_false α) :
    reduction_kernel_prefix α :=
  { single_first := k.single_first, strided_first := k.strided_first,
    strided_followup := k.strided_followup }

end reduction_kernel_fixed_dim_false_false

/-! ## `reduction_kernel<var_dim_id, false, true>`: var_dim inner reduction dimension -/

/-- The data of a `var_dim` element, `ndt::var_dim_type::data_type`. -/
structure var_dim_type_data where
  begin : Int
  size : Nat

/-- The frame `reduction_kernel<var_dim_id, false, true>`. -/
structure reduction_kernel_var_dim_false_true (α : Type) where
  src0_inner_stride : Int
  src0_inner_stride_first : Int
  init_child : kernel_single_t α
  reduction_child : kernel_strided_t α

namespace reduction_kernel_var_dim_false_true

variable {α : Type}

/-- The constructor `reduction_kernel(src0_inner_stride, with_identity)`, with the two children
of the frame. -/
def construct (src0_inner_stride : Int) (with_identity : Bool)
    (init_child : kernel_single_t α) (reduction_child : kernel_strided_t α) :
    reduction_kernel_var_dim_false_true α :=
  { src0_inner_stride := src0_inner_stride,
    src0_inner_stride_first := if with_identity then 0 else src0_inner_stride,
    init_child := init_child, reduction_child := reduction_child }

/-- In the three entry points `vd` is the read-only view of the memory that holds the `var_dim`
data records: `vd a` is the record `{begin, size}` at address `a`. -/
def single_first (vd : Int → var_dim_type_data) (k : reduction_kernel_var_dim_false_true α) :
    kernel_single_t α :=
  fun dst src0 m =>
    let inner_size := (vd src0).size
    let inner_size := if k.src0_inner_stride_first ≠ 0 then size_t_dec inner_size else inner_size
    let src0_data := (vd src0).begin
    let m := k.init_child dst src0_data m
    let src0_data := src0_data + k.src0_inner_stride_first
    k.reduction_child dst 0 src0_data k.src0_inner_stride inner_size m

def strided_first (vd : Int → var_dim_type_data) (k : reduction_kernel_var_dim_false_true α) :
    kernel_strided_t α :=
  fun dst dst_stride src0 src_stride0 count m =>
    strided_loop
      (fun dst src0 m =>
        let src0_data := (vd src0).begin
        let m := k.init_child dst src0_data m
        -- `inner_size` is computed by the source at this point and not used afterwards
        let src0_data := src0_data + k.src0_inner_stride_first
        k.reduction_child dst 0 src0_data k.src0_inner_stride (size_t_dec (vd src0).size) m)
      dst dst_stride src0 src_stride0 count m

def strided_followup (vd : Int → var_dim_type_data) (k : reduction_kernel_var_dim_false_true α) :
    kernel_strided_t α :=
  fun dst dst_stride src0 src_stride0 size m =>
    strided_loop
      (fun dst src0 m =>
        k.reduction_child dst 0 (vd src0).begin k.src0_inner_stride (vd src0).size m)
      dst dst_stride src0 src_stride0 size m

/-- The frame that `instantiate` leaves in the kernel buffer:
`emplace_back<reduction_kernel>(kernreq, stride)` passes the stride read from the source arrmeta
and no second constructor argument, so `with_identity` takes its default `false`;
`data->identity` is not consulted. -/
def instantiate_frame (src_stride : Int) (_identity : Option α)
    (init_child : kernel_single_t α) (reduction_child : kernel_strided_t α) :
    reduction_kernel_var_dim_false_true α :=
  construct src_stride false init_child reduction_child

def to_reduction_child (vd : Int → var_dim_type_data)
    (k : reduction_kernel_var_dim_false_true α) : reduction_kernel_prefix α :=
  { single_first := k.single_first vd, strided_first := k.strided_first vd,
    strided_followup := k.strided_followup vd }

end reduction_kernel_var_dim_false_true

/-! ## `reduction_kernel<fixed_dim_id, true, false>`: strided initial broadcast dimension -/

/-- The frame `reduction_kernel<fixed_dim_id, true, false>`. -/
structure reduction_kernel_fixed_dim_true_false (α : Type) where
  _size : Int
  dst_stride : Int
  src_stride : Int
  child : reduction_kernel_prefix α

namespace reduction_kernel_fixed_dim_true_false

variable {α : Type}

def single_first (k : reduction_kernel_fixed_dim_true_false α) : kernel_single_t α :=
  fun dst src0 m =>
    k.child.strided_first dst k.dst_stride src0 k.src_stride (to_size_t k._size) m

def strided_first (k : reduction_kernel_fixed_dim_true_false α) : kernel_strided_t α :=
  fun dst dst_stride src0 src0_stride count m =>
    let inner_size := k._size
    let inner_dst_stride := k.dst_stride
    let inner_src_stride := k.src_stride
    if dst_stride = 0 then
      let m := k.child.strided_first dst inner_dst_stride src0 inner_src_stride
        (to_size_t inner_size) m
      let dst := dst + dst_stride
      let src0 := src0 + src0_stride
      -- `for (intptr_t i = 1; i < (intptr_t)count; ++i)`
      strided_loop
        (fun dst src0 m =>
          k.child.strided_followup dst inner_dst_stride src0 inner_src_stride
            (to_size_t inner_size) m)
        dst dst_stride src0 src0_stride (to_intptr_t count - 1).toNat m
    else
      strided_loop
        (fun dst src0 m =>
          k.child.strided_first dst inner_dst_stride src0 inner_src_stride
            (to_size_t inner_size) m)
        dst dst_stride src0 src0_stride count m

def strided_followup (k : reduction_kernel_fixed_dim_true_false α) : kernel_strided_t α :=
  fun dst dst_stride src0 src_stride0 count m =>
    strided_loop
      (fun dst src0 m =>
        k.child.strided_followup dst k.dst_stride src0 k.src_stride (to_size_t k._size) m)
      dst dst_stride src0 src_stride0 count m

/-- The frame that `instantiate` leaves in the kernel buffer:
`emplace_back<reduction_kernel>(kernreq, src_size, dst_stride, src_stride)`, followed by the
child. -/
def instantiate_frame (src_size dst_stride src_stride : Int) (child : reduction_kernel_prefix α) :
    reduction_kernel_fixed_dim_true_false α :=
  { _size := src_size, dst_stride := dst_stride, src_stride := src_stride, child := child }

def to_reduction_child (k : reduction_kernel_fixed_dim_true_false α) :
    reduction_kernel_prefix α :=
  { single_first := k.single_first, strided_first := k.strided_first,
    strided_followup := k.strided_followup }

end reduction_kernel_fixed_dim_true_false

/-! ## `reduction_kernel<fixed_dim_id, true, true>`: strided inner broadcast dimension -/

/-- The frame `reduction_kernel<fixed_dim_id, true, true>`.  `init_child` is
`get_child(dst_init_kernel_offset)`, `reduction_child` is `get_child()`. -/
structure reduction_kernel_fixed_dim_true_true (α : Type) where
  _size : Int
  dst_stride : Int
  src_stride : Int
  size_first : Int
  dst_stride_first : Int
  src_stride_first : Int
  init_child : kernel_strided_t α
  reduction_child : kernel_strided_t α

namespace reduction_kernel_fixed_dim_true_true

variable {α : Type}

def single_first (k : reduction_kernel_fixed_dim_true_true α) : kernel_single_t α :=
  fun dst src0 m =>
    -- Initialize the dst values
    let m := k.init_child dst k.dst_stride src0 k.src_stride_first (to_size_t k._size) m
    if k.src_stride_first = 0 then
      -- Then do the accumulation
      k.reduction_child dst k.dst_stride src0 k.src_stride (to_size_t k._size) m
    else m

def strided_first (k : reduction_kernel_fixed_dim_true_true α) : kernel_strided_t α :=
  fun dst dst_stride src0 src0_stride count m =>
    let inner_size := k._size
    let inner_dst_stride := k.dst_stride
    let inner_src_stride := k.src_stride
    if dst_stride = 0 then
      let m := k.init_child dst inner_dst_stride src0 k.src_stride_first (to_size_t inner_size) m
      let dst := dst + k.dst_stride_first
      let src0 := src0 + k.src_stride_first
      strided_loop
        (fun dst src0 m =>
          k.reduction_child dst inner_dst_stride src0 inner_src_stride (to_size_t inner_size) m)
        dst 0 src0 src0_stride (size_t_dec count) m
    else
      strided_loop
        (fun dst src0 m =>
          let m := k.init_child dst inner_dst_stride src0 k.src_stride_first
            (to_size_t k._size) m
          if k.src_stride_first = 0 then
            k.reduction_child dst inner_dst_stride src0 inner_src_stride (to_size_t k._size) m
          else m)
        dst dst_stride src0 src0_stride count m

def strided_followup (k : reduction_kernel_fixed_dim_true_true α) : kernel_strided_t α :=
  fun dst dst_stride src0 src0_stride count m =>
    strided_loop
      (fun dst src0 m =>
        k.reduction_child dst k.dst_stride src0 k.src_stride (to_size_t k._size) m)
      dst dst_stride src0 src0_stride count m

/-- The frame that `instantiate` leaves in the kernel buffer. -/
def instantiate_frame (src_size dst_stride src_stride : Int) (identity : Option α)
    (init_child : kernel_strided_t α) (reduction_child : kernel_strided_t α) :
    reduction_kernel_fixed_dim_true_true α :=
  match identity with
  | none =>
    { dst_stride := dst_stride, src_stride := src_stride, _size := src_size,
      size_first := src_size - 1, dst_stride_first := dst_stride,
      src_stride_first := src_stride,
      init_child := init_child, reduction_child := reduction_child }
  | some _ =>
    { dst_stride := dst_stride, src_stride := src_stride, _size := src_size,
      size_first := src_size, dst_stride_first := 0, src_stride_first := 0,
      init_child := init_child, reduction_child := reduction_child }

def to_reduction_child (k : reduction_kernel_fixed_dim_true_true α) :
    reduction_kernel_prefix α :=
  { single_first := k.single_first, strided_first := k.strided_first,
    strided_followup := k.strided_followup }

end reduction_kernel_fixed_dim_true_true

/-! ## The `instantiate` functions

Each `instantiate` takes the recursive `self->instantiate` as the parameter `self`, typed by what
the frame expects to find behind itself in the buffer: a reduction frame for the outer frames,
the destination-initialisation kernel and the accumulation kernel for the inner frames.  The
casts `extended<ndt::fixed_dim_type>()` and `extended<ndt::var_dim_type>()` are unchecked in the
source; applied to another type they are reported here as an error. -/

def reduction_kernel_fixed_dim_false_false.instantiate {α : Type}
    (self : instantiate_t ( reduction_kernel_prefix α) α) (data : reduction_data_type α)
    (dst_tp src_tp : ndt_type) (kernreq : kernel_request_t) :
    Except String (first_call_t × reduction_kernel_fixed_dim_false_false α) :=
  match src_tp with
  | .fixed_dim src_size src_stride src0_element_tp => do
    let first_call ← base_reduction_kernel.init kernreq
    let data :=
      { data with ndim := data.ndim - 1, naxis := data.naxis - 1, axes := data.axes.map List.tail }
    if data.keepdims then
      match dst_tp with
      | .fixed_dim _ _ dst_element_tp => do
        let child ← self data dst_element_tp src0_element_tp .kernel_request_single
        pure (first_call,
          reduction_kernel_fixed_dim_false_false.instantiate_frame src_size src_stride child)
      | _ => .error "dst_tp is not a fixed_dim"
    else do
      let child ← self data dst_tp src0_element_tp .kernel_request_single
      pure (first_call,
        reduction_kernel_fixed_dim_false_false.instantiate_frame src_size src_stride child)
  | _ => .error "src_tp[0] is not a fixed_dim"

def reduction_kernel_fixed_dim_false_true.instantiate {α : Type}
    (self : instantiate_t (kernel_single_t α × kernel_strided_t α) α)
    (data : reduction_data_type α) (dst_tp src_tp : ndt_type) (kernreq : kernel_request_t) :
    Except String (first_call_t × reduction_kernel_fixed_dim_false_true α) :=
  match src_tp with
  | .fixed_dim src_size src_stride src0_element_tp => do
    let first_call ← base_reduction_kernel.init kernreq
    let identity := data.identity
    let data :=
      { data with ndim := data.ndim - 1, naxis := data.naxis - 1, axes := data.axes.map List.tail }
    if data.keepdims then
      match dst_tp with
      | .fixed_dim _ _ dst_element_tp => do
        let children ← self data dst_element_tp src0_element_tp .kernel_request_single
        pure (first_call,
          reduction_kernel_fixed_dim_false_true.instantiate_frame src_size src_stride identity
            children.1 children.2)
      | _ => .error "dst_tp is not a fixed_dim"
    else do
      let children ← self data dst_tp src0_element_tp .kernel_request_single
      pure (first_call,
        reduction_kernel_fixed_dim_false_true.instantiate_frame src_size src_stride identity
          children.1 children.2)
  | _ => .error "src_tp[0] is not a fixed_dim"

def reduction_kernel_var_dim_false_true.instantiate {α : Type}
    (self : instantiate_t (kernel_single_t α × kernel_strided_t α) α)
    (data : reduction_data_type α) (dst_tp src_tp : ndt_type) (kernreq : kernel_request_t) :
    Except String (first_call_t × reduction_kernel_var_dim_false_true α) :=
  match src_tp with
  | .var_dim src_stride src0_element_tp => do
    let first_call ← base_reduction_kernel.init kernreq
    let identity := data.identity
    let data := { data with ndim := data.ndim - 1, naxis := data.naxis - 1 }
    let children ← self data dst_tp src0_element_tp .kernel_request_single
    pure (first_call,
      reduction_kernel_var_dim_false_true.instantiate_frame src_stride identity
        children.1 children.2)
  | _ => .error "src_tp[0] is not a var_dim"

def reduction_kernel_fixed_dim_true_false.instantiate {α : Type}
    (self : instantiate_t ( reduction_kernel_prefix α) α) (data : reduction_data_type α)
    (dst_tp src_tp : ndt_type) (kernreq : kernel_request_t) :
    Except String (first_call_t × reduction_kernel_fixed_dim_true_false α) :=
  match src_tp, dst_tp with
  | .fixed_dim src_size src_stride src0_element_tp, .fixed_dim _ dst_stride dst_element_tp => do
    let first_call ← base_reduction_kernel.init kernreq
    let data := { data with ndim := data.ndim - 1 }
    let child ← self data dst_element_tp src0_element_tp .kernel_request_strided
    pure (first_call,
      reduction_kernel_fixed_dim_true_false.instantiate_frame src_size dst_stride src_stride
        child)
  | _, _ => .error "src_tp[0] or dst_tp is not a fixed_dim"

def reduction_kernel_fixed_dim_true_true.instantiate {α : Type}
    (self : instantiate_t (kernel_strided_t α × kernel_strided_t α) α)
    (data : reduction_data_type α) (dst_tp src_tp : ndt_type) (kernreq : kernel_request_t) :
    Except String (first_call_t × reduction_kernel_fixed_dim_true_true α) :=
  match src_tp, dst_tp with
  | .fixed_dim src_size src_stride src0_element_tp, .fixed_dim _ dst_stride dst_element_tp => do
    let first_call ← base_reduction_kernel.init kernreq
    let identity := data.identity
    let data := { data with ndim := data.ndim - 1 }
    let children ← self data dst_element_tp src0_element_tp .kernel_request_strided
    pure (first_call,
      reduction_kernel_fixed_dim_true_true.instantiate_frame src_size dst_stride src_stride
        identity children.1 children.2)
  | _, _ => .error "src_tp[0] or dst_tp is not a fixed_dim"

/-- Modelled from the spec: the leaf of a build (made by the reduction callable, outside
`reduction_kernel.hpp`, once no dimension is left) for an inner frame that requests a `single`
destination initialisation: the init kernel copies the identity into dst if the reduction has
one and the first source element otherwise, and the accumulation kernel is that of `op`. -/
def reduction_leaf_single {α : Type} (op : α → α → α) :
    instantiate_t (kernel_single_t α × kernel_strided_t α) α :=
  fun data _ _ _ =>
    match data.identity with
    | some e => .ok (identity_init_single e, accumulate_strided op)
    | none => .ok (copy_init_single, accumulate_strided op)

/-- Modelled from the spec: the leaf of a build (made by the reduction callable, outside
`reduction_kernel.hpp`, once no dimension is left) for an inner frame that requests a `strided`
destination initialisation: the init kernel copies the identity into every dst cell if the
reduction has one and the source elements otherwise, and the accumulation kernel is that of
`op`. -/
def reduction_leaf_strided {α : Type} (op : α → α → α) :
    instantiate_t (kernel_strided_t α × kernel_strided_t α) α :=
  fun data _ _ _ =>
    match data.identity with
    | some e => .ok (identity_init_strided e, accumulate_strided op)
    | none => .ok (copy_init_strided, accumulate_strided op)

/-! ## The array of the scenarios -/

/-- The source array `[[1,2],[3,4],[5,6]]` stored contiguously from address 0 (row stride 2,
column stride 1); every other cell of the memory holds 0. -/
def example_array : Mem Int := fun a => if 0 ≤ a ∧ a < 6 then a + 1 else 0

/-- The `var_dim` data records of the rows `[1,2,3]`, `[4,5]`, `[]` laid over `example_array`:
the records sit at addresses 200, 216 and 232 (stride 16). -/
def example_var_dim : Int → var_dim_type_data := fun a =>
  if a = 200 then { begin := 0, size := 3 }
  else if a = 216 then { begin := 3, size := 2 }
  else { begin := 6, size := 0 }

/-! ## Assignment kernels (`assignment_kernels.cpp`) -/

/-- The memory seen by the assignment kernels: one byte per address. -/
abbrev byte_memory := Mem (Fin 256)

/-- The C types of the rows and columns of `assign_table_single_kernel`. -/
inductive builtin_type
  | dynd_bool | int8_t | int16_t | int32_t | int64_t
  | uint8_t | uint16_t | uint32_t | uint64_t
  | float | double | complex_float | complex_double
  deriving DecidableEq

inductive assign_error_mode
  | assign_error_none
  | assign_error_overflow
  | assign_error_fractional
  | assign_error_inexact
  | assign_error_default
  deriving DecidableEq

/-- The value of an error mode as an array index: the table lists its entries in the order
none, overflow, fractional, inexact and is indexed by the error mode itself. -/
def assign_error_mode.toNat : assign_error_mode → Nat
  | .assign_error_none => 0
  | .assign_error_overflow => 1
  | .assign_error_fractional => 2
  | .assign_error_inexact => 3
  | .assign_error_default => 4

/-- The functions whose address the factory stores in a kernel frame. -/
inductive unary_single_operation_t
  | aligned_fixed_size_copy_assign (N : Nat)
  | unaligned_fixed_size_copy_assign (N : Nat)
  | unaligned_copy_single
  | single_assigner_builtin (dst_type src_type : builtin_type) (errmode : assign_error_mode)
  deriving DecidableEq

/-- The integer held by the `n` bytes at `a` (little-endian). -/
def load_integer (m : byte_memory) (a : Int) : Nat → Nat
  | 0 => 0
  | n + 1 => (m a).val + 256 * load_integer m (a + 1) n

/-- Store the integer `v` into the `n` bytes at `a` (little-endian). -/
def store_integer (m : byte_memory) (a : Int) : Nat → Nat → byte_memory
  | 0, _ => m
  | n + 1, v => store_integer (m.write a ⟨v % 256, Nat.mod_lt v (by decide)⟩) (a + 1) n (v / 256)

/-- The library function `memcpy(dst, src, n)`, for buffers that do not overlap: a copy byte by
byte. -/
def memcpy (dst src : Int) (n : Nat) (m : byte_memory) : byte_memory :=
  strided_loop (fun d s m => m.write d (m s)) dst 1 src 1 n m

/-- `aligned_fixed_size_copy_assign<N>::single`: `*dst = *src` for `N = 1`, and
`*(T *)dst = *(T *)src` with `T` the integer type of `N` bytes for `N = 2, 4, 8`. -/
def aligned_fixed_size_copy_assign.single (N : Nat) (dst src : Int) (m : byte_memory) :
    byte_memory :=
  if N = 1 then m.write dst (m src) else store_integer m dst N (load_integer m src N)

/-- `unaligned_fixed_size_copy_assign<N>::single`. -/
def unaligned_fixed_size_copy_assign.single (N : Nat) (dst src : Int) (m : byte_memory) :
    byte_memory :=
  memcpy dst src N m

/-- `unaligned_copy_single`; `data_size` is the field of the frame
(`unaligned_copy_single_kernel_extra`). -/
def unaligned_copy_single (data_size : Nat) (dst src : Int) (m : byte_memory) : byte_memory :=
  memcpy dst src data_size m

/-- A call `f(dst, src, extra)` through a stored function pointer.  `data_size` is the field read
from `extra` by `unaligned_copy_single`; `assigner` stands for the functions
`single_assigner_builtin<dst_type, src_type, errmode>::assign`, which are defined outside this
file. -/
def unary_single_operation_t.single
    (assigner : builtin_type → builtin_type → assign_error_mode → Int → Int → byte_memory →
      byte_memory)
    (f : unary_single_operation_t) (data_size : Nat) (dst src : Int) (m : byte_memory) :
    byte_memory :=
  match f with
  | .aligned_fixed_size_copy_assign N => dynd.aligned_fixed_size_copy_assign.single N dst src m
  | .unaligned_fixed_size_copy_assign N =>
    dynd.unaligned_fixed_size_copy_assign.single N dst src m
  | .unaligned_copy_single => dynd.unaligned_copy_single data_size dst src m
  | .single_assigner_builtin dst_type src_type errmode =>
    assigner dst_type src_type errmode dst src m

/-- What a factory function leaves at `offset_out` and returns: the function pointer stored in
the frame, the `data_size` field when the frame is an `unaligned_copy_single_kernel_extra`, the
capacity requested from `out->ensure_capacity` when it is called, and the returned offset. -/
structure assignment_kernel where
  function : unary_single_operation_t
  data_size : Option Nat
  ensure_capacity : Option Nat
  offset : Nat
  deriving DecidableEq

/-- A dtype: a builtin one, given by its type id, or one with an extended descriptor. -/
inductive dtype (E : Type)
  | builtin (type_id : Nat)
  | extended (descriptor : E)

/-- The evaluation context, as far as `make_assignment_kernel` reads it. -/
structure eval_context where
  default_assign_error_mode : assign_error_mode

/-- The parts of the dtype system that `assignment_kernels.cpp` uses and that are declared
elsewhere: the type id of `bool` (the ids of the thirteen types of the table are consecutive
from it, `complex_float64_type_id` being the last), the size and alignment of a builtin type,
`is_lossless_assignment`, the sizes of the two frame structures, and the `make_assignment_kernel`
method of an extended dtype. -/
structure dtype_system (E : Type) where
  bool_type_id : Nat
  get_data_size : Nat → Nat
  get_alignment : Nat → Nat
  is_lossless_assignment : dtype E → dtype E → Bool
  sizeof_hierarchical_kernel_common_base : Nat
  sizeof_unaligned_copy_single_kernel_extra : Nat
  extended_make_assignment_kernel : E → Nat → dtype E → Int → dtype E → Int →
    assign_error_mode → Option eval_context → Except String assignment_kernel

def dtype_system.complex_float64_type_id {E : Type} (ts : dtype_system E) : Nat :=
  ts.bool_type_id + 12

def make_pod_dtype_assignment_kernel {E : Type} (ts : dtype_system E)
    (offset_out data_size data_alignment : Nat) : assignment_kernel :=
  if data_size = data_alignment then
    -- Aligned specialization tables
    match data_size with
    | 1 =>
      { function := .aligned_fixed_size_copy_assign 1, data_size := none,
        ensure_capacity := none,
        offset := offset_out + ts.sizeof_hierarchical_kernel_common_base }
    | 2 =>
      { function := .aligned_fixed_size_copy_assign 2, data_size := none,
        ensure_capacity := none,
        offset := offset_out + ts.sizeof_hierarchical_kernel_common_base }
    | 4 =>
      { function := .aligned_fixed_size_copy_assign 4, data_size := none,
        ensure_capacity := none,
        offset := offset_out + ts.sizeof_hierarchical_kernel_common_base }
    | 8 =>
      { function := .aligned_fixed_size_copy_assign 8, data_size := none,
        ensure_capacity := none,
        offset := offset_out + ts.sizeof_hierarchical_kernel_common_base }
    | _ =>
      { function := .unaligned_copy_single, data_size := some data_size,
        ensure_capacity := some (offset_out + ts.sizeof_unaligned_copy_single_kernel_extra
          - ts.sizeof_hierarchical_kernel_common_base),
        offset := offset_out + ts.sizeof_unaligned_copy_single_kernel_extra }
  else
    -- Unaligned specialization tables
    match data_size with
    | 2 =>
      { function := .unaligned_fixed_size_copy_assign 2, data_size := none,
        ensure_capacity := none,
        offset := offset_out + ts.sizeof_hierarchical_kernel_common_base }
    | 4 =>
      { function := .unaligned_fixed_size_copy_assign 4, data_size := none,
        ensure_capacity := none,
        offset := offset_out + ts.sizeof_hierarchical_kernel_common_base }
    | 8 =>
      { function := .unaligned_fixed_size_copy_assign 8, data_size := none,
        ensure_capacity := none,
        offset := offset_out + ts.sizeof_hierarchical_kernel_common_base }
    | _ =>
      { function := .unaligned_copy_single, data_size := some data_size,
        ensure_capacity := some (offset_out + ts.sizeof_unaligned_copy_single_kernel_extra
          - ts.sizeof_hierarchical_kernel_common_base),
        offset := offset_out + ts.sizeof_unaligned_copy_single_kernel_extra }

/-- The types of `SRC_TYPE_LEVEL`, in the order of the rows and columns of the table. -/
def builtin_types : List builtin_type :=
  [.dynd_bool, .int8_t, .int16_t, .int32_t, .int64_t, .uint8_t, .uint16_t, .uint32_t,
    .uint64_t, .float, .double, .complex_float, .complex_double]

/-- The error modes of `ERROR_MODE_LEVEL`, in the order of the innermost table dimension. -/
def table_error_modes : List assign_error_mode :=
  [.assign_error_none, .assign_error_overflow, .assign_error_fractional, .assign_error_inexact]

/-- The entry `assign_table_single_kernel[i][j][k]`, `none` outside the bounds of the table. -/
def assign_table_single_kernel (i j k : Nat) : Option unary_single_operation_t :=
  match builtin_types[i]?, builtin_types[j]?, table_error_modes[k]? with
  | some dst_type, some src_type, some errmode =>
    some (.single_assigner_builtin dst_type src_type errmode)
  | _, _, _ => none

def make_builtin_dtype_assignment_function {E : Type} (ts : dtype_system E)
    (offset_out dst_type_id src_type_id : Nat) (errmode : assign_error_mode) :
    Except String assignment_kernel :=
  -- Do a table lookup for the built-in range of dtypes
  if dst_type_id ≥ ts.bool_type_id ∧ dst_type_id ≤ ts.complex_float64_type_id ∧
      src_type_id ≥ ts.bool_type_id ∧ src_type_id ≤ ts.complex_float64_type_id ∧
      errmode ≠ .assign_error_default then
    match assign_table_single_kernel (dst_type_id - ts.bool_type_id)
        (src_type_id - ts.bool_type_id) errmode.toNat with
    | some f =>
      .ok { function := f, data_size := none, ensure_capacity := none,
            offset := offset_out + ts.sizeof_hierarchical_kernel_common_base }
    | none => .error "index outside assign_table_single_kernel"
  else
    .error ("Cannot assign from " ++ toString src_type_id ++ " to " ++ toString dst_type_id)

def make_assignment_kernel {E : Type} (ts : dtype_system E) (offset_out : Nat)
    (dst_dt : dtype E) (dst_metadata : Int) (src_dt : dtype E) (src_metadata : Int)
    (errmode : assign_error_mode) (ectx : Option eval_context) :
    Except String assignment_kernel :=
  let errmode :=
    match ectx with
    | some ctx => if errmode = .assign_error_default then ctx.default_assign_error_mode else errmode
    | none => errmode
  match dst_dt with
  | .builtin dst_type_id =>
    match src_dt with
    | .builtin src_type_id =>
      -- If the casting can be done losslessly, disable the error check
      let errmode :=
        if errmode ≠ .assign_error_none ∧ ts.is_lossless_assignment dst_dt src_dt = true then
          .assign_error_none
        else errmode
      if dst_type_id = src_type_id then
        .ok (make_pod_dtype_assignment_kernel ts offset_out (ts.get_data_size dst_type_id)
          (ts.get_alignment dst_type_id))
      else
        make_builtin_dtype_assignment_function ts offset_out dst_type_id src_type_id errmode
    | .extended descriptor =>
      ts.extended_make_assignment_kernel descriptor offset_out dst_dt dst_metadata src_dt
        src_metadata errmode ectx
  | .extended descriptor =>
    ts.extended_make_assignment_kernel descriptor offset_out dst_dt dst_metadata src_dt
      src_metadata errmode ectx

/-- A call of the function stored in a frame, with the frame itself as `extra`. -/
def assignment_kernel.single
    (assigner : builtin_type → builtin_type → assign_error_mode → Int → Int → byte_memory →
      byte_memory)
    (k : assignment_kernel) (dst src : Int) (m : byte_memory) : byte_memory :=
  k.function.single assigner (k.data_size.getD 0) dst src m

/-- A dtype system for the examples: `bool` has type id 1, every builtin type has size and
alignment 4, every assignment between builtin types counts as lossless, the frame structures
have 16 and 24 bytes, and there is no extended dtype. -/
def example_dtype_system : dtype_system Empty :=
  { bool_type_id := 1,
    get_data_size := fun _ => 4,
    get_alignment := fun _ => 4,
    is_lossless_assignment := fun _ _ => true,
    sizeof_hierarchical_kernel_common_base := 16,
    sizeof_unaligned_copy_single_kernel_extra := 24,
    extended_make_assignment_kernel := fun descriptor _ _ _ _ _ _ _ => nomatch descriptor }

/-- A byte memory for the examples: address `a` holds the byte `a mod 256`. -/
def example_bytes : byte_memory := fun a => ⟨(a % 256).toNat, by omega⟩

/-- The copy specification: the `n` bytes at `dst` hold what the `n` bytes at `src` held, and no
other byte has changed. -/
def copies (n : Nat) (dst src : Int) (m m1 : byte_memory) : Prop :=
  (∀ i : Nat, i < n → m1 (dst + i) = m (src + i)) ∧
  (∀ a : Int, (∀ i : Nat, i < n → a ≠ dst + i) → m1 a = m a)

/-! ## The kernel builder (`ckernel_builder.hpp`)

The bytes of a buffer (the inline `m_static_data` or a heap block) are a list, one entry per
byte; an `intptr_t` has eight bytes.  The outcome of an allocation is an argument of the
functions that allocate: `none` when `malloc` or `realloc` returns NULL, and otherwise the
bytes found in the memory obtained, which the caller has not initialised. -/

/-- The parts of `ckernel_prefix` (declared in `ckernel_prefix.hpp`) that the builder relies on:
the size of the structure, the offset of its `destructor` field, and the effect that a call
`data->destructor(data)` of the function at a given address has on the bytes of the buffer. -/
structure ckernel_prefix_abi where
  prefix_size : Nat
  destructor_offset : Nat
  call_destructor : Nat → List (Fin 256) → List (Fin 256)

/-- The value of `sizeof(m_static_data)`: sixteen `intptr_t`. -/
def sizeof_m_static_data : Nat := 16 * 8

/-- The pointer held by the eight bytes at `offset` (little-endian); 0 is the null pointer.  A
byte beyond the end of the list reads as 0. -/
def read_pointer (bytes : List (Fin 256)) (offset : Nat) : Nat :=
  (List.range 8).foldr (fun i value => (bytes.getD (offset + i) 0).val + 256 * value) 0

/-- The field `destructor` of the `ckernel_prefix` at `offset`. -/
def ckernel_prefix_abi.destructor (abi : ckernel_prefix_abi) (bytes : List (Fin 256))
    (offset : Nat) : Nat :=
  read_pointer bytes (offset + abi.destructor_offset)

/-- The value of `m_data`: the address of `m_static_data`, a heap block (given with its
contents), or NULL. -/
inductive ckb_data
  | static_data
  | heap (block : List (Fin 256))
  | null

structure ckernel_builder where
  m_data : ckb_data
  m_capacity : Int
  m_static_data : List (Fin 256)

/-- The bytes `m_data` points to, those which `get_at<T>(offset)` reinterprets. -/
def ckernel_builder.bytes (ckb : ckernel_builder) : List (Fin 256) :=
  match ckb.m_data with
  | .static_data => ckb.m_static_data
  | .heap block => block
  | .null => []

/-- What a builder function does besides changing the builder: a call of the root frame's
destructor (given by its address), or `free` of the heap block. -/
inductive ckb_event
  | destructor_call (destructor : Nat)
  | free
  deriving DecidableEq

inductive ckb_exception
  | bad_alloc
  deriving DecidableEq

/-- `malloc(size)`. -/
def malloc (alloc : Option (Nat → Fin 256)) (size : Nat) : Option (List (Fin 256)) :=
  alloc.map (fun garbage => (List.range size).map garbage)

/-- `realloc(block, size)`: on success the bytes of the old block are kept as far as they fit;
`realloc(NULL, size)` is `realloc [] size`. -/
def realloc (alloc : Option (Nat → Fin 256)) (block : List (Fin 256)) (size : Nat) :
    Option (List (Fin 256)) :=
  alloc.map (fun garbage => (List.range size).map (fun i => (block[i]?).getD (garbage i)))

/-- `memcpy(dst, src, n)` on two distinct buffers, as the new contents of `dst`. -/
def memcpy_block (dst src : List (Fin 256)) (n : Nat) : List (Fin 256) :=
  (List.range dst.length).map (fun i => if i < n then src.getD i 0 else dst.getD i 0)

/-- `memset(block + start, value, n)`, as the new contents of `block`. -/
def memset_block (block : List (Fin 256)) (start : Nat) (value : Fin 256) (n : Nat) :
    List (Fin 256) :=
  (List.range block.length).map
    (fun i => if start ≤ i ∧ i < start + n then value else block.getD i 0)

namespace ckernel_builder

/-- The private `destroy()`.  After `free` the pointer `m_data` is left as it was. -/
def destroy (abi : ckernel_prefix_abi) (ckb : ckernel_builder) :
    ckernel_builder × List ckb_event :=
  match ckb.m_data with
  | .null => (ckb, [])
  | .static_data =>
    -- Destroy whatever was created
    if abi.destructor ckb.m_static_data 0 ≠ 0 then
      ({ ckb with
          m_static_data :=
            abi.call_destructor (abi.destructor ckb.m_static_data 0) ckb.m_static_data },
        [.destructor_call (abi.destructor ckb.m_static_data 0)])
    else (ckb, [])
  | .heap block =>
    if abi.destructor block 0 ≠ 0 then
      -- Destroy whatever was created, then free the memory
      ({ ckb with m_data := .heap (abi.call_destructor (abi.destructor block 0) block) },
        [.destructor_call (abi.destructor block 0), .free])
    else (ckb, [.free])

/-- The constructor `ckernel_builder()`. -/
def construct : ckernel_builder :=
  { m_data := .static_data,
    m_capacity := sizeof_m_static_data,
    m_static_data := List.replicate sizeof_m_static_data 0 }

/-- The destructor `~ckernel_builder()`. -/
def destruct (abi : ckernel_prefix_abi) (ckb : ckernel_builder) :
    ckernel_builder × List ckb_event :=
  ckb.destroy abi

def reset (abi : ckernel_prefix_abi) (ckb : ckernel_builder) :
    ckernel_builder × List ckb_event :=
  ({ m_data := .static_data,
     m_capacity := sizeof_m_static_data,
     m_static_data := List.replicate sizeof_m_static_data 0 },
    (ckb.destroy abi).2)

end ckernel_builder

/-- The C function `ckernel_builder_ensure_capacity_leaf`; the first component of the result is
the value returned. -/
def ckernel_builder_ensure_capacity_leaf (abi : ckernel_prefix_abi)
    (alloc : Option (Nat → Fin 256)) (ckb : ckernel_builder) (requested_capacity : Int) :
    Int × ckernel_builder × List ckb_event :=
  if ckb.m_capacity < requested_capacity then
    -- Grow by a factor of 1.5
    let grown_capacity := (ckb.m_capacity * 3).tdiv 2
    let requested_capacity :=
      if requested_capacity < grown_capacity then grown_capacity else requested_capacity
    let new_data : Option (List (Fin 256)) :=
      match ckb.m_data with
      | .static_data =>
        -- If we were previously using the static data, do a malloc
        (malloc alloc requested_capacity.toNat).map
          (fun new_data => memcpy_block new_data ckb.m_static_data ckb.m_capacity.toNat)
      | .heap block =>
        -- Otherwise do a realloc
        realloc alloc block requested_capacity.toNat
      | .null => realloc alloc [] requested_capacity.toNat
    match new_data with
    | none =>
      (-1, { (ckb.destroy abi).1 with m_data := .null }, (ckb.destroy abi).2)
    | some new_data =>
      -- Zero out the newly allocated capacity
      (0,
        { ckb with
            m_data := .heap (memset_block new_data ckb.m_capacity.toNat 0
              (requested_capacity - ckb.m_capacity).toNat),
            m_capacity := requested_capacity },
        [])
  else (0, ckb, [])

/-- The C function `ckernel_builder_ensure_capacity`.  The sum
`requested_capacity + sizeof(ckernel_prefix)` of an `intptr_t` and a `size_t` is computed in
`size_t`, modulo `2 ^ 64`, and converted to the `intptr_t` parameter of
`ckernel_builder_ensure_capacity_leaf`. -/
def ckernel_builder_ensure_capacity (abi : ckernel_prefix_abi)
    (alloc : Option (Nat → Fin 256)) (ckb : ckernel_builder) (requested_capacity : Int) :
    Int × ckernel_builder × List ckb_event :=
  ckernel_builder_ensure_capacity_leaf abi alloc ckb
    (to_intptr_t (to_size_t requested_capacity + abi.prefix_size))

/-- The member `ensure_capacity_leaf`; the first component of the result is the exception
thrown, if any. -/
def ckernel_builder.ensure_capacity_leaf (abi : ckernel_prefix_abi)
    (alloc : Option (Nat → Fin 256)) (ckb : ckernel_builder) (requested_capacity : Int) :
    Option ckb_exception × ckernel_builder × List ckb_event :=
  if (ckernel_builder_ensure_capacity_leaf abi alloc ckb requested_capacity).1 < 0 then
    (some .bad_alloc, (ckernel_builder_ensure_capacity_leaf abi alloc ckb requested_capacity).2)
  else
    (none, (ckernel_builder_ensure_capacity_leaf abi alloc ckb requested_capacity).2)

/-- The member `ensure_capacity`.  As in the C function, the sum
`requested_capacity + sizeof(ckernel_prefix)` is computed in `size_t`, modulo `2 ^ 64`, and
converted to the `intptr_t` parameter of `ensure_capacity_leaf`. -/
def ckernel_builder.ensure_capacity (abi : ckernel_prefix_abi)
    (alloc : Option (Nat → Fin 256)) (ckb : ckernel_builder) (requested_capacity : Int) :
    Option ckb_exception × ckernel_builder × List ckb_event :=
  ckb.ensure_capacity_leaf abi alloc
    (to_intptr_t (to_size_t requested_capacity + abi.prefix_size))

/-- A builder that holds a buffer: `m_data` is the inline buffer of `sizeof(m_static_data)`
bytes with that capacity, or a heap block of `m_capacity` bytes, no smaller than the inline
buffer. -/
def ckernel_builder.valid (ckb : ckernel_builder) : Prop :=
  match ckb.m_data with
  | .static_data =>
    ckb.m_capacity = sizeof_m_static_data ∧ ckb.m_static_data.length = sizeof_m_static_data
  | .heap block =>
    (sizeof_m_static_data : Int) ≤ ckb.m_capacity ∧ block.length = ckb.m_capacity.toNat
  | .null => False

/-- An ABI for the examples: a prefix of two pointers, `function` and `destructor`, and
destructors that leave the bytes of the buffer as they are. -/
def example_abi : ckernel_prefix_abi :=
  { prefix_size := 16, destructor_offset := 8, call_destructor := fun _ bytes => bytes }

/-- A run of `ensure_capacity` calls on a builder, each given with the outcome of its allocation
and the capacity requested; the run ends at the first call that throws.  The result tells
whether a call threw, and gives the builder and the events of the run. -/
def ensure_capacity_calls (abi : ckernel_prefix_abi) :
    List (Option (Nat → Fin 256) × Int) → ckernel_builder →
      Bool × ckernel_builder × List ckb_event
  | [], ckb => (false, ckb, [])
  | (alloc, requested_capacity) :: calls, ckb =>
    match ckb.ensure_capacity abi alloc requested_capacity with
    | (some _, ckb1, events) => (true, ckb1, events)
    | (none, ckb1, events) =>
      ((ensure_capacity_calls abi calls ckb1).1, (ensure_capacity_calls abi calls ckb1).2.1,
        events ++ (ensure_capacity_calls abi calls ckb1).2.2)

/-- The events of a builder's life: a run of `ensure_capacity` calls, then its destruction. -/
def events_until_destruct (abi : ckernel_prefix_abi)
    (calls : List (Option (Nat → Fin 256) × Int)) (ckb : ckernel_builder) : List ckb_event :=
  (ensure_capacity_calls abi calls ckb).2.2 ++
    ((ensure_capacity_calls abi calls ckb).2.1.destruct abi).2

/-- The events of a run of `ensure_capacity` calls, a `reset()`, and then the destruction of the
builder. -/
def events_until_reset_destruct (abi : ckernel_prefix_abi)
    (calls : List (Option (Nat → Fin 256) × Int)) (ckb : ckernel_builder) : List ckb_event :=
  (ensure_capacity_calls abi calls ckb).2.2 ++
    ((ensure_capacity_calls abi calls ckb).2.1.reset abi).2 ++
    (((ensure_capacity_calls abi calls ckb).2.1.reset abi).1.destruct abi).2

/-- The destructors called, in order. -/
def destructor_calls (events : List ckb_event) : List Nat :=
  events.filterMap (fun event =>
    match event with
    | .destructor_call destructor => some destructor
    | .free => none)

/-- The number of calls of `free`. -/
def frees (events : List ckb_event) : Nat :=
  events.count .free

/-- A builder whose inline buffer holds a root frame with the destructor at address `0x1234`
(the bytes `0x34, 0x12` at offsets 8 and 9 in the layout of `example_abi`). -/
def example_builder : ckernel_builder :=
  { m_data := .static_data,
    m_capacity := sizeof_m_static_data,
    m_static_data :=
      (List.range sizeof_m_static_data).map
        (fun i => if i = 8 then 0x34 else if i = 9 then 0x12 else 0) }

/-! ## Destruction of a reduction kernel

The frames of a kernel are looked at where they lie in the kernel buffer: a frame is found at
its offset, and a destructor reaches the children of its frame by offset. -/

/-- Modelled from the spec: `kernel_builder::aligned_size` (declared outside
`reduction_kernel.hpp`), `aligned(x) = round_up(x, wordsize)` with a word of eight bytes. -/
def aligned_size (size : Nat) : Nat := (size + 7) / 8 * 8

/-- The two outer frame types, by their template arguments. -/
inductive outer_kernel_id
  | fixed_dim_false_false
  | fixed_dim_true_false
  deriving DecidableEq

/-- The three inner frame types, by their template arguments. -/
inductive inner_kernel_id
  | fixed_dim_false_true
  | var_dim_false_true
  | fixed_dim_true_true
  deriving DecidableEq

/-- A frame of the buffer, as far as destruction goes: an outer reduction frame, an inner
reduction frame with its field `init_offset` (`dst_init_kernel_offset` for
`fixed_dim_true_true`), or a kernel whose destructor destroys no other frame. -/
inductive kernel_frame
  | outer (id : outer_kernel_id)
  | inner (id : inner_kernel_id) (init_offset : Nat)
  | childless
  deriving DecidableEq

/-- The sizes `sizeof(SelfType)` of the five frame types, fixed by the compiler. -/
structure frame_sizes where
  outer : outer_kernel_id → Nat
  inner : inner_kernel_id → Nat

/-- Modelled from the spec: `kernel_prefix::get_child(offset)` (declared outside
`reduction_kernel.hpp`), the frame that lies `aligned(offset)` bytes behind this one. -/
def kernel_prefix.get_child (this offset : Nat) : Nat := this + aligned_size offset

/-- Modelled from the spec: `kernel_prefix::destroy()` (declared outside
`reduction_kernel.hpp`) on the frame at offset `this`: the destructor is nullable and, if set,
is invoked with the frame.  `destructor` is the function stored in the prefix, `none` for a null
pointer; the result lists the offsets of the frames whose destructor was called, in order. -/
def kernel_prefix.destroy (destructor : Option (Nat → Option (List Nat))) (this : Nat) :
    Option (List Nat) :=
  match destructor with
  | none => some []
  | some destructor => destructor this

/-- The destructor stored in the prefix of `frame`, called on the frame at offset `this`: for a
reduction frame `base_reduction_kernel<SelfType>::destruct`, that is `~reduction_kernel()`, which
destroys `get_child()` for the outer frames, and `get_child()` and `get_child(init_offset)` for
the inner frames, in the order of each destructor.  The destructor of a child is the one of the
frame that the buffer holds at the child's offset (`none` where the prefix has no destructor).
The result lists the offsets of the frames whose destructor was called, in order; it is `none`
when the calls are nested deeper than `fuel`. -/
def reduction_kernel.destruct (sizes : frame_sizes) (buffer : Nat → Option kernel_frame) :
    Nat → kernel_frame → Nat → Option (List Nat)
  | 0, _, _ => none
  | _ + 1, .childless, this => some [this]
  | fuel + 1, .outer id, this =>
    -- ~reduction_kernel() { get_child()->destroy(); }
    match kernel_prefix.destroy
        ((buffer ( kernel_prefix.get_child this (sizes.outer id))).map
          (reduction_kernel.destruct sizes buffer fuel))
        ( kernel_prefix.get_child this (sizes.outer id)) with
    | some child => some (this :: child)
    | none => none
  | fuel + 1, .inner .fixed_dim_false_true init_offset, this =>
    -- get_child()->destroy(); get_child(init_offset)->destroy();
    match kernel_prefix.destroy
        ((buffer ( kernel_prefix.get_child this (sizes.inner .fixed_dim_false_true))).map
          (reduction_kernel.destruct sizes buffer fuel))
        ( kernel_prefix.get_child this (sizes.inner .fixed_dim_false_true)),
      kernel_prefix.destroy
        ((buffer ( kernel_prefix.get_child this (aligned_size init_offset))).map
          (reduction_kernel.destruct sizes buffer fuel))
        ( kernel_prefix.get_child this (aligned_size init_offset)) with
    | some child, some init => some (this :: child ++ init)
    | _, _ => none
  | fuel + 1, .inner .var_dim_false_true init_offset, this =>
    -- get_child(init_offset)->destroy(); get_child()->destroy();
    match kernel_prefix.destroy
        ((buffer ( kernel_prefix.get_child this (aligned_size init_offset))).map
          (reduction_kernel.destruct sizes buffer fuel))
        ( kernel_prefix.get_child this (aligned_size init_offset)),
      kernel_prefix.destroy
        ((buffer ( kernel_prefix.get_child this (sizes.inner .var_dim_false_true))).map
          (reduction_kernel.destruct sizes buffer fuel))
        ( kernel_prefix.get_child this (sizes.inner .var_dim_false_true)) with
    | some init, some child => some (this :: init ++ child)
    | _, _ => none
  | fuel + 1, .inner .fixed_dim_true_true init_offset, this =>
    -- get_child()->destroy(); get_child(dst_init_kernel_offset)->destroy();
    match kernel_prefix.destroy
        ((buffer ( kernel_prefix.get_child this (sizes.inner .fixed_dim_true_true))).map
          (reduction_kernel.destruct sizes buffer fuel))
        ( kernel_prefix.get_child this (sizes.inner .fixed_dim_true_true)),
      kernel_prefix.destroy
        ((buffer ( kernel_prefix.get_child this (aligned_size init_offset))).map
          (reduction_kernel.destruct sizes buffer fuel))
        ( kernel_prefix.get_child this (aligned_size init_offset)) with
    | some child, some init => some (this :: child ++ init)
    | _, _ => none

/-- Destroying the frame at `offset` of the buffer, `buffer[offset]->destroy()`. -/
def destroy_frame (sizes : frame_sizes) (buffer : Nat → Option kernel_frame) (fuel offset : Nat) :
    Option (List Nat) :=
  kernel_prefix.destroy ((buffer offset).map (reduction_kernel.destruct sizes buffer fuel)) offset

/-- A reduction kernel: outer frames, one behind the other, down to an inner frame, which has
the accumulation kernel and the destination-initialisation kernel as its children. -/
inductive kernel_tree
  | outer (id : outer_kernel_id) (child : kernel_tree)
  | inner (id : inner_kernel_id) (init_offset : Nat)

/-- The number of outer frames of a kernel. -/
def kernel_tree.depth : kernel_tree → Nat
  | .outer _ child => child.depth + 1
  | .inner _ _ => 0

/-- The offsets of the frames of the kernel whose root frame lies at `offset`: every reduction
frame, and the two children of the inner frame. -/
def kernel_tree.frames (sizes : frame_sizes) : kernel_tree → Nat → List Nat
  | .outer id child, offset =>
    offset :: child.frames sizes ( kernel_prefix.get_child offset (sizes.outer id))
  | .inner id init_offset, offset =>
    [offset, kernel_prefix.get_child offset (sizes.inner id),
      kernel_prefix.get_child offset (aligned_size init_offset)]

/-- The buffer holds the fully built kernel `tree` at `offset`: every frame lies behind its
parent, and the init offset recorded in the inner frame points past the frame itself, to a
kernel behind the place of the accumulation kernel. -/
def kernel_tree.built (sizes : frame_sizes) (buffer : Nat → Option kernel_frame) :
    kernel_tree → Nat → Prop
  | .outer id child, offset =>
    buffer offset = some (.outer id) ∧
    child.built sizes buffer ( kernel_prefix.get_child offset (sizes.outer id))
  | .inner id init_offset, offset =>
    buffer offset = some (.inner id init_offset) ∧
    buffer ( kernel_prefix.get_child offset (sizes.inner id)) = some .childless ∧
    buffer ( kernel_prefix.get_child offset (aligned_size init_offset)) = some .childless ∧
    aligned_size (sizes.inner id) < aligned_size init_offset

/-- Frame sizes for the examples: 40 bytes for the outer frames, 64 for the inner ones. -/
def example_frame_sizes : frame_sizes :=
  { outer := fun _ => 40, inner := fun _ => 64 }

/-- A buffer for the examples: a reduce-outer frame at offset 0, behind it a fixed-dim
reduce-inner frame at offset 40 with init offset 96, its accumulation kernel at offset 104 and
its destination-initialisation kernel at offset 136. -/
def example_kernel_buffer : Nat → Option kernel_frame := fun offset =>
  if offset = 0 then some (.outer .fixed_dim_false_false)
  else if offset = 40 then some (.inner .fixed_dim_false_true 96)
  else if offset = 104 then some .childless
  else if offset = 136 then some .childless
  else none

/-! ## The traversal record along an `instantiate` walk -/

/-- The method `is_broadcast()`:
`axes != NULL && (naxis == 0 || stored_ndim - axes[0] != ndim)`.  The entry `axes[0]` is the
first of the entries from the pointer on; the result is `none` when the method reads `axes[0]`
behind the last entry of the array. -/
def reduction_data_type.is_broadcast {α : Type} (data : reduction_data_type α) : Option Bool :=
  match data.axes with
  | none => some false
  | some axes =>
    if data.naxis = 0 then some true
    else
      match axes with
      | [] => none
      | axis :: _ => some (decide (data.stored_ndim - axis ≠ data.ndim))

/-- The predicate `is_broadcast_here()` in the words of the specification:
`axes == null ∨ (stored_ndim − axes[0] ≠ ndim)`. -/
def reduction_data_type.is_broadcast_here {α : Type} (data : reduction_data_type α) : Prop :=
  data.axes = none ∨
    ∃ axis rest, data.axes = some (axis :: rest) ∧ data.stored_ndim - axis ≠ data.ndim

/-- The invariant `0 ≤ naxis ≤ ndim ≤ stored_ndim` of the record. -/
def reduction_data_type.invariant {α : Type} (data : reduction_data_type α) : Prop :=
  0 ≤ data.naxis ∧ data.naxis ≤ data.ndim ∧ data.ndim ≤ data.stored_ndim

/-- The array `axes`, when the pointer is not null, lists the `naxis` remaining reduction axes
in strictly ascending order within `[stored_ndim - ndim, stored_ndim)`. -/
def reduction_data_type.axes_ascending {α : Type} (data : reduction_data_type α) : Prop :=
  ∀ axes, data.axes = some axes →
    (axes.length : Int) = data.naxis ∧ axes.Pairwise (fun a b => a < b) ∧
    ∀ axis ∈ axes, data.stored_ndim - data.ndim ≤ axis ∧ axis < data.stored_ndim

/-- A null `axes` pointer stands for the reduction of every axis: `naxis = ndim`. -/
def reduction_data_type.null_axes_reduce_all {α : Type} (data : reduction_data_type α) : Prop :=
  data.axes = none → data.naxis = data.ndim

/-- Two functions `self->instantiate` return the same for every record that satisfies `P`,
whatever the types and the kernel request. -/
def agree_where {α β : Type} (P : reduction_data_type α → Prop) (self self1 : instantiate_t β α) :
    Prop :=
  ∀ data dst_tp src_tp kernreq, P data →
    self data dst_tp src_tp kernreq = self1 data dst_tp src_tp kernreq

/-- The type with the fixed dimensions `dims` (size and stride of each, outermost first) over
the element type. -/
def add_fixed_dims (dims : List (Int × Int)) (element_tp : ndt_type) : ndt_type :=
  dims.foldr (fun dim tp => .fixed_dim dim.1 dim.2 tp) element_tp

/-- A walk of `instantiate` calls through fixed-dim reduction frames.  `kinds` gives for each
dimension of the source, outermost first, the frame chosen for it by the reduction callable
(the `self` that every `instantiate` calls back, outside `reduction_kernel.hpp`): `true` for a
broadcast frame, `false` for a reduce frame; the last dimension gets the inner frame, the others
the outer one.  `leaf_single` and `leaf_strided` are the calls that append the two children of
a reduce-inner and of a broadcast-inner frame. -/
def instantiate_walk {α : Type}
    (leaf_single : instantiate_t (kernel_single_t α × kernel_strided_t α) α)
    (leaf_strided : instantiate_t (kernel_strided_t α × kernel_strided_t α) α) :
    List Bool → instantiate_t ( reduction_kernel_prefix α) α
  | [] => fun _ _ _ _ => .error "no dimension is left"
  | [true] => fun data dst_tp src_tp kernreq =>
    (reduction_kernel_fixed_dim_true_true.instantiate leaf_strided data dst_tp src_tp
      kernreq).map (fun r => r.2.to_reduction_child)
  | [false] => fun data dst_tp src_tp kernreq =>
    (reduction_kernel_fixed_dim_false_true.instantiate leaf_single data dst_tp src_tp
      kernreq).map (fun r => r.2.to_reduction_child)
  | true :: kind :: kinds => fun data dst_tp src_tp kernreq =>
    (reduction_kernel_fixed_dim_true_false.instantiate
      (instantiate_walk leaf_single leaf_strided (kind :: kinds)) data dst_tp src_tp
      kernreq).map (fun r => r.2.to_reduction_child)
  | false :: kind :: kinds => fun data dst_tp src_tp kernreq =>
    (reduction_kernel_fixed_dim_false_false.instantiate
      (instantiate_walk leaf_single leaf_strided (kind :: kinds)) data dst_tp src_tp
      kernreq).map (fun r => r.2.to_reduction_child)

/-- The properties of the binary operator of a reduction: the flags `left_associative`,
`commutative` and `right_associative` of the `properties` of the reduction callable. -/
structure reduction_properties where
  left_associative : Bool
  commutative : Bool
  right_associative : Bool
  deriving DecidableEq

/-- The error `UnsupportedReduction` of a reduction over several axes whose operator is not both
left-associative and commutative. -/
def unsupported_reduction_multiple_axes : String :=
  "UnsupportedReduction: for reducing along multiple dimensions, the reduction function must be both associative and commutative"

/-- The error `UnsupportedReduction` of a right-associative operator. -/
def unsupported_reduction_right_associative : String :=
  "UnsupportedReduction: right_associative is not yet supported"

/-- Modelled from the spec: the test of the operator's properties in a build (section 4.6,
step 6, and the error `UnsupportedReduction` of section 7).  It belongs to the `instantiate` of
the reduction callable, the function that the frames of `reduction_kernel.hpp` call back as
`self->instantiate`; that function is not in `reduction_kernel.hpp`, which has the test only
inside a comment behind its namespaces.  A reduction over two or more axes requires an operator
that is left-associative and commutative, and right-associative reductions are not
supported. -/
def reduction_driver.check_properties {α : Type} (properties : reduction_properties)
    (data : reduction_data_type α) : Except String Unit :=
  if 2 ≤ data.naxis ∧
      ¬ (properties.left_associative = true ∧ properties.commutative = true) then
    .error unsupported_reduction_multiple_axes
  else if properties.right_associative = true then
    .error unsupported_reduction_right_associative
  else .ok ()

/-- Modelled from the spec: the build of a reduction kernel by the driver of section 4.6, the
`instantiate` of the reduction callable, which is not in `reduction_kernel.hpp`: the test of the
operator's properties, then the top-down walk through the frames.  `kinds` gives the frame
chosen for each dimension of the source and `leaf_single`, `leaf_strided` the calls that append
the children of the inner frame, as in `instantiate_walk`. -/
def reduction_driver.instantiate {α : Type} (properties : reduction_properties)
    (leaf_single : instantiate_t (kernel_single_t α × kernel_strided_t α) α)
    (leaf_strided : instantiate_t (kernel_strided_t α × kernel_strided_t α) α)
    (kinds : List Bool) : instantiate_t ( reduction_kernel_prefix α) α :=
  fun data dst_tp src_tp kernreq =>
    match reduction_driver.check_properties properties data with
    | .error message => .error message
    | .ok _ => instantiate_walk leaf_single leaf_strided kinds data dst_tp src_tp kernreq

/-- The properties of an operator that is left-associative and commutative, as the sum is. -/
def associative_commutative_properties : reduction_properties :=
  { left_associative := true, commutative := true, right_associative := false }

/-- The properties of an operator that is not commutative: `left_associative` only. -/
def non_commutative_properties : reduction_properties :=
  { left_associative := true, commutative := false, right_associative := false }

/-- A record for the examples: the reduction over both axes of a two-dimensional array, with
identity 0, before the first step. -/
def example_reduction_data_both : reduction_data_type Int :=
  { identity := some 0, ndim := 2, naxis := 2, axes := some [0, 1], keepdims := false,
    stored_ndim := 2 }

/-- A record for the examples: the reduction over axis 1 of a two-dimensional array, before the
first step. -/
def example_reduction_data : reduction_data_type Int :=
  { identity := none, ndim := 2, naxis := 1, axes := some [1], keepdims := false,
    stored_ndim := 2 }

/-! ## The strided wrapper (`strided_assign_kernel_extra`) -/

/-- The frame `strided_assign_kernel_extra`.  `child` is the call `opchild(dst, src, echild)` of
the function stored in the frame that lies behind this one (`&(e + 1)->base`), as a transformer
of the state `σ` it works on. -/
structure strided_assign_kernel_extra (σ : Type) where
  size : Int
  dst_stride : Int
  src_stride : Int
  child : Int → Int → σ → σ

/-- The iterations of `for (...; ++i, dst += dst_stride, src += src_stride)
{ opchild(dst, src, echild); }` that are left when `count` more are to be run. -/
def strided_assign_kernel_extra.loop {σ : Type} (e : strided_assign_kernel_extra σ) :
    Nat → Int → Int → σ → σ
  | 0, _, _, m => m
  | count + 1, dst, src, m =>
    strided_assign_kernel_extra.loop e count (dst + e.dst_stride) (src + e.src_stride)
      (e.child dst src m)

/-- `strided_assign_kernel_extra::single`.  The loop `for (intptr_t i = 0; i < size; ...)` runs
`size` times for a positive `size` and not at all otherwise. -/
def strided_assign_kernel_extra.single {σ : Type} (e : strided_assign_kernel_extra σ)
    (dst src : Int) (m : σ) : σ :=
  e.loop e.size.toNat dst src m

/-- A strided wrapper for the examples: three elements of four bytes, both strides 4, over the
child `unaligned_copy_single` with `data_size = 4`. -/
def example_strided_assign : strided_assign_kernel_extra byte_memory :=
  { size := 3, dst_stride := 4, src_stride := 4, child := unaligned_copy_single 4 }

/-! ## Handing the kernel over (`ckernel_builder::move_into_cki`) -/

/-- The values that `move_into_cki` stores in the field `free_func`: NULL, or the address of the
library function `free`. -/
inductive cki_free_func
  | null
  | free
  deriving DecidableEq

/-- The parts of `ckernel_instance` (declared in `ckernel_instance.hpp`) that `move_into_cki`
writes: `kernel` is NULL (`none`) or the heap block it points to, given with its contents. -/
structure ckernel_instance where
  kernel : Option (List (Fin 256))
  kernel_size : Nat
  free_func : cki_free_func

/-- The member `move_into_cki(out, kernel_size)`; the first component of the result is the
exception thrown, if any, the third is `*out` afterwards. -/
def ckernel_builder.move_into_cki (alloc : Option (Nat → Fin 256)) (ckb : ckernel_builder)
    (out : ckernel_instance) (kernel_size : Nat) :
    Option ckb_exception × ckernel_builder × ckernel_instance :=
  match ckb.m_data with
  | .static_data =>
    -- Allocate some memory and move the kernel data into it
    match malloc alloc kernel_size with
    | none => (some .bad_alloc, ckb, { out with kernel := none, free_func := .null })
    | some block =>
      (none,
        { ckb with m_static_data := List.replicate sizeof_m_static_data 0 },
        { kernel := some (memcpy_block block ckb.m_static_data kernel_size),
          kernel_size := kernel_size, free_func := .free })
  | .heap block =>
    -- Use the existing kernel data memory,
    -- switch this kernel back to an empty static data kernel
    (none,
      { m_data := .static_data, m_capacity := sizeof_m_static_data,
        m_static_data := List.replicate sizeof_m_static_data 0 },
      { kernel := some block, kernel_size := kernel_size, free_func := .free })
  | .null =>
    (none,
      { m_data := .static_data, m_capacity := sizeof_m_static_data,
        m_static_data := List.replicate sizeof_m_static_data 0 },
      { kernel := none, kernel_size := kernel_size, free_func := .free })

/-- A heap-backed builder for the examples: a block of 192 bytes that holds a root frame with
the destructor at address `0x1234`. -/
def example_heap_builder : ckernel_builder :=
  { m_data := .heap ((List.range 192).map
      (fun i => if i = 8 then 0x34 else if i = 9 then 0x12 else 0)),
    m_capacity := 192,
    m_static_data := List.replicate sizeof_m_static_data 0 }

/-! ## The short vector (`shortvector.hpp`) -/

/-- A value of the pointer `m_data`: the address of the array `m_shortdata` of the shortvector
object at address `owner`, or the address of the heap block `block`. -/
inductive shortvector_pointer
  | shortdata (owner : Nat)
  | heap (block : Nat)
  deriving DecidableEq

/-- A `shortvector<T, staticN>` object at address `address`; the array `m_shortdata` is the list
of its `staticN` elements. -/
structure shortvector (T : Type) where
  address : Nat
  m_data : shortvector_pointer
  m_shortdata : List T

namespace shortvector

variable {T : Type}

/-- The elements reached through `m_data` (by `get()` and `operator[]`), in a heap that holds
the contents of its live blocks: the object's own array `m_shortdata`, or a heap block; `none`
for a pointer to the array of another object and for a block that is not live. -/
def elements (heap : Nat → Option (List T)) (v : shortvector T) : Option (List T) :=
  match v.m_data with
  | .shortdata owner => if owner = v.address then some v.m_shortdata else none
  | .heap block => heap block

/-- The vector is inline (`m_data` points to its own `m_shortdata`) or heap-backed. -/
def owns_data (v : shortvector T) : Prop :=
  v.m_data = .shortdata v.address ∨ ∃ block, v.m_data = .heap block

/-- `delete[] m_data`: the heap block is no longer live. -/
def delete_array (heap : Nat → Option (List T)) (m_data : shortvector_pointer) :
    Nat → Option (List T) :=
  match m_data with
  | .heap block => fun b => if b = block then none else heap b
  | .shortdata _ => heap

/-- The move constructor `shortvector(shortvector&& rhs)` of the object at address `address`,
whose array `m_shortdata` holds `uninitialized` before; the result is the new object and `rhs`
afterwards. -/
def move_construct (address : Nat) (uninitialized : List T) (rhs : shortvector T) :
    shortvector T × shortvector T :=
  if rhs.m_data = .shortdata rhs.address then
    -- In the short case, copy the full shortdata vector
    ({ address := address, m_data := .shortdata address, m_shortdata := rhs.m_shortdata }, rhs)
  else
    -- In the long case, move the long allocated pointer
    ({ address := address, m_data := rhs.m_data, m_shortdata := uninitialized },
      { rhs with m_data := .shortdata rhs.address })

/-- The move assignment `operator=(shortvector&& rhs)`: the heap, `*this` and `rhs`
afterwards.  The two arguments are the same object when their addresses are equal. -/
def move_assign (heap : Nat → Option (List T)) (this rhs : shortvector T) :
    (Nat → Option (List T)) × shortvector T × shortvector T :=
  if this.address ≠ rhs.address then
    let heap := if this.m_data ≠ .shortdata this.address then delete_array heap this.m_data
      else heap
    if rhs.m_data = .shortdata rhs.address then
      -- In the short case, copy the full shortdata vector
      (heap, { this with m_shortdata := rhs.m_shortdata, m_data := .shortdata this.address },
        rhs)
    else
      -- In the long case, move the long allocated pointer
      (heap, { this with m_data := rhs.m_data }, { rhs with m_data := .shortdata rhs.address })
  else (heap, this, rhs)

/-- The member `swap(shortvector& rhs)` on two distinct objects: `*this` and `rhs`
afterwards. -/
def swap (this rhs : shortvector T) : shortvector T × shortvector T :=
  -- Start by swapping the pointers
  let this1 : shortvector T := { this with m_data := rhs.m_data }
  let rhs1 : shortvector T := { rhs with m_data := this.m_data }
  -- Copy the shortdata if necessary
  if this1.m_data = .shortdata rhs.address then
    -- The rhs data was pointing to shortdata
    let this2 : shortvector T := { this1 with m_data := .shortdata this.address }
    if rhs1.m_data = .shortdata this.address then
      -- Both data's were pointing to their shortdata
      let tmp := this2.m_shortdata
      ({ this2 with m_shortdata := rhs1.m_shortdata },
        { rhs1 with m_data := .shortdata rhs.address, m_shortdata := tmp })
    else
      -- Just the rhs data was pointing to shortdata
      ({ this2 with m_shortdata := rhs1.m_shortdata }, rhs1)
  else if rhs1.m_data = .shortdata this.address then
    -- Just this data was pointing to shortdata
    (this1, { rhs1 with m_data := .shortdata rhs.address, m_shortdata := this1.m_shortdata })
  else (this1, rhs1)

end shortvector

/-- Two short vectors for the examples, with `staticN = 3`: an inline one at address 1000 that
holds `[1, 2, 3]`, and a heap-backed one at address 2000 that points to block 7. -/
def example_inline_shortvector : shortvector Int :=
  { address := 1000, m_data := .shortdata 1000, m_shortdata := [1, 2, 3] }

def example_heap_shortvector : shortvector Int :=
  { address := 2000, m_data := .heap 7, m_shortdata := [0, 0, 0] }

/-- A heap for the examples: block 7 holds `[4, 5, 6, 7, 8]`, and no other block is live. -/
def example_shortvector_heap : Nat → Option (List Int) := fun block =>
  if block = 7 then some [4, 5, 6, 7, 8] else none

/-! ## Interrupted builds -/

/-- The buffer after the build of an inner frame of type `id` at offset 0 has been interrupted
in the recursive `self->instantiate`: the frame has been appended into the zero-filled buffer,
its field `init_offset` (`dst_init_kernel_offset`) is still zero, and behind the frame the
buffer holds the accumulation kernel, when `accumulation_child` is set, and zeros otherwise. -/
def interrupted_kernel_buffer (id : inner_kernel_id) (accumulation_child : Bool) :
    Nat → Option kernel_frame := fun offset =>
  if offset = 0 then some (.inner id 0)
  else if offset = 64 ∧ accumulation_child = true then some .childless
  else none

/-! ## The function pointers set by `base_reduction_kernel::init` -/

/-- An `array` argument of `call`, as far as `call` reads it: its data pointer `cdata()`. -/
structure array where
  cdata : Int

/-- The wrapper that `base_reduction_kernel::init` installs in the `followup_call` slot. -/
inductive followup_call_t
  | strided_followup_wrapper
  deriving DecidableEq

/-- The two function pointers that `base_reduction_kernel::init` sets besides the
destructor. -/
structure reduction_kernel_functions where
  first_call : first_call_t
  followup_call : followup_call_t
  deriving DecidableEq

/-- The whole of `base_reduction_kernel::init` after the construction of the frame: the switch
on the kernel request, which sets the `first_call` function or throws, and then the assignment
of the `followup_call` function. -/
def base_reduction_kernel.init_functions (kernreq : kernel_request_t) :
    Except String reduction_kernel_functions :=
  match base_reduction_kernel.init kernreq with
  | .ok first_call =>
    -- The function pointer for followup accumulation calls
    .ok { first_call := first_call, followup_call := .strided_followup_wrapper }
  | .error message => .error message

/-- A function installed in the `first_call` slot, with the signature it is called with. -/
inductive first_call_function (α : Type)
  | call (function : array → array → Mem α → Mem α)
  | single (function : kernel_single_t α)
  | strided (function : kernel_strided_t α)

/-- The three wrappers on the frame `self`: `call_wrapper` is `call(dst, src)`, which passes the
data pointers of `dst` and of `src[0]` to `single_first`; `single_first_wrapper` and
`strided_first_wrapper` pass their arguments on to `single_first` and `strided_first`. -/
def first_call_t.function {α : Type} (self : reduction_kernel_prefix α) :
    first_call_t → first_call_function α
  | .call_wrapper => .call (fun dst src0 => self.single_first dst.cdata src0.cdata)
  | .single_first_wrapper => .single self.single_first
  | .strided_first_wrapper => .strided self.strided_first

/-- The wrapper `strided_followup_wrapper` on the frame `self`. -/
def followup_call_t.function {α : Type} (self : reduction_kernel_prefix α) :
    followup_call_t → kernel_strided_t α
  | .strided_followup_wrapper => self.strided_followup

/-- A record for the examples: the reduction over the axes 0 and 2 of a three-dimensional array,
before its second step. -/
def example_reduction_data_second : reduction_data_type Int :=
  { identity := none, ndim := 2, naxis := 1, axes := some [2], keepdims := false,
    stored_ndim := 3 }

/-! ## The bytes written by `make_pod_dtype_assignment_kernel` -/

/-- The layout of the two frame structures, fixed by the compiler and by the declaration of
`hierarchical_kernel_common_base` (outside `assignment_kernels.cpp`): the offset of the function
pointer in `hierarchical_kernel_common_base`, the size of a function pointer, the offset of the
field `data_size` in `unaligned_copy_single_kernel_extra`, and the size of a `size_t`. -/
structure assignment_frame_layout where
  function_offset : Nat
  sizeof_function_pointer : Nat
  data_size_offset : Nat
  sizeof_size_t : Nat

/-- The stores of a factory function into the buffer, each given by its first byte and its
number of bytes: `result->set_function(...)` into the frame at `offset_out` and, when the frame
is an `unaligned_copy_single_kernel_extra`, the assignment to its field `data_size`. -/
def assignment_kernel.writes (layout : assignment_frame_layout) (offset_out : Nat)
    (k : assignment_kernel) : List (Nat × Nat) :=
  (offset_out + layout.function_offset, layout.sizeof_function_pointer) ::
    match k.data_size with
    | some _ => [(offset_out + layout.data_size_offset, layout.sizeof_size_t)]
    | none => []

/-- Modelled from the spec: the member `ensure_capacity` of the buffer `out` of the assignment
kernel factories, a `hierarchical_kernel<unary_single_operation_t>`; the class is declared
outside `assignment_kernels.cpp`, which only shows the calls `out->ensure_capacity(...)` and
`out->get_at<...>(...)`.  By section 4.2 of the specification `ensure_capacity(n)` is
`ensure_capacity_leaf(n + sizeof(KernelPrefix))` on the growable buffer, which is the one of
`ckernel_builder_ensure_capacity_leaf`; the specification gives the sum without a bound.  It is
the member `ensure_capacity` of `ckernel_builder` wherever the sum is an `intptr_t` value. -/
def hierarchical_kernel.ensure_capacity (abi : ckernel_prefix_abi)
    (alloc : Option (Nat → Fin 256)) (out : ckernel_builder) (requested_capacity : Int) :
    Option ckb_exception × ckernel_builder × List ckb_event :=
  out.ensure_capacity_leaf abi alloc (requested_capacity + abi.prefix_size)

/-- `make_pod_dtype_assignment_kernel` on the buffer `out`: the call `out->ensure_capacity(...)`
of the generic case, where there is one, and the frame then written at `offset_out`.  The first
component is the exception thrown by `ensure_capacity`, if any, the second the buffer
afterwards. -/
def make_pod_dtype_assignment_kernel_on {E : Type} (ts : dtype_system E)
    (abi : ckernel_prefix_abi) (alloc : Option (Nat → Fin 256)) (out : ckernel_builder)
    (offset_out data_size data_alignment : Nat) :
    Option ckb_exception × ckernel_builder × assignment_kernel :=
  match (make_pod_dtype_assignment_kernel ts offset_out data_size data_alignment).ensure_capacity
    with
  | some requested_capacity =>
    ((hierarchical_kernel.ensure_capacity abi alloc out requested_capacity).1,
      (hierarchical_kernel.ensure_capacity abi alloc out requested_capacity).2.1,
      make_pod_dtype_assignment_kernel ts offset_out data_size data_alignment)
  | none => (none, out, make_pod_dtype_assignment_kernel ts offset_out data_size data_alignment)

/-- A layout for the examples: the function pointer first, pointers and `size_t` of eight bytes,
`data_size` behind the 16 bytes of the common base. -/
def example_frame_layout : assignment_frame_layout :=
  { function_offset := 0, sizeof_function_pointer := 8, data_size_offset := 16,
    sizeof_size_t := 8 }

/-! ## The array of short vectors (`multi_shortvector`) -/

/-- A pointer to an element: into the array `m_static_data` of the object, or into the heap
block at address `block`, at the given index. -/
inductive multi_shortvector_pointer
  | static_data (index : Int)
  | alloc_data (block : Nat) (index : Int)
  deriving DecidableEq

/-- What a member function does to the heap: `new T[size]`, which returns the block at address
`block`, or `delete[]` of the block at address `block`. -/
inductive multi_shortvector_event
  | new_array (block : Nat) (size : Int)
  | delete_array (block : Nat)
  deriving DecidableEq

/-- A `multi_shortvector<T, M, staticN>` object, as far as its pointers go: the `M` entries of
`m_shortvectors`, and `m_alloc_data`, `none` for NULL and otherwise the address of a block. -/
structure multi_shortvector where
  m_shortvectors : List multi_shortvector_pointer
  m_alloc_data : Option Nat
  deriving DecidableEq

namespace multi_shortvector

/-- `internal_init(n)`; `fresh` is the address of the block that `new T[n * M]` returns. -/
def internal_init (M staticN : Nat) (fresh : Nat) (v : multi_shortvector) (n : Int) :
    multi_shortvector × List multi_shortvector_event :=
  if n ≤ staticN then
    -- Do at minimum n == 1
    let n := if n = 0 then 1 else n
    ({ v with m_shortvectors := (List.range M).map (fun (i : Nat) => .static_data (i * n)) },
      [])
  else
    ({ m_alloc_data := some fresh,
       m_shortvectors := (List.range M).map (fun (i : Nat) => .alloc_data fresh (i * n)) },
      [.new_array fresh (n * M)])

/-- The default constructor; the entries of `m_shortvectors` are left as they are found. -/
def construct (uninitialized : List multi_shortvector_pointer) : multi_shortvector :=
  { m_shortvectors := uninitialized, m_alloc_data := none }

/-- The member `init(n)`. -/
def init (M staticN : Nat) (fresh : Nat) (v : multi_shortvector) (n : Int) :
    multi_shortvector × List multi_shortvector_event :=
  match v.m_alloc_data with
  | some block =>
    ((internal_init M staticN fresh v n).1,
      .delete_array block :: (internal_init M staticN fresh v n).2)
  | none => internal_init M staticN fresh v n

/-- The destructor: `delete[] m_alloc_data`, which does nothing for a null pointer. -/
def destruct (v : multi_shortvector) : List multi_shortvector_event :=
  match v.m_alloc_data with
  | some block => [.delete_array block]
  | none => []

end multi_shortvector

/-! ## Lemmas on memory, rows and the leaf kernels -/

section lemmas

variable {α : Type}

theorem Mem.write_same (m : Mem α) (a : Int) (v : α) : (m.write a v) a = v := by
  simp [Mem.write]

theorem Mem.write_other (m : Mem α) (a b : Int) (v : α) (h : b ≠ a) : (m.write a v) b = m b := by
  simp [Mem.write, h]

theorem to_size_t_natCast (n : Nat) (h : (n : Int) < 2 ^ 63) : to_size_t (n : Int) = n := by
  unfold to_size_t
  have h1 : ((n : Int) % 2 ^ 64) = n := by
    apply Int.emod_eq_of_lt <;> omega
  rw [h1]
  simp

theorem addr_succ (a s : Int) (j : Nat) : a + s + (j : Int) * s = a + ((j + 1 : Nat) : Int) * s := by
  push_cast; ring

theorem addr_ne (a s : Int) (hs : s ≠ 0) (i j : Nat) (hij : i ≠ j) :
    a + (i : Int) * s ≠ a + (j : Int) * s := by
  intro h
  have h1 : (i : Int) * s = (j : Int) * s := by linarith
  have h2 : (i : Int) = (j : Int) := mul_right_cancel₀ hs h1
  exact hij (by exact_mod_cast h2)

theorem row_succ (m : Mem α) (src stride : Int) (n : Nat) :
    row m src stride (n + 1) = m src :: row m (src + stride) stride n := by
  simp only [row, List.range_succ_eq_map, List.map_cons, List.map_map]
  refine congrArg₂ _ (by simp) ?_
  apply List.map_congr_left
  intro i _
  show m (src + ((i + 1 : Nat) : Int) * stride) = m (src + stride + (i : Int) * stride)
  rw [addr_succ]

theorem row_congr (m m1 : Mem α) (src stride : Int) (n : Nat)
    (h : ∀ j : Nat, j < n → m1 (src + j * stride) = m (src + j * stride)) :
    row m1 src stride n = row m src stride n := by
  unfold row
  apply List.map_congr_left
  intro j hj
  exact h j (List.mem_range.mp hj)

/-- A strided loop with a non-zero destination stride, each iteration of which stores one value
into its own destination cell. -/
theorem strided_loop_writes (body : Int → Int → Mem α → Mem α) (ds ss : Int) :
    ∀ (n : Nat) (v : Nat → α) (dst src : Int) (m : Mem α), distinct_cells dst ds n →
      (∀ i : Nat, i < n → ∀ m1 : Mem α,
        (∀ a : Int, (∀ i' : Nat, i' < i → a ≠ dst + i' * ds) → m1 a = m a) →
        body (dst + i * ds) (src + i * ss) m1 = m1.write (dst + i * ds) (v i)) →
      (∀ i : Nat, i < n → strided_loop body dst ds src ss n m (dst + i * ds) = v i) ∧
      (∀ a : Int, (∀ i : Nat, i < n → a ≠ dst + i * ds) →
        strided_loop body dst ds src ss n m a = m a) := by
  intro n
  induction n with
  | zero =>
    intro v dst src m _ _
    exact ⟨fun i hi => absurd hi (Nat.not_lt_zero i), fun a _ => rfl⟩
  | succ n ih =>
    intro v dst src m hcells h
    have hb0 : body dst src m = m.write dst (v 0) := by
      have := h 0 (Nat.succ_pos n) m (fun a _ => rfl)
      simpa using this
    have hcells1 : distinct_cells (dst + ds) ds n := by
      intro i j hi hj hij
      rw [addr_succ, addr_succ]
      exact hcells (i + 1) (j + 1) (Nat.succ_lt_succ hi) (Nat.succ_lt_succ hj) (by omega)
    have hih := ih (fun i => v (i + 1)) (dst + ds) (src + ss) (m.write dst (v 0)) hcells1 (by
      intro i hi m2 hm2
      rw [addr_succ, addr_succ]
      apply h (i + 1) (Nat.succ_lt_succ hi) m2
      intro a ha
      have ha0 : a ≠ dst := by simpa using ha 0 (Nat.succ_pos i)
      rw [hm2 a (fun i' hi' => by rw [addr_succ]; exact ha (i' + 1) (Nat.succ_lt_succ hi')),
        Mem.write_other m dst a _ ha0])
    obtain ⟨h1, h2⟩ := hih
    simp only [strided_loop, hb0]
    constructor
    · intro i hi
      cases i with
      | zero =>
        simp only [Nat.cast_zero, zero_mul, add_zero]
        rw [h2 dst (fun i' hi' => by
          rw [addr_succ]
          have := hcells 0 (i' + 1) (Nat.succ_pos n) (Nat.succ_lt_succ hi') (by omega)
          simpa using this), Mem.write_same]
      | succ j =>
        have := h1 j (by omega)
        rw [addr_succ] at this
        exact this
    · intro a ha
      have ha0 : a ≠ dst := by simpa using ha 0 (Nat.succ_pos n)
      rw [h2 a (fun i' hi' => by rw [addr_succ]; exact ha (i' + 1) (Nat.succ_lt_succ hi')),
        Mem.write_other m dst a _ ha0]

/-- A strided loop with a zero destination stride, each iteration of which changes only cells
of the destination footprint `D` and folds one more operand into the destination cell `a`. -/
theorem strided_loop_zero_cell {β : Type} (body : Int → Int → Mem α → Mem α) (D : Int → Prop)
    (dst ss a : Int) (f : α → β → α) :
    ∀ (n : Nat) (w : Nat → β) (src : Int) (m : Mem α),
      (∀ i : Nat, i < n → ∀ m1 : Mem α, (∀ b : Int, ¬ D b → m1 b = m b) →
        (∀ b : Int, ¬ D b → body dst (src + i * ss) m1 b = m1 b) ∧
        body dst (src + i * ss) m1 a = f (m1 a) (w i)) →
      strided_loop body dst 0 src ss n m a = ((List.range n).map w).foldl f (m a) ∧
      (∀ b : Int, ¬ D b → strided_loop body dst 0 src ss n m b = m b) := by
  intro n
  induction n with
  | zero =>
    intro w src m _
    exact ⟨rfl, fun b _ => rfl⟩
  | succ n ih =>
    intro w src m h
    have h0 := h 0 (Nat.succ_pos n) m (fun b _ => rfl)
    simp only [Nat.cast_zero, zero_mul, add_zero] at h0
    obtain ⟨hframe, hcell⟩ := h0
    have hih := ih (fun i => w (i + 1)) (src + ss) (body dst src m) (by
      intro i hi m2 hm2
      rw [addr_succ]
      exact h (i + 1) (Nat.succ_lt_succ hi) m2
        (fun b hb => by rw [hm2 b hb, hframe b hb]))
    obtain ⟨h1, h2⟩ := hih
    simp only [strided_loop, add_zero]
    constructor
    · rw [h1, hcell, List.range_succ_eq_map, List.map_cons, List.foldl_cons, List.map_map]
      rfl
    · intro b hb
      rw [h2 b hb, hframe b hb]

/-- With a zero destination stride the accumulation kernel folds `op` over the source row and
changes no other cell. -/
theorem accumulate_strided_zero (op : α → α → α) (n : Nat) (dst src stride : Int) (m : Mem α)
    (h : ∀ j : Nat, j < n → src + j * stride ≠ dst) :
    accumulate_strided op dst 0 src stride n m dst = (row m src stride n).foldl op (m dst) ∧
    (∀ b : Int, b ≠ dst → accumulate_strided op dst 0 src stride n m b = m b) := by
  have key := strided_loop_zero_cell (fun d s m => m.write d (op (m d) (m s)))
    (fun b => b = dst) dst stride dst op n (fun (j : Nat) => m (src + j * stride)) src m (by
      intro i hi m1 hm1
      refine ⟨fun b hb => Mem.write_other m1 dst b _ hb, ?_⟩
      show (m1.write dst (op (m1 dst) (m1 (src + i * stride)))) dst = op (m1 dst) (m (src + i * stride))
      rw [Mem.write_same, hm1 _ (h i hi)])
  exact ⟨key.1, fun b hb => key.2 b hb⟩

/-- With a non-zero destination stride the strided identity initialisation stores `e` into each
of the `n` destination cells and changes no other cell. -/
theorem identity_init_strided_spec (e : α) (n : Nat) (dst ds src ss : Int) (m : Mem α)
    (hcells : distinct_cells dst ds n) :
    (∀ j : Nat, j < n → identity_init_strided e dst ds src ss n m (dst + j * ds) = e) ∧
    (∀ a : Int, (∀ j : Nat, j < n → a ≠ dst + j * ds) →
      identity_init_strided e dst ds src ss n m a = m a) :=
  strided_loop_writes (identity_init_single e) ds ss n (fun _ => e) dst src m hcells
    (fun _ _ _ _ => rfl)

/-- With a non-zero destination stride the strided copy stores source element `j` into
destination cell `j` and changes no other cell. -/
theorem copy_init_strided_spec (n : Nat) (dst ds src ss : Int) (m : Mem α)
    (hcells : distinct_cells dst ds n)
    (hsrc : ∀ i j : Nat, i < n → j < n → src + i * ss ≠ dst + j * ds) :
    (∀ j : Nat, j < n → copy_init_strided dst ds src ss n m (dst + j * ds) = m (src + j * ss)) ∧
    (∀ a : Int, (∀ j : Nat, j < n → a ≠ dst + j * ds) →
      copy_init_strided dst ds src ss n m a = m a) :=
  strided_loop_writes copy_init_single ds ss n (fun (j : Nat) => m (src + j * ss)) dst src m
    hcells (by
      intro i hi m1 hm1
      show m1.write (dst + i * ds) (m1 (src + i * ss)) = m1.write (dst + i * ds) (m (src + i * ss))
      rw [hm1 _ (fun i' hi' => hsrc i i' hi (by omega))])

/-- With a non-zero destination stride the accumulation kernel works element-wise:
`dst[j] <- op(dst[j], src[j])`, and changes no other cell. -/
theorem accumulate_strided_elementwise (op : α → α → α) (n : Nat) (dst ds src ss : Int)
    (m : Mem α) (hcells : distinct_cells dst ds n)
    (hsrc : ∀ i j : Nat, i < n → j < n → src + i * ss ≠ dst + j * ds) :
    (∀ j : Nat, j < n → accumulate_strided op dst ds src ss n m (dst + j * ds)
      = op (m (dst + j * ds)) (m (src + j * ss))) ∧
    (∀ a : Int, (∀ j : Nat, j < n → a ≠ dst + j * ds) →
      accumulate_strided op dst ds src ss n m a = m a) :=
  strided_loop_writes (fun d s m => m.write d (op (m d) (m s))) ds ss n
    (fun (j : Nat) => op (m (dst + j * ds)) (m (src + j * ss))) dst src m hcells
    (by
      intro i hi m1 hm1
      show m1.write (dst + i * ds) (op (m1 (dst + i * ds)) (m1 (src + i * ss)))
        = m1.write (dst + i * ds) (op (m (dst + i * ds)) (m (src + i * ss)))
      rw [hm1 _ (fun i' hi' => hsrc i i' hi (by omega)),
        hm1 _ (fun i' hi' => hcells i i' hi (by omega) (by omega))])

/-- Single_first of the reduce-outer frame over at least one sub-element, when the child's
followup call over zero elements does nothing. -/
theorem reduce_outer_single_first_eq (child : reduction_kernel_prefix α) (k : Nat)
    (rs dst src : Int) (m : Mem α) (hk : ((k + 1 : Nat) : Int) < 2 ^ 63)
    (h0 : ∀ (d ds s ss : Int) (m : Mem α), child.strided_followup d ds s ss 0 m = m) :
    (reduction_kernel_fixed_dim_false_false.instantiate_frame ((k + 1 : Nat) : Int) rs
        child).single_first dst src m
      = child.strided_followup dst 0 (src + rs) rs k (child.single_first dst src m) := by
  simp only [reduction_kernel_fixed_dim_false_false.single_first,
    reduction_kernel_fixed_dim_false_false.instantiate_frame]
  have hsz : ((k + 1 : Nat) : Int) - 1 = (k : Int) := by push_cast; ring
  have hk1 : ((k : Nat) : Int) < 2 ^ 63 := by push_cast at hk; omega
  rw [hsz, to_size_t_natCast k hk1]
  by_cases hz : k = 0
  · subst hz
    simp [h0]
  · have : ((k + 1 : Nat) : Int) > 1 := by push_cast; omega
    rw [if_pos this]

/-- Single_first of the broadcast-inner frame of a reduction with identity `e`:
`dst[j] = op(e, src[j])`. -/
theorem broadcast_inner_single_first_identity (op : α → α → α) (e : α) (C : Nat)
    (dst ds src cs : Int) (m : Mem α) (hC : (C : Int) < 2 ^ 63)
    (hcells : distinct_cells dst ds C)
    (hsrc : ∀ j j' : Nat, j < C → j' < C → src + j * cs ≠ dst + j' * ds) :
    (∀ j : Nat, j < C →
      (reduction_kernel_fixed_dim_true_true.instantiate_frame (C : Int) ds cs (some e)
        (identity_init_strided e) (accumulate_strided op)).single_first dst src m (dst + j * ds)
        = op e (m (src + j * cs))) ∧
    (∀ a : Int, (∀ j : Nat, j < C → a ≠ dst + j * ds) →
      (reduction_kernel_fixed_dim_true_true.instantiate_frame (C : Int) ds cs (some e)
        (identity_init_strided e) (accumulate_strided op)).single_first dst src m a = m a) := by
  simp only [reduction_kernel_fixed_dim_true_true.single_first,
    reduction_kernel_fixed_dim_true_true.instantiate_frame, if_true, to_size_t_natCast C hC]
  have hi := identity_init_strided_spec e C dst ds src 0 m hcells
  have ha := accumulate_strided_elementwise op C dst ds src cs
    (identity_init_strided e dst ds src 0 C m) hcells hsrc
  constructor
  · intro j hj
    rw [ha.1 j hj, hi.1 j hj, hi.2 _ (fun j' hj' => hsrc j j' hj hj')]
  · intro a h
    rw [ha.2 a h, hi.2 a h]

/-- Strided_followup of the broadcast-inner frame called with a zero destination stride over `k`
source rows: every destination cell folds its column. -/
theorem broadcast_inner_strided_followup_zero (op : α → α → α) (identity : Option α)
    (init : kernel_strided_t α) (k C : Nat) (dst ds src rs cs : Int) (m : Mem α)
    (hC : (C : Int) < 2 ^ 63) (hcells : distinct_cells dst ds C)
    (hdst : ∀ i j j' : Nat, i < k → j < C → j' < C → src + i * rs + j * cs ≠ dst + j' * ds) :
    (∀ j : Nat, j < C →
      (reduction_kernel_fixed_dim_true_true.instantiate_frame (C : Int) ds cs identity init
        (accumulate_strided op)).strided_followup dst 0 src rs k m (dst + j * ds)
        = (row m (src + j * cs) rs k).foldl op (m (dst + j * ds))) ∧
    (∀ a : Int, (∀ j : Nat, j < C → a ≠ dst + j * ds) →
      (reduction_kernel_fixed_dim_true_true.instantiate_frame (C : Int) ds cs identity init
        (accumulate_strided op)).strided_followup dst 0 src rs k m a = m a) := by
  have hfu : (reduction_kernel_fixed_dim_true_true.instantiate_frame (C : Int) ds cs identity init
        (accumulate_strided op)).strided_followup dst 0 src rs k m
      = strided_loop (fun d s m => accumulate_strided op d ds s cs C m) dst 0 src rs k m := by
    cases identity <;>
      simp only [reduction_kernel_fixed_dim_true_true.strided_followup,
        reduction_kernel_fixed_dim_true_true.instantiate_frame, to_size_t_natCast C hC]
  rw [hfu]
  have key : ∀ j : Nat, j < C →
      strided_loop (fun d s m => accumulate_strided op d ds s cs C m) dst 0 src rs k m
          (dst + j * ds)
        = ((List.range k).map (fun (i : Nat) => m (src + i * rs + j * cs))).foldl op
            (m (dst + j * ds)) ∧
      (∀ b : Int, ¬ (∃ j' : Nat, j' < C ∧ b = dst + j' * ds) →
        strided_loop (fun d s m => accumulate_strided op d ds s cs C m) dst 0 src rs k m b
          = m b) := by
    intro j hj
    apply strided_loop_zero_cell (fun d s m => accumulate_strided op d ds s cs C m)
      (fun b => ∃ j' : Nat, j' < C ∧ b = dst + j' * ds) dst rs (dst + j * ds) op k
      (fun (i : Nat) => m (src + i * rs + j * cs)) src m
    intro i hi m1 hm1
    have E := accumulate_strided_elementwise op C dst ds (src + i * rs) cs m1 hcells
      (fun j1 j2 h1 h2 => hdst i j1 j2 hi h1 h2)
    refine ⟨fun b hb => E.2 b (fun j' hj' hbe => hb ⟨j', hj', hbe⟩), ?_⟩
    show accumulate_strided op dst ds (src + i * rs) cs C m1 (dst + j * ds)
      = op (m1 (dst + j * ds)) (m (src + i * rs + j * cs))
    rw [E.1 j hj, hm1 (src + i * rs + j * cs)
      (fun ⟨j', hj', hbe⟩ => hdst i j j' hi hj hj' hbe)]
  constructor
  · intro j hj
    rw [(key j hj).1]
    congr 1
    unfold row
    apply List.map_congr_left
    intro i _
    congr 1
    ring
  · intro a ha
    by_cases hC0 : 0 < C
    · exact (key 0 hC0).2 a (fun ⟨j', hj', hbe⟩ => ha j' hj' hbe)
    · have hCz : C = 0 := by omega
      subst hCz
      clear key hfu hdst ha hC0
      induction k generalizing src m with
      | zero => rfl
      | succ k ih =>
        simp only [strided_loop, add_zero]
        rw [ih]
        rfl

theorem rows_succ (m : Mem α) (src rs cs : Int) (R C : Nat) :
    rows m src rs cs (R + 1) C = row m src cs C :: rows m (src + rs) rs cs R C := by
  simp only [rows, List.range_succ_eq_map, List.map_cons, List.map_map]
  refine congrArg₂ _ (by simp) ?_
  apply List.map_congr_left
  intro i _
  show row m (src + ((i + 1 : Nat) : Int) * rs) cs C = row m (src + rs + (i : Int) * rs) cs C
  rw [addr_succ]

/-- One row of the reduce-inner frame without identity: the init child copies the first element
of the row into `dst`, the accumulation child folds the other `c` elements. -/
theorem reduce_inner_row_without_identity (op : α → α → α) (c : Nat) (d s cs : Int) (m : Mem α)
    (hd : ∀ j : Nat, j < c + 1 → s + j * cs ≠ d) :
    accumulate_strided op d 0 (s + cs) cs c (copy_init_single d s m)
      = m.write d ((row m (s + cs) cs c).foldl op (m s)) := by
  have hd1 : ∀ j : Nat, j < c → s + cs + j * cs ≠ d := by
    intro j hj
    rw [addr_succ]
    exact hd (j + 1) (Nat.succ_lt_succ hj)
  have hacc := accumulate_strided_zero op c d (s + cs) cs (copy_init_single d s m) hd1
  funext b
  by_cases hb : b = d
  · subst hb
    rw [hacc.1, Mem.write_same]
    simp only [copy_init_single]
    rw [row_congr m _ (s + cs) cs c (fun j hj => Mem.write_other m b _ _ (hd1 j hj)),
      Mem.write_same]
  · rw [hacc.2 b hb]
    simp only [copy_init_single]
    rw [Mem.write_other m d b _ hb, Mem.write_other m d b _ hb]

/-- Strided_followup of the reduce-inner frame called with a zero destination stride over `k`
source rows: `dst` folds every element of the rows, row after row. -/
theorem reduce_inner_strided_followup_zero (op : α → α → α) (identity : Option α)
    (init : kernel_single_t α) (k C : Nat) (dst src rs cs : Int) (m : Mem α)
    (hC : (C : Int) < 2 ^ 63)
    (hdst : ∀ i j : Nat, i < k → j < C → src + i * rs + j * cs ≠ dst) :
    (reduction_kernel_fixed_dim_false_true.instantiate_frame (C : Int) cs identity init
        (accumulate_strided op)).strided_followup dst 0 src rs k m dst
      = (rows m src rs cs k C).flatten.foldl op (m dst) ∧
    (∀ b : Int, b ≠ dst →
      (reduction_kernel_fixed_dim_false_true.instantiate_frame (C : Int) cs identity init
        (accumulate_strided op)).strided_followup dst 0 src rs k m b = m b) := by
  have hfu : (reduction_kernel_fixed_dim_false_true.instantiate_frame (C : Int) cs identity init
        (accumulate_strided op)).strided_followup dst 0 src rs k m
      = strided_loop (fun d s m => accumulate_strided op d 0 s cs C m) dst 0 src rs k m := by
    cases identity <;>
      simp only [reduction_kernel_fixed_dim_false_true.strided_followup,
        reduction_kernel_fixed_dim_false_true.instantiate_frame, to_size_t_natCast C hC]
  rw [hfu]
  have key := strided_loop_zero_cell (fun d s m => accumulate_strided op d 0 s cs C m)
    (fun b => b = dst) dst rs dst (fun (acc : α) (r : List α) => r.foldl op acc) k
    (fun (i : Nat) => row m (src + i * rs) cs C) src m (by
      intro i hi m1 hm1
      have E := accumulate_strided_zero op C dst (src + i * rs) cs m1
        (fun j hj => hdst i j hi hj)
      refine ⟨fun b hb => E.2 b hb, ?_⟩
      show accumulate_strided op dst 0 (src + i * rs) cs C m1 dst
        = (row m (src + i * rs) cs C).foldl op (m1 dst)
      rw [E.1, row_congr m m1 (src + i * rs) cs C (fun j hj => hm1 _ (hdst i j hi hj))])
  refine ⟨?_, fun b hb => key.2 b hb⟩
  rw [key.1, List.foldl_flatten]
  rfl

/-- Single_first of the reduce-inner frame of a reduction with identity `e`: `dst` holds the
fold of the row and no other cell changes. -/
theorem reduce_inner_single_first_state (op : α → α → α) (e : α) (n : Nat)
    (dst src stride : Int) (m : Mem α) (hn : (n : Int) < 2 ^ 63)
    (hdst : ∀ j : Nat, j < n → src + j * stride ≠ dst) :
    (reduction_kernel_fixed_dim_false_true.instantiate_frame (n : Int) stride (some e)
        (identity_init_single e) (accumulate_strided op)).single_first dst src m dst
      = (row m src stride n).foldl op e ∧
    (∀ b : Int, b ≠ dst →
      (reduction_kernel_fixed_dim_false_true.instantiate_frame (n : Int) stride (some e)
        (identity_init_single e) (accumulate_strided op)).single_first dst src m b = m b) := by
  simp only [reduction_kernel_fixed_dim_false_true.single_first,
    reduction_kernel_fixed_dim_false_true.instantiate_frame, identity_init_single, add_zero,
    to_size_t_natCast n hn]
  have hacc := accumulate_strided_zero op n dst src stride (m.write dst e) hdst
  constructor
  · rw [hacc.1, row_congr m _ src stride n (fun j hj => Mem.write_other m dst _ e (hdst j hj)),
      Mem.write_same]
  · intro b hb
    rw [hacc.2 b hb, Mem.write_other m dst b e hb]

end lemmas

/-! ## The fixed-dim reduce-inner frame -/

section reduce_inner

variable {α : Type}

/-- C1: the fixed-dim reduce-inner frame that `instantiate` builds for a reduction with identity
`e` has `size_first = _size` and `src_stride_first = 0`, and with the init child writing `e` and
the accumulation child folding `op`, `single_first` on a source row of any length `n` leaves
`dst = fold_left(op, e, row)`; for the empty row `dst = e`. -/
theorem reduce_inner_single_first_with_identity (op : α → α → α) (e : α) (n : Nat)
    (dst src stride : Int) (m : Mem α) (hn : (n : Int) < 2 ^ 63)
    (hdst : ∀ j : Nat, j < n → src + j * stride ≠ dst) :
    (reduction_kernel_fixed_dim_false_true.instantiate_frame (n : Int) stride (some e)
        (identity_init_single e) (accumulate_strided op)).size_first = (n : Int) ∧
    (reduction_kernel_fixed_dim_false_true.instantiate_frame (n : Int) stride (some e)
        (identity_init_single e) (accumulate_strided op)).src_stride_first = 0 ∧
    (reduction_kernel_fixed_dim_false_true.instantiate_frame (n : Int) stride (some e)
        (identity_init_single e) (accumulate_strided op)).single_first dst src m dst
      = (row m src stride n).foldl op e ∧
    (reduction_kernel_fixed_dim_false_true.instantiate_frame 0 stride (some e)
        (identity_init_single e) (accumulate_strided op)).single_first dst src m dst = e := by
  refine ⟨rfl, rfl, ?_, ?_⟩
  · simp only [reduction_kernel_fixed_dim_false_true.single_first,
      reduction_kernel_fixed_dim_false_true.instantiate_frame, identity_init_single, add_zero]
    rw [to_size_t_natCast n hn, (accumulate_strided_zero op n dst src stride _ hdst).1,
      row_congr m _ src stride n (fun j hj => Mem.write_other m dst _ e (hdst j hj)),
      Mem.write_same]
  · simp [reduction_kernel_fixed_dim_false_true.single_first,
      reduction_kernel_fixed_dim_false_true.instantiate_frame, identity_init_single, to_size_t,
      accumulate_strided, strided_loop, Mem.write]

/-- C2: the fixed-dim reduce-inner frame that `instantiate` builds for a reduction without
identity has `size_first = _size - 1` and `src_stride_first = src_stride`, and with the init child
copying the first source element, `single_first` on a non-empty source row `x :: rest` leaves
`dst = fold_left(op, x, rest)`. -/
theorem reduce_inner_single_first_without_identity (op : α → α → α) (n : Nat)
    (dst src stride : Int) (m : Mem α) (x : α) (rest : List α) (hn : (n : Int) < 2 ^ 63)
    (hdst : ∀ j : Nat, j < n → src + j * stride ≠ dst)
    (hrow : row m src stride n = x :: rest) :
    (reduction_kernel_fixed_dim_false_true.instantiate_frame (n : Int) stride none
        copy_init_single (accumulate_strided op)).size_first = (n : Int) - 1 ∧
    (reduction_kernel_fixed_dim_false_true.instantiate_frame (n : Int) stride none
        copy_init_single (accumulate_strided op)).src_stride_first = stride ∧
    (reduction_kernel_fixed_dim_false_true.instantiate_frame (n : Int) stride none
        copy_init_single (accumulate_strided op)).single_first dst src m dst
      = rest.foldl op x := by
  refine ⟨rfl, rfl, ?_⟩
  cases n with
  | zero => simp [row] at hrow
  | succ k =>
    rw [row_succ] at hrow
    simp only [List.cons.injEq] at hrow
    obtain ⟨hx, hrest⟩ := hrow
    have hk : ((k : Nat) : Int) < 2 ^ 63 := by push_cast at hn; omega
    have hdst1 : ∀ j : Nat, j < k → src + stride + j * stride ≠ dst := by
      intro j hj
      rw [addr_succ]
      exact hdst (j + 1) (Nat.succ_lt_succ hj)
    have hsz : ((k + 1 : Nat) : Int) - 1 = (k : Int) := by push_cast; ring
    simp only [reduction_kernel_fixed_dim_false_true.single_first,
      reduction_kernel_fixed_dim_false_true.instantiate_frame, copy_init_single, hsz]
    rw [to_size_t_natCast k hk, (accumulate_strided_zero op k dst (src + stride) stride _ hdst1).1,
      row_congr m _ (src + stride) stride k
        (fun j hj => Mem.write_other m dst _ _ (hdst1 j hj)),
      Mem.write_same, hrest, hx]

/-- Witness of C1: sum with identity 0 over the row `[1,2,3]` at address 0, `dst` at 100. -/
theorem reduce_inner_single_first_with_identity_witness :
    ((3 : Nat) : Int) < 2 ^ 63 ∧ (∀ j : Nat, j < 3 → (0 : Int) + j * 1 ≠ 100) ∧
    (reduction_kernel_fixed_dim_false_true.instantiate_frame ((3 : Nat) : Int) 1 (some 0)
        (identity_init_single 0) (accumulate_strided (fun a b : Int => a + b))).single_first
        100 0 example_array 100
      = (row example_array 0 1 3).foldl (fun a b : Int => a + b) 0 :=
  ⟨by decide, fun j hj => by omega,
    (reduce_inner_single_first_with_identity (fun a b : Int => a + b) 0 3 100 0 1 example_array
      (by decide) (fun j hj => by omega)).2.2.1⟩

/-- Witness of C2: sum without identity over the row `[1,2,3]` at address 0, `dst` at 100. -/
theorem reduce_inner_single_first_without_identity_witness :
    ((3 : Nat) : Int) < 2 ^ 63 ∧ (∀ j : Nat, j < 3 → (0 : Int) + j * 1 ≠ 100) ∧
    row example_array 0 1 3 = 1 :: [2, 3] ∧
    (reduction_kernel_fixed_dim_false_true.instantiate_frame ((3 : Nat) : Int) 1 none
        copy_init_single (accumulate_strided (fun a b : Int => a + b))).single_first
        100 0 example_array 100
      = [2, 3].foldl (fun a b : Int => a + b) 1 :=
  ⟨by decide, fun j hj => by omega, by decide,
    (reduce_inner_single_first_without_identity (fun a b : Int => a + b) 3 100 0 1 example_array
      1 [2, 3] (by decide) (fun j hj => by omega) (by decide)).2.2⟩

end reduce_inner

/-! ## Reductions of a fixed two-dimensional array -/

section two_dimensional

variable {α : Type}

/-- C3: reducing a fixed `R x C` array (`R >= 1`) along axis 0 with identity `e`, keepdims
false, as a reduce-outer frame over a broadcast-inner frame (init child writing `e`,
accumulation child working element-wise), leaves `dst[j] = fold_left(op, e, column j)` for every
column `j < C`; for sum with identity 0 the array `[[1,2],[3,4],[5,6]]` gives `[9,12]`. -/
theorem reduce_axis0_with_identity (op : α → α → α) (e : α) (R C : Nat)
    (dst ds src rs cs : Int) (m : Mem α) (hR : 1 ≤ R) (hR63 : (R : Int) < 2 ^ 63)
    (hC63 : (C : Int) < 2 ^ 63) (hcells : distinct_cells dst ds C)
    (hdst : ∀ i j j' : Nat, i < R → j < C → j' < C →
      src + i * rs + j * cs ≠ dst + j' * ds) :
    (∀ j : Nat, j < C →
      (reduction_kernel_fixed_dim_false_false.instantiate_frame (R : Int) rs
        (reduction_kernel_fixed_dim_true_true.instantiate_frame (C : Int) ds cs (some e)
          (identity_init_strided e) (accumulate_strided op)).to_reduction_child).single_first
        dst src m (dst + j * ds)
      = (row m (src + j * cs) rs R).foldl op e) ∧
    (reduction_kernel_fixed_dim_false_false.instantiate_frame 3 2
        (reduction_kernel_fixed_dim_true_true.instantiate_frame 2 1 1 (some 0)
          (identity_init_strided 0)
          (accumulate_strided (fun a b : Int => a + b))).to_reduction_child).single_first
        100 0 example_array 100 = 9 ∧
    (reduction_kernel_fixed_dim_false_false.instantiate_frame 3 2
        (reduction_kernel_fixed_dim_true_true.instantiate_frame 2 1 1 (some 0)
          (identity_init_strided 0)
          (accumulate_strided (fun a b : Int => a + b))).to_reduction_child).single_first
        100 0 example_array 101 = 12 := by
  refine ⟨?_, by decide, by decide⟩
  intro j hj
  obtain ⟨k, rfl⟩ : ∃ k, R = k + 1 := ⟨R - 1, by omega⟩
  rw [reduce_outer_single_first_eq _ k rs dst src m hR63 (fun _ _ _ _ _ => rfl)]
  have h1 := broadcast_inner_single_first_identity op e C dst ds src cs m hC63 hcells
    (fun j1 j2 h1 h2 => by
      have := hdst 0 j1 j2 (Nat.succ_pos k) h1 h2
      simpa using this)
  have hdst1 : ∀ i j j' : Nat, i < k → j < C → j' < C →
      src + rs + i * rs + j * cs ≠ dst + j' * ds := by
    intro i j1 j2 hi h1 h2
    rw [addr_succ]
    exact hdst (i + 1) j1 j2 (Nat.succ_lt_succ hi) h1 h2
  have h2 := broadcast_inner_strided_followup_zero op (some e) (identity_init_strided e) k C
    dst ds (src + rs) rs cs
    ((reduction_kernel_fixed_dim_true_true.instantiate_frame (C : Int) ds cs (some e)
      (identity_init_strided e) (accumulate_strided op)).single_first dst src m) hC63 hcells
    hdst1
  show (reduction_kernel_fixed_dim_true_true.instantiate_frame (C : Int) ds cs (some e)
      (identity_init_strided e) (accumulate_strided op)).strided_followup dst 0 (src + rs) rs k
      ((reduction_kernel_fixed_dim_true_true.instantiate_frame (C : Int) ds cs (some e)
      (identity_init_strided e) (accumulate_strided op)).single_first dst src m) (dst + j * ds)
    = _
  rw [h2.1 j hj, h1.1 j hj, row_succ, List.foldl_cons]
  congr 1
  have e1 : src + rs + (j : Int) * cs = src + j * cs + rs := by ring
  rw [e1]
  apply row_congr
  intro i hi
  apply h1.2
  intro j' hj'
  have := hdst (i + 1) j j' (Nat.succ_lt_succ hi) hj hj'
  have e2 : src + (j : Int) * cs + rs + i * rs = src + ((i + 1 : Nat) : Int) * rs + j * cs := by
    push_cast; ring
  rw [e2]
  exact this

/-- Witness of C3: sum with identity 0 along axis 0 of `[[1,2],[3,4],[5,6]]`, `dst` at 100
and 101. -/
theorem reduce_axis0_with_identity_witness :
    1 ≤ 3 ∧ ((3 : Nat) : Int) < 2 ^ 63 ∧ ((2 : Nat) : Int) < 2 ^ 63 ∧ distinct_cells 100 1 2 ∧
    (∀ i j j' : Nat, i < 3 → j < 2 → j' < 2 → (0 : Int) + i * 2 + j * 1 ≠ 100 + j' * 1) ∧
    (∀ j : Nat, j < 2 →
      (reduction_kernel_fixed_dim_false_false.instantiate_frame ((3 : Nat) : Int) 2
        (reduction_kernel_fixed_dim_true_true.instantiate_frame ((2 : Nat) : Int) 1 1 (some 0)
          (identity_init_strided 0)
          (accumulate_strided (fun a b : Int => a + b))).to_reduction_child).single_first
        100 0 example_array (100 + j * 1)
      = (row example_array (0 + j * 1) 2 3).foldl (fun a b : Int => a + b) 0) :=
  ⟨by decide, by decide, by decide, fun i j hi hj hij => by omega,
    fun i j j' hi hj hj' => by omega,
    (reduce_axis0_with_identity (fun a b : Int => a + b) 0 3 2 100 1 0 2 1 example_array
      (by decide) (by decide) (by decide) (fun i j hi hj hij => by omega)
      (fun i j j' hi hj hj' => by omega)).1⟩

/-- C4: reducing a fixed `R x C` array (`C >= 1`) along axis 1 without identity, keepdims true,
as a broadcast-outer frame over a fixed-dim reduce-inner frame called with a non-zero destination
stride, leaves `dst[i] = fold_left(op, x[i][0], x[i][1:])` for every row `i < R`; for sum the
array `[[1,2],[3,4],[5,6]]` gives `[[3],[7],[11]]`. -/
theorem reduce_axis1_without_identity (op : α → α → α) (R C : Nat)
    (dst ds src rs cs : Int) (m : Mem α) (hC : 1 ≤ C) (hR63 : (R : Int) < 2 ^ 63)
    (hC63 : (C : Int) < 2 ^ 63) (hds : ds ≠ 0)
    (hdst : ∀ i i' j : Nat, i < R → i' < R → j < C →
      src + i * rs + j * cs ≠ dst + i' * ds) :
    (∀ (i : Nat) (x : α) (rest : List α), i < R → row m (src + i * rs) cs C = x :: rest →
      (reduction_kernel_fixed_dim_true_false.instantiate_frame (R : Int) ds rs
        (reduction_kernel_fixed_dim_false_true.instantiate_frame (C : Int) cs none
          copy_init_single (accumulate_strided op)).to_reduction_child).single_first
        dst src m (dst + i * ds)
      = rest.foldl op x) ∧
    (reduction_kernel_fixed_dim_true_false.instantiate_frame 3 1 2
        (reduction_kernel_fixed_dim_false_true.instantiate_frame 2 1 none copy_init_single
          (accumulate_strided (fun a b : Int => a + b))).to_reduction_child).single_first
        100 0 example_array 100 = 3 ∧
    (reduction_kernel_fixed_dim_true_false.instantiate_frame 3 1 2
        (reduction_kernel_fixed_dim_false_true.instantiate_frame 2 1 none copy_init_single
          (accumulate_strided (fun a b : Int => a + b))).to_reduction_child).single_first
        100 0 example_array 101 = 7 ∧
    (reduction_kernel_fixed_dim_true_false.instantiate_frame 3 1 2
        (reduction_kernel_fixed_dim_false_true.instantiate_frame 2 1 none copy_init_single
          (accumulate_strided (fun a b : Int => a + b))).to_reduction_child).single_first
        100 0 example_array 102 = 11 := by
  refine ⟨?_, by decide, by decide, by decide⟩
  intro i x rest hi hrow
  obtain ⟨c, rfl⟩ : ∃ c, C = c + 1 := ⟨C - 1, by omega⟩
  have hsz : ((c + 1 : Nat) : Int) - 1 = (c : Int) := by push_cast; ring
  have hc63 : ((c : Nat) : Int) < 2 ^ 63 := by push_cast at hC63; omega
  have hrun : (reduction_kernel_fixed_dim_true_false.instantiate_frame (R : Int) ds rs
        (reduction_kernel_fixed_dim_false_true.instantiate_frame ((c + 1 : Nat) : Int) cs none
          copy_init_single (accumulate_strided op)).to_reduction_child).single_first dst src m
      = strided_loop
          (fun d s m => accumulate_strided op d 0 (s + cs) cs c (copy_init_single d s m))
          dst ds src rs R m := by
    simp only [reduction_kernel_fixed_dim_true_false.single_first,
      reduction_kernel_fixed_dim_true_false.instantiate_frame,
      reduction_kernel_fixed_dim_false_true.to_reduction_child,
      reduction_kernel_fixed_dim_false_true.strided_first,
      reduction_kernel_fixed_dim_false_true.instantiate_frame, if_neg hds, hsz,
      to_size_t_natCast c hc63, to_size_t_natCast R hR63]
  rw [hrun]
  have key := strided_loop_writes
    (fun d s m => accumulate_strided op d 0 (s + cs) cs c (copy_init_single d s m)) ds rs R
    (fun (i : Nat) => (row m (src + i * rs + cs) cs c).foldl op (m (src + i * rs))) dst src m
    (fun i j _ _ hij => addr_ne dst ds hds i j hij) (by
      intro i1 hi1 m1 hm1
      have hsrc : ∀ j : Nat, j < c + 1 → m1 (src + i1 * rs + j * cs) = m (src + i1 * rs + j * cs) :=
        fun j hj => hm1 _ (fun i' hi' => hdst i1 i' j hi1 (by omega) hj)
      show accumulate_strided op (dst + i1 * ds) 0 (src + i1 * rs + cs) cs c
          (copy_init_single (dst + i1 * ds) (src + i1 * rs) m1)
        = m1.write (dst + i1 * ds) ((row m (src + i1 * rs + cs) cs c).foldl op (m (src + i1 * rs)))
      rw [reduce_inner_row_without_identity op c _ _ cs m1
        (fun j hj => hdst i1 i1 j hi1 hi1 hj)]
      have h0 := hsrc 0 (Nat.succ_pos c)
      simp only [Nat.cast_zero, zero_mul, add_zero] at h0
      rw [h0, row_congr m m1 (src + i1 * rs + cs) cs c (fun j hj => by
        rw [addr_succ]
        exact hsrc (j + 1) (Nat.succ_lt_succ hj))])
  rw [key.1 i hi]
  rw [row_succ] at hrow
  simp only [List.cons.injEq] at hrow
  show (row m (src + i * rs + cs) cs c).foldl op (m (src + i * rs)) = rest.foldl op x
  rw [hrow.1, hrow.2]

/-- Witness of C4: sum without identity along axis 1 of `[[1,2],[3,4],[5,6]]`, `dst` at 100,
101 and 102. -/
theorem reduce_axis1_without_identity_witness :
    1 ≤ 2 ∧ ((3 : Nat) : Int) < 2 ^ 63 ∧ ((2 : Nat) : Int) < 2 ^ 63 ∧ (1 : Int) ≠ 0 ∧
    (∀ i i' j : Nat, i < 3 → i' < 3 → j < 2 → (0 : Int) + i * 2 + j * 1 ≠ 100 + i' * 1) ∧
    (∀ (i : Nat) (x : Int) (rest : List Int), i < 3 →
      row example_array (0 + i * 2) 1 2 = x :: rest →
      (reduction_kernel_fixed_dim_true_false.instantiate_frame ((3 : Nat) : Int) 1 2
        (reduction_kernel_fixed_dim_false_true.instantiate_frame ((2 : Nat) : Int) 1 none
          copy_init_single
          (accumulate_strided (fun a b : Int => a + b))).to_reduction_child).single_first
        100 0 example_array (100 + i * 1)
      = rest.foldl (fun a b : Int => a + b) x) :=
  ⟨by decide, by decide, by decide, by decide, fun i i' j hi hi' hj => by omega,
    (reduce_axis1_without_identity (fun a b : Int => a + b) 3 2 100 1 0 2 1 example_array
      (by decide) (by decide) (by decide) (by decide)
      (fun i i' j hi hi' hj => by omega)).1⟩

/-- C5: reducing a fixed `R x C` array (`R >= 1`) along both axes with identity `e`, as a
reduce-outer frame over a fixed-dim reduce-inner frame, leaves the single dst cell equal to
`fold_left(op, e, row-major flattening)`; for sum with identity 0 the array
`[[1,2],[3,4],[5,6]]` gives 21. -/
theorem reduce_both_axes_with_identity (op : α → α → α) (e : α) (R C : Nat)
    (dst src rs cs : Int) (m : Mem α) (hR : 1 ≤ R) (hR63 : (R : Int) < 2 ^ 63)
    (hC63 : (C : Int) < 2 ^ 63)
    (hdst : ∀ i j : Nat, i < R → j < C → src + i * rs + j * cs ≠ dst) :
    (reduction_kernel_fixed_dim_false_false.instantiate_frame (R : Int) rs
        (reduction_kernel_fixed_dim_false_true.instantiate_frame (C : Int) cs (some e)
          (identity_init_single e) (accumulate_strided op)).to_reduction_child).single_first
        dst src m dst
      = (rows m src rs cs R C).flatten.foldl op e ∧
    (reduction_kernel_fixed_dim_false_false.instantiate_frame 3 2
        (reduction_kernel_fixed_dim_false_true.instantiate_frame 2 1 (some 0)
          (identity_init_single 0)
          (accumulate_strided (fun a b : Int => a + b))).to_reduction_child).single_first
        100 0 example_array 100 = 21 := by
  refine ⟨?_, by decide⟩
  obtain ⟨k, rfl⟩ : ∃ k, R = k + 1 := ⟨R - 1, by omega⟩
  rw [reduce_outer_single_first_eq _ k rs dst src m hR63 (fun _ _ _ _ _ => rfl)]
  have hdst0 : ∀ j : Nat, j < C → src + j * cs ≠ dst := by
    intro j hj
    have := hdst 0 j (Nat.succ_pos k) hj
    simpa using this
  have hdst1 : ∀ i j : Nat, i < k → j < C → src + rs + i * rs + j * cs ≠ dst := by
    intro i j hi hj
    rw [addr_succ]
    exact hdst (i + 1) j (Nat.succ_lt_succ hi) hj
  have h1 := reduce_inner_single_first_state op e C dst src cs m hC63 hdst0
  have h2 := reduce_inner_strided_followup_zero op (some e) (identity_init_single e) k C
    dst (src + rs) rs cs
    ((reduction_kernel_fixed_dim_false_true.instantiate_frame (C : Int) cs (some e)
      (identity_init_single e) (accumulate_strided op)).single_first dst src m) hC63 hdst1
  show (reduction_kernel_fixed_dim_false_true.instantiate_frame (C : Int) cs (some e)
      (identity_init_single e) (accumulate_strided op)).strided_followup dst 0 (src + rs) rs k
      ((reduction_kernel_fixed_dim_false_true.instantiate_frame (C : Int) cs (some e)
      (identity_init_single e) (accumulate_strided op)).single_first dst src m) dst
    = _
  rw [h2.1, h1.1, rows_succ, List.flatten_cons, List.foldl_append]
  congr 2
  unfold rows
  apply List.map_congr_left
  intro i hi
  apply row_congr
  intro j hj
  exact h1.2 _ (hdst1 i j (List.mem_range.mp hi) hj)

/-- Witness of C5: sum with identity 0 along both axes of `[[1,2],[3,4],[5,6]]`, `dst` at
100. -/
theorem reduce_both_axes_with_identity_witness :
    1 ≤ 3 ∧ ((3 : Nat) : Int) < 2 ^ 63 ∧ ((2 : Nat) : Int) < 2 ^ 63 ∧
    (∀ i j : Nat, i < 3 → j < 2 → (0 : Int) + i * 2 + j * 1 ≠ 100) ∧
    (reduction_kernel_fixed_dim_false_false.instantiate_frame ((3 : Nat) : Int) 2
        (reduction_kernel_fixed_dim_false_true.instantiate_frame ((2 : Nat) : Int) 1 (some 0)
          (identity_init_single 0)
          (accumulate_strided (fun a b : Int => a + b))).to_reduction_child).single_first
        100 0 example_array 100
      = (rows example_array 0 2 1 3 2).flatten.foldl (fun a b : Int => a + b) 0 :=
  ⟨by decide, by decide, by decide, fun i j hi hj => by omega,
    (reduce_both_axes_with_identity (fun a b : Int => a + b) 0 3 2 100 0 2 1 example_array
      (by decide) (by decide) (by decide) (fun i j hi hj => by omega)).1⟩

end two_dimensional

/-! ## The var_dim reduce-inner frame -/

/-- C6 (the code at rows `[1,2,3]`, `[4,5]`, sum, identity 0): the frame that `instantiate`
builds has `src0_inner_stride_first = src0_inner_stride`, although the reduction has an identity,
so `single_first` seeds `dst` with 0 and then skips the first element of the row (5 and 5 instead
of 6 and 9), and so does `strided_first`; on an empty row the element count wraps to
`2 ^ 64 - 1`.  Even for a frame constructed with `with_identity = true`, `strided_first` passes
`size - 1` to the accumulation child and drops the last element of each row (3 and 4). -/
theorem var_dim_reduce_inner_first_call_values :
    (reduction_kernel_var_dim_false_true.instantiate_frame 1 (some (0 : Int))
      (identity_init_single 0)
      (accumulate_strided (fun a b : Int => a + b))).src0_inner_stride_first = 1 ∧
    (reduction_kernel_var_dim_false_true.instantiate_frame 1 (some 0) (identity_init_single 0)
      (accumulate_strided (fun a b : Int => a + b))).single_first example_var_dim
      100 200 example_array 100 = 5 ∧
    (reduction_kernel_var_dim_false_true.instantiate_frame 1 (some 0) (identity_init_single 0)
      (accumulate_strided (fun a b : Int => a + b))).single_first example_var_dim
      100 216 example_array 100 = 5 ∧
    (reduction_kernel_var_dim_false_true.instantiate_frame 1 (some 0) (identity_init_single 0)
      (accumulate_strided (fun a b : Int => a + b))).strided_first example_var_dim
      100 1 200 16 2 example_array 100 = 5 ∧
    (reduction_kernel_var_dim_false_true.instantiate_frame 1 (some 0) (identity_init_single 0)
      (accumulate_strided (fun a b : Int => a + b))).strided_first example_var_dim
      100 1 200 16 2 example_array 101 = 5 ∧
    size_t_dec (example_var_dim 232).size = 2 ^ 64 - 1 ∧
    (reduction_kernel_var_dim_false_true.construct 1 true (identity_init_single 0)
      (accumulate_strided (fun a b : Int => a + b))).strided_first example_var_dim
      100 1 200 16 2 example_array 100 = 3 ∧
    (reduction_kernel_var_dim_false_true.construct 1 true (identity_init_single 0)
      (accumulate_strided (fun a b : Int => a + b))).strided_first example_var_dim
      100 1 200 16 2 example_array 101 = 4 := by
  refine ⟨rfl, ?_, ?_, ?_, ?_, ?_, ?_, ?_⟩ <;> decide

/-! ## The build over several reduction axes -/

/-- C7: the build of a reduction kernel over two or more axes with a binary operator that is
not both left-associative and commutative fails with the error `UnsupportedReduction`: no kernel
is produced, whatever the frames chosen for the dimensions, the leaf kernels, the types and the
kernel request. -/
theorem reduction_driver_rejects_multi_axis {α : Type} (properties : reduction_properties)
    (leaf_single : instantiate_t (kernel_single_t α × kernel_strided_t α) α)
    (leaf_strided : instantiate_t (kernel_strided_t α × kernel_strided_t α) α)
    (kinds : List Bool) (data : reduction_data_type α) (dst_tp src_tp : ndt_type)
    (kernreq : kernel_request_t) (hnaxis : 2 ≤ data.naxis)
    (hproperties : ¬ (properties.left_associative = true ∧ properties.commutative = true)) :
    reduction_driver.instantiate properties leaf_single leaf_strided kinds data dst_tp src_tp
      kernreq = .error unsupported_reduction_multiple_axes ∧
    (reduction_driver.instantiate properties leaf_single leaf_strided kinds data dst_tp src_tp
      kernreq).toOption = none := by
  have h : reduction_driver.check_properties properties data
      = .error unsupported_reduction_multiple_axes := by
    unfold reduction_driver.check_properties
    rw [if_pos ⟨hnaxis, hproperties⟩]
  unfold reduction_driver.instantiate
  rw [h]
  exact ⟨rfl, rfl⟩

/-- Witness of C7 (scenario S5): the build for reducing both axes of the `3 x 2` array with
identity 0 fails for an operator whose properties do not include `commutative` (the leaf kernels
are those of the subtraction); for the sum, with the properties `left_associative` and
`commutative`, the same build gives a kernel, whose `single_first` on `[[1,2],[3,4],[5,6]]`
leaves 21. -/
theorem reduction_driver_rejects_multi_axis_witness :
    (2 : Int) ≤ example_reduction_data_both.naxis ∧
    ¬ (non_commutative_properties.left_associative = true ∧
      non_commutative_properties.commutative = true) ∧
    (reduction_driver.instantiate non_commutative_properties
      (reduction_leaf_single (fun a b : Int => a - b))
      (reduction_leaf_strided (fun a b : Int => a - b)) [false, false]
      example_reduction_data_both .scalar (.fixed_dim 3 2 (.fixed_dim 2 1 .scalar))
      .kernel_request_single).toOption = none ∧
    (reduction_driver.instantiate associative_commutative_properties
      (reduction_leaf_single (fun a b : Int => a + b))
      (reduction_leaf_strided (fun a b : Int => a + b)) [false, false]
      example_reduction_data_both .scalar (.fixed_dim 3 2 (.fixed_dim 2 1 .scalar))
      .kernel_request_single).toOption.map
        (fun r => r.single_first 100 0 example_array 100) = some 21 :=
  ⟨by decide, by decide,
    (reduction_driver_rejects_multi_axis non_commutative_properties
      (reduction_leaf_single (fun a b : Int => a - b))
      (reduction_leaf_strided (fun a b : Int => a - b)) [false, false]
      example_reduction_data_both .scalar (.fixed_dim 3 2 (.fixed_dim 2 1 .scalar))
      .kernel_request_single (by decide) (by decide)).2,
    by decide⟩

/-! ## The reduce-outer frame over an empty axis -/

/-- C8 (the code at a source of shape `0 x 2`, sum, identity 0): with `src0_element_size = 0`
the reduce-outer `single_first` still runs the child's first call on the row at `src[0]`, so the
two retained dst cells receive `0 + 1` and `0 + 2` from the memory found there instead of the
identity. -/
theorem reduce_outer_empty_axis_values :
    (reduction_kernel_fixed_dim_false_false.instantiate_frame 0 2
        (reduction_kernel_fixed_dim_true_true.instantiate_frame 2 1 1 (some 0)
          (identity_init_strided 0)
          (accumulate_strided (fun a b : Int => a + b))).to_reduction_child).single_first
        100 0 example_array 100 = 1 ∧
    (reduction_kernel_fixed_dim_false_false.instantiate_frame 0 2
        (reduction_kernel_fixed_dim_true_true.instantiate_frame 2 1 1 (some 0)
          (identity_init_strided 0)
          (accumulate_strided (fun a b : Int => a + b))).to_reduction_child).single_first
        100 0 example_array 101 = 2 := by
  constructor <;> decide

/-! ## The POD copy kernels -/

theorem addr_succ_one (a : Int) (i : Nat) : a + 1 + (i : Int) = a + ((i + 1 : Nat) : Int) := by
  push_cast; ring

theorem store_integer_spec : ∀ (n : Nat) (a : Int) (v : Nat) (m : byte_memory),
    (∀ i : Nat, i < n → ((store_integer m a n v) (a + i)).val = v / 256 ^ i % 256) ∧
    (∀ b : Int, (∀ i : Nat, i < n → b ≠ a + i) → store_integer m a n v b = m b) := by
  intro n
  induction n with
  | zero =>
    intro a v m
    exact ⟨fun i hi => absurd hi (Nat.not_lt_zero i), fun b _ => rfl⟩
  | succ n ih =>
    intro a v m
    obtain ⟨h1, h2⟩ := ih (a + 1) (v / 256) (m.write a ⟨v % 256, Nat.mod_lt v (by decide)⟩)
    simp only [store_integer]
    constructor
    · intro i hi
      cases i with
      | zero =>
        simp only [Nat.cast_zero, add_zero, pow_zero, Nat.div_one]
        rw [h2 a (fun i _ => by omega), Mem.write_same]
      | succ j =>
        rw [← addr_succ_one, h1 j (by omega), Nat.div_div_eq_div_mul, pow_succ, Nat.mul_comm]
    · intro b hb
      have hb0 : b ≠ a := by simpa using hb 0 (Nat.succ_pos n)
      rw [h2 b (fun i hi => by rw [addr_succ_one]; exact hb (i + 1) (Nat.succ_lt_succ hi)),
        Mem.write_other m a b _ hb0]

theorem load_integer_digit (m : byte_memory) : ∀ (n : Nat) (a : Int) (i : Nat), i < n →
    load_integer m a n / 256 ^ i % 256 = (m (a + i)).val := by
  intro n
  induction n with
  | zero => intro a i hi; exact absurd hi (Nat.not_lt_zero i)
  | succ n ih =>
    intro a i hi
    have hlt : (m a).val < 256 := (m a).isLt
    simp only [load_integer]
    cases i with
    | zero =>
      simp only [Nat.cast_zero, add_zero, pow_zero, Nat.div_one]
      omega
    | succ j =>
      rw [← addr_succ_one, ← ih (a + 1) j (by omega), pow_succ, Nat.mul_comm (256 ^ j) 256,
        ← Nat.div_div_eq_div_mul]
      congr 2
      omega

theorem store_load_copies (N : Nat) (dst src : Int) (m : byte_memory) :
    copies N dst src m (store_integer m dst N (load_integer m src N)) := by
  obtain ⟨h1, h2⟩ := store_integer_spec N dst (load_integer m src N) m
  refine ⟨fun i hi => ?_, h2⟩
  apply Fin.ext
  rw [h1 i hi, load_integer_digit m N src i hi]

theorem memcpy_copies (n : Nat) (dst src : Int) (m : byte_memory)
    (h : ∀ i j : Nat, i < n → j < n → src + i ≠ dst + j) :
    copies n dst src m (memcpy dst src n m) := by
  have key := copy_init_strided_spec n dst 1 src 1 m
    (fun i j _ _ hij => addr_ne dst 1 one_ne_zero i j hij)
    (fun i j hi hj => by simpa using h i j hi hj)
  constructor
  · intro i hi
    have := key.1 i hi
    simpa [memcpy, copy_init_strided, copy_init_single] using this
  · intro a ha
    have := key.2 a (fun i hi => by simpa using ha i hi)
    simpa [memcpy, copy_init_strided, copy_init_single] using this

theorem aligned_fixed_size_copy_assign_copies (N : Nat) (dst src : Int) (m : byte_memory) :
    copies N dst src m (aligned_fixed_size_copy_assign.single N dst src m) := by
  unfold aligned_fixed_size_copy_assign.single
  split
  · next h =>
    subst h
    constructor
    · intro i hi
      have : i = 0 := by omega
      subst this
      simp [Mem.write]
    · intro a ha
      have := ha 0 (by decide)
      simp only [Nat.cast_zero, add_zero] at this
      exact Mem.write_other m dst a _ this
  · exact store_load_copies N dst src m

theorem make_pod_dtype_assignment_kernel_single_copies {E : Type} (ts : dtype_system E)
    (assigner : builtin_type → builtin_type → assign_error_mode → Int → Int → byte_memory →
      byte_memory)
    (offset_out data_size data_alignment : Nat) (dst src : Int) (m : byte_memory)
    (h : ∀ i j : Nat, i < data_size → j < data_size → src + i ≠ dst + j) :
    copies data_size dst src m
      ((make_pod_dtype_assignment_kernel ts offset_out data_size data_alignment).single
        assigner dst src m) := by
  unfold make_pod_dtype_assignment_kernel
  split
  · split
    · exact aligned_fixed_size_copy_assign_copies 1 dst src m
    · exact aligned_fixed_size_copy_assign_copies 2 dst src m
    · exact aligned_fixed_size_copy_assign_copies 4 dst src m
    · exact aligned_fixed_size_copy_assign_copies 8 dst src m
    · exact memcpy_copies data_size dst src m h
  · split
    · exact memcpy_copies 2 dst src m h
    · exact memcpy_copies 4 dst src m h
    · exact memcpy_copies 8 dst src m h
    · exact memcpy_copies data_size dst src m h

theorem copies_unique (n : Nat) (dst src : Int) (m m1 m2 : byte_memory)
    (h1 : copies n dst src m m1) (h2 : copies n dst src m m2) : m1 = m2 := by
  funext a
  by_cases ha : ∃ i : Nat, i < n ∧ a = dst + i
  · obtain ⟨i, hi, rfl⟩ := ha
    rw [h1.1 i hi, h2.1 i hi]
  · have ha1 : ∀ i : Nat, i < n → a ≠ dst + i := fun i hi he => ha ⟨i, hi, he⟩
    rw [h1.2 a ha1, h2.2 a ha1]

/-- C9: for every data size and alignment, the single-element function installed by
`make_pod_dtype_assignment_kernel`, called on buffers that do not overlap, copies exactly
`data_size` bytes: afterwards `dst[0 .. data_size)` equals `src[0 .. data_size)` byte for byte
and no other byte has changed; hence the result does not depend on the alignment, and the aligned
and unaligned variants agree (in particular for the sizes 2, 4 and 8). -/
theorem make_pod_dtype_assignment_kernel_copy {E : Type} (ts : dtype_system E)
    (assigner : builtin_type → builtin_type → assign_error_mode → Int → Int → byte_memory →
      byte_memory)
    (offset_out data_size data_alignment : Nat) (dst src : Int) (m : byte_memory)
    (h : ∀ i j : Nat, i < data_size → j < data_size → src + i ≠ dst + j) :
    (∀ i : Nat, i < data_size →
      (make_pod_dtype_assignment_kernel ts offset_out data_size data_alignment).single
        assigner dst src m (dst + i) = m (src + i)) ∧
    (∀ a : Int, (∀ i : Nat, i < data_size → a ≠ dst + i) →
      (make_pod_dtype_assignment_kernel ts offset_out data_size data_alignment).single
        assigner dst src m a = m a) ∧
    (∀ other_alignment : Nat,
      (make_pod_dtype_assignment_kernel ts offset_out data_size other_alignment).single
        assigner dst src m
      = (make_pod_dtype_assignment_kernel ts offset_out data_size data_alignment).single
        assigner dst src m) := by
  have key := make_pod_dtype_assignment_kernel_single_copies ts assigner offset_out data_size
    data_alignment dst src m h
  refine ⟨key.1, key.2, fun other_alignment => ?_⟩
  exact copies_unique data_size dst src m _ _
    (make_pod_dtype_assignment_kernel_single_copies ts assigner offset_out data_size
      other_alignment dst src m h) key

/-- Witness of C9: the aligned four-byte copy from address 0 to address 100. -/
theorem make_pod_dtype_assignment_kernel_copy_witness :
    (∀ i j : Nat, i < 4 → j < 4 → (0 : Int) + i ≠ 100 + j) ∧
    (∀ i : Nat, i < 4 →
      (make_pod_dtype_assignment_kernel example_dtype_system 0 4 4).single
        (fun _ _ _ _ _ m => m) 100 0 example_bytes (100 + i) = example_bytes (0 + i)) :=
  ⟨fun i j hi hj => by omega,
    (make_pod_dtype_assignment_kernel_copy example_dtype_system (fun _ _ _ _ _ m => m) 0 4 4
      100 0 example_bytes (fun i j hi hj => by omega)).1⟩

/-! ## The assignment kernel factory -/

theorem builtin_types_getElem (i : Nat) (h : i ≤ 12) : ∃ t, builtin_types[i]? = some t := by
  have : i < builtin_types.length := by simp [builtin_types]; omega
  exact ⟨builtin_types[i], List.getElem?_eq_getElem this⟩

/-- For distinct builtin types with a lossless assignment, `make_assignment_kernel` comes down to
`make_builtin_dtype_assignment_function` with error mode none, whatever mode is requested. -/
theorem make_assignment_kernel_lossless_eq {E : Type} (ts : dtype_system E)
    (offset_out dst_type_id src_type_id : Nat) (dst_metadata src_metadata : Int)
    (errmode : assign_error_mode) (ectx : Option eval_context)
    (hne : dst_type_id ≠ src_type_id)
    (hlossless :
      ts.is_lossless_assignment (.builtin dst_type_id) (.builtin src_type_id) = true) :
    make_assignment_kernel ts offset_out (.builtin dst_type_id) dst_metadata
        (.builtin src_type_id) src_metadata errmode ectx
      = make_builtin_dtype_assignment_function ts offset_out dst_type_id src_type_id
          .assign_error_none := by
  have hmode : ∀ e : assign_error_mode,
      (if e ≠ .assign_error_none ∧
          ts.is_lossless_assignment (.builtin dst_type_id) (.builtin src_type_id) = true
        then assign_error_mode.assign_error_none else e) = .assign_error_none := by
    intro e
    cases e <;> simp [hlossless]
  simp only [make_assignment_kernel, if_neg hne, hmode]

/-- C10: for two distinct builtin scalar types whose assignment is lossless, and for any
requested error mode (and any evaluation context), `make_assignment_kernel` installs what it
installs for error mode none, namely the entry `[dst_id - bool][src_id - bool][none]` of
`assign_table_single_kernel`, the assigner of the two types with error mode none. -/
theorem make_assignment_kernel_lossless {E : Type} (ts : dtype_system E)
    (offset_out dst_type_id src_type_id : Nat) (dst_metadata src_metadata : Int)
    (errmode : assign_error_mode) (ectx : Option eval_context)
    (hdst : ts.bool_type_id ≤ dst_type_id ∧ dst_type_id ≤ ts.complex_float64_type_id)
    (hsrc : ts.bool_type_id ≤ src_type_id ∧ src_type_id ≤ ts.complex_float64_type_id)
    (hne : dst_type_id ≠ src_type_id)
    (hlossless :
      ts.is_lossless_assignment (.builtin dst_type_id) (.builtin src_type_id) = true) :
    make_assignment_kernel ts offset_out (.builtin dst_type_id) dst_metadata
        (.builtin src_type_id) src_metadata errmode ectx
      = make_assignment_kernel ts offset_out (.builtin dst_type_id) dst_metadata
          (.builtin src_type_id) src_metadata .assign_error_none ectx ∧
    ∃ dst_type src_type,
      builtin_types[dst_type_id - ts.bool_type_id]? = some dst_type ∧
      builtin_types[src_type_id - ts.bool_type_id]? = some src_type ∧
      assign_table_single_kernel (dst_type_id - ts.bool_type_id)
          (src_type_id - ts.bool_type_id) assign_error_mode.assign_error_none.toNat
        = some (.single_assigner_builtin dst_type src_type .assign_error_none) ∧
      make_assignment_kernel ts offset_out (.builtin dst_type_id) dst_metadata
          (.builtin src_type_id) src_metadata errmode ectx
        = .ok { function := .single_assigner_builtin dst_type src_type .assign_error_none,
                data_size := none, ensure_capacity := none,
                offset := offset_out + ts.sizeof_hierarchical_kernel_common_base } := by
  have e1 := make_assignment_kernel_lossless_eq ts offset_out dst_type_id src_type_id
    dst_metadata src_metadata errmode ectx hne hlossless
  have e2 := make_assignment_kernel_lossless_eq ts offset_out dst_type_id src_type_id
    dst_metadata src_metadata .assign_error_none ectx hne hlossless
  refine ⟨e1.trans e2.symm, ?_⟩
  have hd12 : dst_type_id - ts.bool_type_id ≤ 12 := by
    have := hdst.2
    simp only [dtype_system.complex_float64_type_id] at this
    omega
  have hs12 : src_type_id - ts.bool_type_id ≤ 12 := by
    have := hsrc.2
    simp only [dtype_system.complex_float64_type_id] at this
    omega
  obtain ⟨d, hd⟩ := builtin_types_getElem _ hd12
  obtain ⟨t, ht⟩ := builtin_types_getElem _ hs12
  have htable : assign_table_single_kernel (dst_type_id - ts.bool_type_id)
      (src_type_id - ts.bool_type_id) assign_error_mode.assign_error_none.toNat
      = some (.single_assigner_builtin d t .assign_error_none) := by
    simp [assign_table_single_kernel, hd, ht, assign_error_mode.toNat, table_error_modes]
  refine ⟨d, t, hd, ht, htable, ?_⟩
  rw [e1]
  have hcond : dst_type_id ≥ ts.bool_type_id ∧ dst_type_id ≤ ts.complex_float64_type_id ∧
      src_type_id ≥ ts.bool_type_id ∧ src_type_id ≤ ts.complex_float64_type_id ∧
      assign_error_mode.assign_error_none ≠ .assign_error_default :=
    ⟨hdst.1, hdst.2, hsrc.1, hsrc.2, by decide⟩
  simp only [make_builtin_dtype_assignment_function, if_pos hcond, htable]

/-- Witness of C10: `int32` (type id 4) from `int16` (type id 3) in the example dtype system,
requested with error mode `assign_error_inexact` and no evaluation context. -/
theorem make_assignment_kernel_lossless_witness :
    (example_dtype_system.bool_type_id ≤ 4 ∧ 4 ≤ example_dtype_system.complex_float64_type_id) ∧
    (example_dtype_system.bool_type_id ≤ 3 ∧ 3 ≤ example_dtype_system.complex_float64_type_id) ∧
    (4 : Nat) ≠ 3 ∧
    example_dtype_system.is_lossless_assignment (.builtin 4) (.builtin 3) = true ∧
    make_assignment_kernel example_dtype_system 0 (.builtin 4) 0 (.builtin 3) 0
        .assign_error_inexact none
      = make_assignment_kernel example_dtype_system 0 (.builtin 4) 0 (.builtin 3) 0
          .assign_error_none none :=
  ⟨by decide, by decide, by decide, rfl,
    (make_assignment_kernel_lossless example_dtype_system 0 4 3 0 0 .assign_error_inexact none
      (by decide) (by decide) (by decide) rfl).1⟩

theorem table_error_modes_getElem (errmode : assign_error_mode)
    (h : errmode ≠ .assign_error_default) :
    errmode.toNat < 4 ∧ table_error_modes[errmode.toNat]? = some errmode := by
  cases errmode <;> first | exact absurd rfl h | exact ⟨by decide, rfl⟩

/-- C11: `make_builtin_dtype_assignment_function` fails (with the runtime error) if and only if
`dst_type_id` or `src_type_id` lies outside `[bool_type_id, complex_float64_type_id]` or `errmode`
is `assign_error_default`; otherwise the three table indices lie within the bounds 13, 13 and 4,
the function installed is the table entry at these indices, which is the assigner of the two
types for `errmode`, and the offset returned is `offset_out` plus the size of the prefix. -/
theorem make_builtin_dtype_assignment_function_spec {E : Type} (ts : dtype_system E)
    (offset_out dst_type_id src_type_id : Nat) (errmode : assign_error_mode) :
    ((∃ message,
        make_builtin_dtype_assignment_function ts offset_out dst_type_id src_type_id errmode
          = .error message) ↔
      (dst_type_id < ts.bool_type_id ∨ ts.complex_float64_type_id < dst_type_id ∨
        src_type_id < ts.bool_type_id ∨ ts.complex_float64_type_id < src_type_id ∨
        errmode = .assign_error_default)) ∧
    (¬ (dst_type_id < ts.bool_type_id ∨ ts.complex_float64_type_id < dst_type_id ∨
        src_type_id < ts.bool_type_id ∨ ts.complex_float64_type_id < src_type_id ∨
        errmode = .assign_error_default) →
      dst_type_id - ts.bool_type_id < 13 ∧ src_type_id - ts.bool_type_id < 13 ∧
      errmode.toNat < 4 ∧
      ∃ dst_type src_type,
        builtin_types[dst_type_id - ts.bool_type_id]? = some dst_type ∧
        builtin_types[src_type_id - ts.bool_type_id]? = some src_type ∧
        assign_table_single_kernel (dst_type_id - ts.bool_type_id)
            (src_type_id - ts.bool_type_id) errmode.toNat
          = some (.single_assigner_builtin dst_type src_type errmode) ∧
        make_builtin_dtype_assignment_function ts offset_out dst_type_id src_type_id errmode
          = .ok { function := .single_assigner_builtin dst_type src_type errmode,
                  data_size := none, ensure_capacity := none,
                  offset := offset_out + ts.sizeof_hierarchical_kernel_common_base }) := by
  have hok : ¬ (dst_type_id < ts.bool_type_id ∨ ts.complex_float64_type_id < dst_type_id ∨
        src_type_id < ts.bool_type_id ∨ ts.complex_float64_type_id < src_type_id ∨
        errmode = .assign_error_default) →
      dst_type_id - ts.bool_type_id < 13 ∧ src_type_id - ts.bool_type_id < 13 ∧
      errmode.toNat < 4 ∧
      ∃ dst_type src_type,
        builtin_types[dst_type_id - ts.bool_type_id]? = some dst_type ∧
        builtin_types[src_type_id - ts.bool_type_id]? = some src_type ∧
        assign_table_single_kernel (dst_type_id - ts.bool_type_id)
            (src_type_id - ts.bool_type_id) errmode.toNat
          = some (.single_assigner_builtin dst_type src_type errmode) ∧
        make_builtin_dtype_assignment_function ts offset_out dst_type_id src_type_id errmode
          = .ok { function := .single_assigner_builtin dst_type src_type errmode,
                  data_size := none, ensure_capacity := none,
                  offset := offset_out + ts.sizeof_hierarchical_kernel_common_base } := by
    intro h
    simp only [not_or, not_lt] at h
    obtain ⟨h1, h2, h3, h4, h5⟩ := h
    have h2' : dst_type_id ≤ ts.bool_type_id + 12 := h2
    have h4' : src_type_id ≤ ts.bool_type_id + 12 := h4
    obtain ⟨d, hd⟩ := builtin_types_getElem (dst_type_id - ts.bool_type_id) (by omega)
    obtain ⟨t, ht⟩ := builtin_types_getElem (src_type_id - ts.bool_type_id) (by omega)
    obtain ⟨he4, he⟩ := table_error_modes_getElem errmode h5
    have htable : assign_table_single_kernel (dst_type_id - ts.bool_type_id)
        (src_type_id - ts.bool_type_id) errmode.toNat
        = some (.single_assigner_builtin d t errmode) := by
      simp only [assign_table_single_kernel, hd, ht, he]
    have hcond : dst_type_id ≥ ts.bool_type_id ∧ dst_type_id ≤ ts.complex_float64_type_id ∧
        src_type_id ≥ ts.bool_type_id ∧ src_type_id ≤ ts.complex_float64_type_id ∧
        errmode ≠ .assign_error_default := ⟨h1, h2, h3, h4, h5⟩
    refine ⟨by omega, by omega, he4, d, t, hd, ht, htable, ?_⟩
    simp only [make_builtin_dtype_assignment_function, if_pos hcond, htable]
  refine ⟨⟨?_, ?_⟩, hok⟩
  · rintro ⟨message, hmsg⟩
    by_contra hcon
    obtain ⟨_, _, _, d, t, _, _, _, hres⟩ := hok hcon
    rw [hres] at hmsg
    exact absurd hmsg (by simp)
  · intro h
    have hcond : ¬ (dst_type_id ≥ ts.bool_type_id ∧ dst_type_id ≤ ts.complex_float64_type_id ∧
        src_type_id ≥ ts.bool_type_id ∧ src_type_id ≤ ts.complex_float64_type_id ∧
        errmode ≠ .assign_error_default) := by
      rintro ⟨h1, h2, h3, h4, h5⟩
      rcases h with h | h | h | h | h
      · omega
      · omega
      · omega
      · omega
      · exact h5 h
    refine ⟨"Cannot assign from " ++ toString src_type_id ++ " to " ++ toString dst_type_id, ?_⟩
    simp only [make_builtin_dtype_assignment_function, if_neg hcond]

/-- Witness of C11: `int32` (type id 4) from `float64` (type id 11) with error mode
`assign_error_fractional` in the example dtype system. -/
theorem make_builtin_dtype_assignment_function_spec_witness :
    ¬ (4 < example_dtype_system.bool_type_id ∨
        example_dtype_system.complex_float64_type_id < 4 ∨
        11 < example_dtype_system.bool_type_id ∨
        example_dtype_system.complex_float64_type_id < 11 ∨
        assign_error_mode.assign_error_fractional = .assign_error_default) ∧
    (4 - example_dtype_system.bool_type_id < 13 ∧ 11 - example_dtype_system.bool_type_id < 13 ∧
      assign_error_mode.assign_error_fractional.toNat < 4 ∧
      ∃ dst_type src_type,
        builtin_types[4 - example_dtype_system.bool_type_id]? = some dst_type ∧
        builtin_types[11 - example_dtype_system.bool_type_id]? = some src_type ∧
        assign_table_single_kernel (4 - example_dtype_system.bool_type_id)
            (11 - example_dtype_system.bool_type_id)
            assign_error_mode.assign_error_fractional.toNat
          = some (.single_assigner_builtin dst_type src_type .assign_error_fractional) ∧
        make_builtin_dtype_assignment_function example_dtype_system 0 4 11
            .assign_error_fractional
          = .ok { function :=
                    .single_assigner_builtin dst_type src_type .assign_error_fractional,
                  data_size := none, ensure_capacity := none,
                  offset := 0 +
                    example_dtype_system.sizeof_hierarchical_kernel_common_base }) :=
  ⟨by decide,
    (make_builtin_dtype_assignment_function_spec example_dtype_system 0 4 11
      .assign_error_fractional).2 (by decide)⟩

/-! ## The kernel builder -/

theorem getElem?_eq_some_getD (l : List (Fin 256)) (i : Nat) (h : i < l.length) :
    l[i]? = some (l.getD i 0) := by
  simp [List.getD_eq_getElem?_getD, List.getElem?_eq_getElem h]

theorem memset_block_length (b : List (Fin 256)) (s : Nat) (v : Fin 256) (n : Nat) :
    (memset_block b s v n).length = b.length := by
  simp [memset_block]

theorem memset_block_getElem? (b : List (Fin 256)) (s : Nat) (v : Fin 256) (n i : Nat)
    (hi : i < b.length) :
    (memset_block b s v n)[i]? = some (if s ≤ i ∧ i < s + n then v else b.getD i 0) := by
  simp [memset_block, List.getElem?_map, List.getElem?_range hi]

theorem memcpy_block_length (d s : List (Fin 256)) (n : Nat) :
    (memcpy_block d s n).length = d.length := by
  simp [memcpy_block]

theorem memcpy_block_getElem? (d s : List (Fin 256)) (n i : Nat) (hi : i < d.length) :
    (memcpy_block d s n)[i]? = some (if i < n then s.getD i 0 else d.getD i 0) := by
  simp [memcpy_block, List.getElem?_map, List.getElem?_range hi]

theorem ensure_capacity_leaf_no_growth (abi : ckernel_prefix_abi)
    (alloc : Option (Nat → Fin 256)) (ckb : ckernel_builder) (n : Int)
    (h : n ≤ ckb.m_capacity) :
    ckernel_builder_ensure_capacity_leaf abi alloc ckb n = (0, ckb, []) := by
  simp only [ckernel_builder_ensure_capacity_leaf, if_neg (not_lt.mpr h)]

theorem ensure_capacity_leaf_failure (abi : ckernel_prefix_abi) (ckb : ckernel_builder) (n : Int)
    (h : ckb.m_capacity < n) :
    ckernel_builder_ensure_capacity_leaf abi none ckb n
      = (-1, { (ckb.destroy abi).1 with m_data := .null }, (ckb.destroy abi).2) := by
  simp only [ckernel_builder_ensure_capacity_leaf, if_pos h, malloc, realloc, Option.map]
  cases ckb.m_data <;> rfl

/-- A successful growth: the value returned, the new capacity and the new block. -/
theorem ensure_capacity_leaf_growth (abi : ckernel_prefix_abi) (garbage : Nat → Fin 256)
    (ckb : ckernel_builder) (n : Int) (h : ckb.m_capacity < n) :
    ∃ block,
      ckernel_builder_ensure_capacity_leaf abi (some garbage) ckb n
        = (0,
            { ckb with
                m_data := .heap block,
                m_capacity :=
                  if n < (ckb.m_capacity * 3).tdiv 2 then (ckb.m_capacity * 3).tdiv 2 else n },
            []) ∧
      (ckb.valid →
        block.length =
          (if n < (ckb.m_capacity * 3).tdiv 2 then (ckb.m_capacity * 3).tdiv 2 else n).toNat ∧
        (∀ i : Nat, i < ckb.m_capacity.toNat → block[i]? = ckb.bytes[i]?) ∧
        (∀ i : Nat, ckb.m_capacity.toNat ≤ i → i < block.length → block[i]? = some 0)) := by
  have hN : n ≤ (if n < (ckb.m_capacity * 3).tdiv 2 then (ckb.m_capacity * 3).tdiv 2 else n) := by
    split <;> omega
  generalize hNdef :
    (if n < (ckb.m_capacity * 3).tdiv 2 then (ckb.m_capacity * 3).tdiv 2 else n) = N at hN
  cases hd : ckb.m_data with
  | static_data =>
    refine ⟨memset_block
      (memcpy_block ((List.range N.toNat).map garbage) ckb.m_static_data ckb.m_capacity.toNat)
      ckb.m_capacity.toNat 0 (N - ckb.m_capacity).toNat, ?_, ?_⟩
    · simp only [ckernel_builder_ensure_capacity_leaf, if_pos h, hd, malloc, Option.map, hNdef]
    · intro hv
      simp only [ckernel_builder.valid, hd] at hv
      obtain ⟨hc, hlen⟩ := hv
      have hc0 : (0 : Int) ≤ ckb.m_capacity := by rw [hc]; decide
      have hlen1 : (memcpy_block ((List.range N.toNat).map garbage) ckb.m_static_data
          ckb.m_capacity.toNat).length = N.toNat := by
        simp [memcpy_block_length]
      refine ⟨by rw [memset_block_length, hlen1], ?_, ?_⟩
      · intro i hi
        have hiN : i < N.toNat := by omega
        rw [memset_block_getElem? _ _ _ _ _ (by rw [hlen1]; exact hiN),
          if_neg (by omega), List.getD_eq_getElem?_getD,
          memcpy_block_getElem? _ _ _ _ (by simpa using hiN), if_pos hi]
        simp only [ckernel_builder.bytes, hd, Option.getD_some]
        have hls : i < ckb.m_static_data.length := by
          rw [hlen, ← Int.toNat_ofNat sizeof_m_static_data, ← hc]; exact hi
        exact (getElem?_eq_some_getD _ _ hls).symm
      · intro i hi hiN
        rw [memset_block_length] at hiN
        rw [memset_block_getElem? _ _ _ _ _ hiN, if_pos (by rw [hlen1] at hiN; omega)]
  | heap block =>
    refine ⟨memset_block
      ((List.range N.toNat).map (fun i => (block[i]?).getD (garbage i)))
      ckb.m_capacity.toNat 0 (N - ckb.m_capacity).toNat, ?_, ?_⟩
    · simp only [ckernel_builder_ensure_capacity_leaf, if_pos h, hd, realloc, Option.map, hNdef]
    · intro hv
      simp only [ckernel_builder.valid, hd] at hv
      obtain ⟨hc, hlen⟩ := hv
      have hc0 : (0 : Int) ≤ ckb.m_capacity := le_trans (by decide) hc
      have hlen1 : ((List.range N.toNat).map (fun i => (block[i]?).getD (garbage i))).length
          = N.toNat := by simp
      refine ⟨by rw [memset_block_length, hlen1], ?_, ?_⟩
      · intro i hi
        have hiN : i < N.toNat := by omega
        rw [memset_block_getElem? _ _ _ _ _ (by rw [hlen1]; exact hiN),
          if_neg (by omega), List.getD_eq_getElem?_getD]
        simp only [ckernel_builder.bytes, hd]
        have hib : i < block.length := by rw [hlen]; exact hi
        simp [List.getElem?_map, List.getElem?_range hiN, List.getElem?_eq_getElem hib]
      · intro i hi hiN
        rw [memset_block_length] at hiN
        rw [memset_block_getElem? _ _ _ _ _ hiN, if_pos (by rw [hlen1] at hiN; omega)]
  | null =>
    refine ⟨memset_block
      ((List.range N.toNat).map (fun i => (([] : List (Fin 256))[i]?).getD (garbage i)))
      ckb.m_capacity.toNat 0 (N - ckb.m_capacity).toNat, ?_, ?_⟩
    · simp only [ckernel_builder_ensure_capacity_leaf, if_pos h, hd, realloc, Option.map, hNdef]
    · intro hv
      simp only [ckernel_builder.valid, hd] at hv

/-- C12: `ckernel_builder_ensure_capacity_leaf(ckb, n)` returns 0 exactly when the capacity was
already at least `n` or the allocation succeeded, and then the capacity afterwards is at least
`n`; when the capacity was already at least `n` the builder is unchanged (and nothing is
destroyed or freed); it returns -1 exactly when growth was required and the allocation failed,
and that is exactly when the member `ensure_capacity_leaf` throws `bad_alloc`. -/
theorem ckernel_builder_ensure_capacity_leaf_returns (abi : ckernel_prefix_abi)
    (alloc : Option (Nat → Fin 256)) (ckb : ckernel_builder) (n : Int) :
    ((ckernel_builder_ensure_capacity_leaf abi alloc ckb n).1 = 0 ↔
      (n ≤ ckb.m_capacity ∨ alloc.isSome = true)) ∧
    ((ckernel_builder_ensure_capacity_leaf abi alloc ckb n).1 = 0 →
      n ≤ (ckernel_builder_ensure_capacity_leaf abi alloc ckb n).2.1.m_capacity) ∧
    (n ≤ ckb.m_capacity →
      (ckernel_builder_ensure_capacity_leaf abi alloc ckb n).2 = (ckb, [])) ∧
    ((ckernel_builder_ensure_capacity_leaf abi alloc ckb n).1 = -1 ↔
      (ckb.m_capacity < n ∧ alloc = none)) ∧
    ((ckb.ensure_capacity_leaf abi alloc n).1 = some .bad_alloc ↔
      (ckernel_builder_ensure_capacity_leaf abi alloc ckb n).1 = -1) := by
  by_cases h : n ≤ ckb.m_capacity
  · have e := ensure_capacity_leaf_no_growth abi alloc ckb n h
    have hnot : ¬ ckb.m_capacity < n := not_lt.mpr h
    unfold ckernel_builder.ensure_capacity_leaf
    rw [e]
    refine ⟨?_, ?_, ?_, ?_, ?_⟩
    · simp [h]
    · intro _
      exact h
    · intro _
      rfl
    · simp [hnot]
    · simp
  · have hlt : ckb.m_capacity < n := not_le.mp h
    cases alloc with
    | none =>
      have e := ensure_capacity_leaf_failure abi ckb n hlt
      unfold ckernel_builder.ensure_capacity_leaf
      rw [e]
      refine ⟨?_, ?_, ?_, ?_, ?_⟩
      · simp [h]
      · intro h1
        simp at h1
      · intro h1
        exact absurd h1 h
      · simp [hlt]
      · simp
    | some garbage =>
      obtain ⟨block, e, _⟩ := ensure_capacity_leaf_growth abi garbage ckb n hlt
      unfold ckernel_builder.ensure_capacity_leaf
      rw [e]
      refine ⟨?_, ?_, ?_, ?_, ?_⟩
      · simp
      · intro _
        show n ≤ (if n < (ckb.m_capacity * 3).tdiv 2 then (ckb.m_capacity * 3).tdiv 2 else n)
        split <;> omega
      · intro h1
        exact absurd h1 h
      · simp
      · simp

/-- Witness of C12: the freshly constructed builder asked for 200 bytes, the allocation
succeeding. -/
theorem ckernel_builder_ensure_capacity_leaf_returns_witness :
    (ckernel_builder_ensure_capacity_leaf example_abi (some (fun _ => 7))
        ckernel_builder.construct 200).1 = 0 ∧
    (200 : Int) ≤ (ckernel_builder_ensure_capacity_leaf example_abi (some (fun _ => 7))
        ckernel_builder.construct 200).2.1.m_capacity :=
  ⟨by decide,
    (ckernel_builder_ensure_capacity_leaf_returns example_abi (some (fun _ => 7))
      ckernel_builder.construct 200).2.1 (by decide)⟩

theorem floor_three_halves (c : Int) : ⌊(c : ℚ) * 1.5⌋ = c * 3 / 2 := by
  have h : (c : ℚ) * 1.5 = ((c * 3 : Int) : ℚ) / ((2 : Nat) : ℚ) := by
    push_cast
    norm_num
    ring
  rw [h, Rat.floor_intCast_div_natCast]
  rfl

theorem tdiv_three_halves (c : Int) (hc : 0 ≤ c) : (c * 3).tdiv 2 = c * 3 / 2 :=
  Int.tdiv_eq_ediv (by omega) (by decide)

/-- The capacity after a successful growth. -/
theorem ensure_capacity_leaf_growth_capacity (abi : ckernel_prefix_abi)
    (garbage : Nat → Fin 256) (ckb : ckernel_builder) (n : Int) (h : ckb.m_capacity < n)
    (hc : 0 ≤ ckb.m_capacity) :
    (ckernel_builder_ensure_capacity_leaf abi (some garbage) ckb n).2.1.m_capacity
      = max n (ckb.m_capacity * 3 / 2) := by
  obtain ⟨block, e, _⟩ := ensure_capacity_leaf_growth abi garbage ckb n h
  rw [e]
  show (if n < (ckb.m_capacity * 3).tdiv 2 then (ckb.m_capacity * 3).tdiv 2 else n) = _
  rw [tdiv_three_halves _ hc]
  split <;> omega

/-- C13 (counterexample): the capacity 193 is reached from the constructed builder by a request
of 193 bytes; a request of 194 bytes then grows the buffer to 289 bytes, whereas
`max(194, ceil(193 * 1.5))` is 290. -/
theorem ensure_capacity_leaf_growth_not_ceil :
    (ckernel_builder_ensure_capacity_leaf example_abi (some (fun _ => 0))
        ckernel_builder.construct 193).2.1.m_capacity = 193 ∧
    (ckernel_builder_ensure_capacity_leaf example_abi (some (fun _ => 0))
        (ckernel_builder_ensure_capacity_leaf example_abi (some (fun _ => 0))
          ckernel_builder.construct 193).2.1 194).1 = 0 ∧
    (ckernel_builder_ensure_capacity_leaf example_abi (some (fun _ => 0))
        (ckernel_builder_ensure_capacity_leaf example_abi (some (fun _ => 0))
          ckernel_builder.construct 193).2.1 194).2.1.m_capacity = 289 ∧
    max (194 : Int) ⌈(193 : ℚ) * 1.5⌉ = 290 := by
  refine ⟨by decide, by decide, by decide, ?_⟩
  have hceil : ⌈(193 : ℚ) * 1.5⌉ = 290 :=
    Int.ceil_eq_iff.mpr ⟨by norm_num, by norm_num⟩
  rw [hceil]
  decide

/-- C13 (amended): whenever `ensure_capacity_leaf(requested)` grows a buffer of capacity
`c >= 0` (`requested > c`, allocation successful), the new capacity is
`max(requested, floor(c * 1.5))`, the integer quotient `c * 3 / 2`; for even `c` this is
`max(requested, ceil(c * 1.5))`. -/
theorem ensure_capacity_leaf_growth_floor (abi : ckernel_prefix_abi)
    (garbage : Nat → Fin 256) (ckb : ckernel_builder) (requested : Int)
    (h : ckb.m_capacity < requested) (hc : 0 ≤ ckb.m_capacity) :
    (ckernel_builder_ensure_capacity_leaf abi (some garbage) ckb requested).2.1.m_capacity
      = max requested ⌊(ckb.m_capacity : ℚ) * 1.5⌋ ∧
    (ckb.m_capacity % 2 = 0 →
      (ckernel_builder_ensure_capacity_leaf abi (some garbage) ckb requested).2.1.m_capacity
        = max requested ⌈(ckb.m_capacity : ℚ) * 1.5⌉) := by
  have e := ensure_capacity_leaf_growth_capacity abi garbage ckb requested h hc
  rw [e, floor_three_halves]
  refine ⟨rfl, fun heven => ?_⟩
  have hceil : ⌈(ckb.m_capacity : ℚ) * 1.5⌉ = ckb.m_capacity * 3 / 2 := by
    rw [Int.ceil_eq_iff]
    have hq : ((ckb.m_capacity * 3 / 2 : Int) : ℚ) = (ckb.m_capacity : ℚ) * 1.5 := by
      have h2 : ckb.m_capacity * 3 = 2 * (ckb.m_capacity * 3 / 2) := by omega
      have h3 : ((ckb.m_capacity * 3 : Int) : ℚ) = ((2 * (ckb.m_capacity * 3 / 2) : Int) : ℚ) :=
        congrArg _ h2
      push_cast at h3
      norm_num
      linarith
    rw [hq]
    constructor <;> linarith
  rw [hceil]

/-- Witness of C13 (amended): the constructed builder (capacity 128) asked for 129 bytes. -/
theorem ensure_capacity_leaf_growth_floor_witness :
    ckernel_builder.construct.m_capacity < 129 ∧ (0 : Int) ≤ ckernel_builder.construct.m_capacity ∧
    (ckernel_builder_ensure_capacity_leaf example_abi (some (fun _ => 0))
        ckernel_builder.construct 129).2.1.m_capacity
      = max 129 ⌊(ckernel_builder.construct.m_capacity : ℚ) * 1.5⌋ :=
  ⟨by decide, by decide,
    (ensure_capacity_leaf_growth_floor example_abi (fun _ => 0) ckernel_builder.construct 129
      (by decide) (by decide)).1⟩

/-- C14 (counterexample): the capacity 193 is reached from the constructed builder by a request
of 193 bytes, and the next growth, for a request of 194 bytes, leads to the capacity 289, less
than 1.5 times 193: `2 * 289 < 3 * 193`. -/
theorem ensure_capacity_leaf_growth_below_factor :
    (ckernel_builder_ensure_capacity_leaf example_abi (some (fun _ => 0))
        ckernel_builder.construct 193).1 = 0 ∧
    (ckernel_builder_ensure_capacity_leaf example_abi (some (fun _ => 0))
        ckernel_builder.construct 193).2.1.m_capacity = 193 ∧
    (ckernel_builder_ensure_capacity_leaf example_abi (some (fun _ => 0))
        (ckernel_builder_ensure_capacity_leaf example_abi (some (fun _ => 0))
          ckernel_builder.construct 193).2.1 194).1 = 0 ∧
    ¬ (2 * (ckernel_builder_ensure_capacity_leaf example_abi (some (fun _ => 0))
        (ckernel_builder_ensure_capacity_leaf example_abi (some (fun _ => 0))
          ckernel_builder.construct 193).2.1 194).2.1.m_capacity ≥ 3 * 193) := by
  refine ⟨by decide, by decide, by decide, by decide⟩

/-- C14 (amended): every growth of a buffer of capacity `c >= 0` leads to a capacity `c'` with
`c' >= requested > c` and `c' >= floor(3 * c / 2)`, that is `2 * c' >= 3 * c - 1`; for even `c`
(such as the inline capacity) `2 * c' >= 3 * c`. -/
theorem ensure_capacity_leaf_growth_factor (abi : ckernel_prefix_abi)
    (garbage : Nat → Fin 256) (ckb : ckernel_builder) (requested : Int)
    (h : ckb.m_capacity < requested) (hc : 0 ≤ ckb.m_capacity) :
    requested ≤
      (ckernel_builder_ensure_capacity_leaf abi (some garbage) ckb requested).2.1.m_capacity ∧
    2 * (ckernel_builder_ensure_capacity_leaf abi (some garbage) ckb requested).2.1.m_capacity
      ≥ 3 * ckb.m_capacity - 1 ∧
    (ckb.m_capacity % 2 = 0 →
      2 * (ckernel_builder_ensure_capacity_leaf abi (some garbage) ckb requested).2.1.m_capacity
        ≥ 3 * ckb.m_capacity) := by
  rw [ensure_capacity_leaf_growth_capacity abi garbage ckb requested h hc]
  refine ⟨le_max_left _ _, ?_, fun heven => ?_⟩
  · have := le_max_right requested (ckb.m_capacity * 3 / 2)
    omega
  · have := le_max_right requested (ckb.m_capacity * 3 / 2)
    omega

/-- Witness of C14 (amended): the constructed builder (capacity 128) asked for 129 bytes. -/
theorem ensure_capacity_leaf_growth_factor_witness :
    ckernel_builder.construct.m_capacity < 129 ∧ (0 : Int) ≤ ckernel_builder.construct.m_capacity ∧
    2 * (ckernel_builder_ensure_capacity_leaf example_abi (some (fun _ => 0))
        ckernel_builder.construct 129).2.1.m_capacity
      ≥ 3 * ckernel_builder.construct.m_capacity - 1 :=
  ⟨by decide, by decide,
    (ensure_capacity_leaf_growth_factor example_abi (fun _ => 0) ckernel_builder.construct 129
      (by decide) (by decide)).2.1⟩

/-- A valid builder stays valid under a successful growth. -/
theorem ensure_capacity_leaf_growth_valid (abi : ckernel_prefix_abi) (garbage : Nat → Fin 256)
    (ckb : ckernel_builder) (n : Int) (h : ckb.m_capacity < n) (hv : ckb.valid) :
    (ckernel_builder_ensure_capacity_leaf abi (some garbage) ckb n).2.1.valid ∧
    (sizeof_m_static_data : Int) ≤ ckb.m_capacity := by
  obtain ⟨block, e, hb⟩ := ensure_capacity_leaf_growth abi garbage ckb n h
  obtain ⟨hlen, _, _⟩ := hb hv
  have hc : (sizeof_m_static_data : Int) ≤ ckb.m_capacity := by
    unfold ckernel_builder.valid at hv
    split at hv
    · rw [hv.1]
    · exact hv.1
    · exact absurd hv id
  refine ⟨?_, hc⟩
  rw [e]
  show (sizeof_m_static_data : Int) ≤ _ ∧ block.length = _
  refine ⟨?_, hlen⟩
  show (sizeof_m_static_data : Int) ≤
    (if n < (ckb.m_capacity * 3).tdiv 2 then (ckb.m_capacity * 3).tdiv 2 else n)
  split <;> omega

/-- C15: when `ensure_capacity_leaf` grows the buffer of a builder (on its inline storage or on
a heap block) from capacity `c` to `c'`, every byte at an offset below `c` is unchanged, so
that `get_at(offset)` denotes the same contents as before, and every byte at an offset in
`[c, c')` is zero; hence if all bytes from an offset `k` on were zero before the call, they are
zero on `[k, c')` after it. -/
theorem ensure_capacity_leaf_growth_bytes (abi : ckernel_prefix_abi) (garbage : Nat → Fin 256)
    (ckb : ckernel_builder) (n : Int) (hv : ckb.valid) (h : ckb.m_capacity < n) :
    ckb.m_capacity <
      (ckernel_builder_ensure_capacity_leaf abi (some garbage) ckb n).2.1.m_capacity ∧
    (∀ i : Nat, i < ckb.m_capacity.toNat →
      (ckernel_builder_ensure_capacity_leaf abi (some garbage) ckb n).2.1.bytes[i]?
        = ckb.bytes[i]?) ∧
    (∀ i : Nat, ckb.m_capacity.toNat ≤ i →
      i < (ckernel_builder_ensure_capacity_leaf abi (some garbage) ckb n).2.1.m_capacity.toNat →
      (ckernel_builder_ensure_capacity_leaf abi (some garbage) ckb n).2.1.bytes[i]? = some 0) ∧
    (∀ k : Nat,
      (∀ i : Nat, k ≤ i → i < ckb.m_capacity.toNat → ckb.bytes[i]? = some 0) →
      ∀ i : Nat, k ≤ i →
        i < (ckernel_builder_ensure_capacity_leaf abi (some garbage) ckb n).2.1.m_capacity.toNat →
        (ckernel_builder_ensure_capacity_leaf abi (some garbage) ckb n).2.1.bytes[i]?
          = some 0) := by
  obtain ⟨block, e, hb⟩ := ensure_capacity_leaf_growth abi garbage ckb n h
  obtain ⟨hlen, hlow, hhigh⟩ := hb hv
  rw [e]
  simp only [ckernel_builder.bytes]
  have hcap : ckb.m_capacity <
      (if n < (ckb.m_capacity * 3).tdiv 2 then (ckb.m_capacity * 3).tdiv 2 else n) := by
    split <;> omega
  refine ⟨hcap, hlow, ?_, ?_⟩
  · intro i hi hi'
    exact hhigh i hi (by rw [hlen]; exact hi')
  · intro k hk i hki hi'
    by_cases hic : i < ckb.m_capacity.toNat
    · rw [hlow i hic]
      exact hk i hki hic
    · exact hhigh i (not_lt.mp hic) (by rw [hlen]; exact hi')

/-- Witness of C15: the constructed builder asked for 200 bytes. -/
theorem ensure_capacity_leaf_growth_bytes_witness :
    ckernel_builder.construct.valid ∧ ckernel_builder.construct.m_capacity < 200 ∧
    (∀ i : Nat, i < ckernel_builder.construct.m_capacity.toNat →
      (ckernel_builder_ensure_capacity_leaf example_abi (some (fun _ => 7))
        ckernel_builder.construct 200).2.1.bytes[i]?
        = ckernel_builder.construct.bytes[i]?) :=
  ⟨⟨rfl, rfl⟩, by decide,
    (ensure_capacity_leaf_growth_bytes example_abi (fun _ => 7) ckernel_builder.construct 200
      ⟨rfl, rfl⟩ (by decide)).2.1⟩

theorem destroy_capacity (abi : ckernel_prefix_abi) (ckb : ckernel_builder) :
    (ckb.destroy abi).1.m_capacity = ckb.m_capacity := by
  unfold ckernel_builder.destroy
  split
  · rfl
  · split <;> rfl
  · split <;> rfl

theorem destroy_null (abi : ckernel_prefix_abi) (ckb : ckernel_builder)
    (h : ckb.m_data = .null) : ckb.destroy abi = (ckb, []) := by
  simp only [ckernel_builder.destroy, h]

theorem read_pointer_zero (bytes : List (Fin 256)) (offset : Nat)
    (h : ∀ i : Nat, i < 8 → bytes.getD (offset + i) 0 = 0) : read_pointer bytes offset = 0 := by
  have h0 := h 0 (by decide)
  have h1 := h 1 (by decide)
  have h2 := h 2 (by decide)
  have h3 := h 3 (by decide)
  have h4 := h 4 (by decide)
  have h5 := h 5 (by decide)
  have h6 := h 6 (by decide)
  have h7 := h 7 (by decide)
  simp only [Nat.add_zero] at h0
  simp only [List.getD_eq_getElem?_getD] at h0 h1 h2 h3 h4 h5 h6 h7
  simp [read_pointer, List.range, List.range.loop, h0, h1, h2, h3, h4, h5, h6, h7]

theorem read_pointer_congr (b1 b2 : List (Fin 256)) (offset : Nat)
    (h : ∀ i : Nat, i < 8 → b1[offset + i]? = b2[offset + i]?) :
    read_pointer b1 offset = read_pointer b2 offset := by
  have h0 := h 0 (by decide)
  have h1 := h 1 (by decide)
  have h2 := h 2 (by decide)
  have h3 := h 3 (by decide)
  have h4 := h 4 (by decide)
  have h5 := h 5 (by decide)
  have h6 := h 6 (by decide)
  have h7 := h 7 (by decide)
  simp only [Nat.add_zero] at h0
  simp [read_pointer, List.range, List.range.loop, List.getD_eq_getElem?_getD, h0, h1, h2, h3,
    h4, h5, h6, h7]

theorem destructor_construct (abi : ckernel_prefix_abi) :
    abi.destructor (List.replicate sizeof_m_static_data 0) 0 = 0 := by
  apply read_pointer_zero
  intro i _
  simp only [List.getD_eq_getElem?_getD, List.getElem?_replicate]
  split <;> rfl

theorem destroy_construct (abi : ckernel_prefix_abi) :
    ckernel_builder.construct.destroy abi = (ckernel_builder.construct, []) := by
  simp only [ckernel_builder.destroy, ckernel_builder.construct, destructor_construct,
    ne_eq, not_true_eq_false, if_false]

/-- The sum `n + sizeof(ckernel_prefix)` of `ensure_capacity`, computed in `size_t` and converted
to `intptr_t`, is the mathematical sum when that is an `intptr_t` value. -/
theorem to_intptr_t_sum (n : Int) (p : Nat) (h0 : -2 ^ 63 ≤ n + p) (h1 : n + p < 2 ^ 63) :
    to_intptr_t (to_size_t n + p) = n + p := by
  have hk0 : 0 ≤ n % 2 ^ 64 := Int.emod_nonneg n (by norm_num)
  have hk1 : n % 2 ^ 64 < 2 ^ 64 := Int.emod_lt_of_pos n (by norm_num)
  have hcast : ((to_size_t n + p : Nat) : Int) = n % 2 ^ 64 + p := by
    unfold to_size_t
    rw [Nat.cast_add, Int.toNat_of_nonneg hk0]
  have hmod : (((to_size_t n + p) % 2 ^ 64 : Nat) : Int) = (n + p) % 2 ^ 64 := by
    rw [Int.natCast_mod, hcast]
    push_cast
    rw [Int.emod_add_emod]
  unfold to_intptr_t
  split
  · rename_i hlt
    have hlt1 : (((to_size_t n + p) % 2 ^ 64 : Nat) : Int) < 2 ^ 63 := by exact_mod_cast hlt
    rw [hmod] at hlt1 ⊢
    norm_num at h0 h1 hlt1 ⊢
    omega
  · rename_i hge
    have hge1 : ¬ (((to_size_t n + p) % 2 ^ 64 : Nat) : Int) < 2 ^ 63 := by exact_mod_cast hge
    rw [hmod] at hge1 ⊢
    norm_num at h0 h1 hge1 ⊢
    omega

/-- The sum of `ensure_capacity` when it exceeds `INTPTR_MAX`: the conversion to `intptr_t` gives
a negative value. -/
theorem to_intptr_t_sum_wrapped (n : Int) (p : Nat) (h0 : 2 ^ 63 ≤ n + p) (h1 : n + p < 2 ^ 64) :
    to_intptr_t (to_size_t n + p) = n + p - 2 ^ 64 := by
  have hk0 : 0 ≤ n % 2 ^ 64 := Int.emod_nonneg n (by norm_num)
  have hcast : ((to_size_t n + p : Nat) : Int) = n % 2 ^ 64 + p := by
    unfold to_size_t
    rw [Nat.cast_add, Int.toNat_of_nonneg hk0]
  have hmod : (((to_size_t n + p) % 2 ^ 64 : Nat) : Int) = (n + p) % 2 ^ 64 := by
    rw [Int.natCast_mod, hcast]
    push_cast
    rw [Int.emod_add_emod]
  unfold to_intptr_t
  split
  · rename_i hlt
    have hlt1 : (((to_size_t n + p) % 2 ^ 64 : Nat) : Int) < 2 ^ 63 := by exact_mod_cast hlt
    rw [hmod] at hlt1 ⊢
    norm_num at h0 h1 hlt1 ⊢
    omega
  · rename_i hge
    have hge1 : ¬ (((to_size_t n + p) % 2 ^ 64 : Nat) : Int) < 2 ^ 63 := by exact_mod_cast hge
    rw [hmod] at hge1 ⊢
    norm_num at h0 h1 hge1 ⊢
    omega

/-- C16 (counterexample): the constructed builder asked for 129 bytes when the allocation
fails: -1 is returned and `bad_alloc` thrown, but the builder is left with a null data pointer,
which is not the state of a freshly constructed builder. -/
theorem ensure_capacity_leaf_failure_not_constructed :
    (ckernel_builder_ensure_capacity_leaf example_abi none ckernel_builder.construct 129).1
      = -1 ∧
    (ckernel_builder.construct.ensure_capacity_leaf example_abi none 129).1
      = some .bad_alloc ∧
    (ckernel_builder_ensure_capacity_leaf example_abi none
      ckernel_builder.construct 129).2.1.m_data = .null ∧
    (ckernel_builder.construct.ensure_capacity_leaf example_abi none 129).2.1.m_data = .null ∧
    (ckernel_builder_ensure_capacity_leaf example_abi none ckernel_builder.construct 129).2.1
      ≠ ckernel_builder.construct := by
  refine ⟨by decide, by decide, rfl, rfl, ?_⟩
  intro h
  have h1 : (ckernel_builder_ensure_capacity_leaf example_abi none
      ckernel_builder.construct 129).2.1.m_data = ckernel_builder.construct.m_data :=
    congrArg ckernel_builder.m_data h
  exact ckb_data.noConfusion h1

/-- C16 (amended): if the allocation inside `ensure_capacity_leaf` / `ensure_capacity` fails,
the error is surfaced (-1 from the C functions, `bad_alloc` from the members), the builder has
been destroyed (root destructor run, heap block freed) and is left with a null data pointer and
its capacity field unchanged; destroying it afterwards does nothing, and `reset()` puts it into
the state of a freshly constructed builder.  `ensure_capacity_leaf(n)` allocates when the
capacity is below `n`; `ensure_capacity(n)` allocates when the capacity is below the sum
`n + sizeof(ckernel_prefix)` as the code computes it, in `size_t` and converted to `intptr_t`,
which is the mathematical sum whenever that is an `intptr_t` value. -/
theorem ensure_capacity_leaf_failure_state (abi : ckernel_prefix_abi) (ckb : ckernel_builder)
    (n : Int) (h : ckb.m_capacity < n) :
    (ckernel_builder_ensure_capacity_leaf abi none ckb n).1 = -1 ∧
    (ckb.ensure_capacity_leaf abi none n).1 = some .bad_alloc ∧
    (ckb.ensure_capacity_leaf abi none n).2
      = (ckernel_builder_ensure_capacity_leaf abi none ckb n).2 ∧
    (ckernel_builder_ensure_capacity_leaf abi none ckb n).2.1.m_data = .null ∧
    (ckernel_builder_ensure_capacity_leaf abi none ckb n).2.1.m_capacity = ckb.m_capacity ∧
    (ckernel_builder_ensure_capacity_leaf abi none ckb n).2.2 = (ckb.destroy abi).2 ∧
    ((ckernel_builder_ensure_capacity_leaf abi none ckb n).2.1.destruct abi).2 = [] ∧
    (ckernel_builder_ensure_capacity_leaf abi none ckb n).2.1.reset abi
      = (ckernel_builder.construct, []) ∧
    (ckb.m_capacity < to_intptr_t (to_size_t n + abi.prefix_size) →
      (ckernel_builder_ensure_capacity abi none ckb n).1 = -1 ∧
      (ckb.ensure_capacity abi none n).1 = some .bad_alloc ∧
      (ckernel_builder_ensure_capacity abi none ckb n).2.1.m_data = .null) ∧
    (-2 ^ 63 ≤ n + abi.prefix_size → n + abi.prefix_size < 2 ^ 63 →
      ckb.m_capacity < n + abi.prefix_size →
      (ckernel_builder_ensure_capacity abi none ckb n).1 = -1 ∧
      (ckb.ensure_capacity abi none n).1 = some .bad_alloc ∧
      (ckernel_builder_ensure_capacity abi none ckb n).2.1.m_data = .null) := by
  have key : ∀ m : Int, ckb.m_capacity < m →
      (ckernel_builder_ensure_capacity_leaf abi none ckb m).1 = -1 ∧
      (ckb.ensure_capacity_leaf abi none m).1 = some .bad_alloc ∧
      (ckb.ensure_capacity_leaf abi none m).2
        = (ckernel_builder_ensure_capacity_leaf abi none ckb m).2 ∧
      (ckernel_builder_ensure_capacity_leaf abi none ckb m).2.1.m_data = .null := by
    intro m hm
    have e := ensure_capacity_leaf_failure abi ckb m hm
    unfold ckernel_builder.ensure_capacity_leaf
    rw [e]
    exact ⟨rfl, rfl, rfl, rfl⟩
  obtain ⟨k1, k2, k3, k4⟩ := key n h
  have e := ensure_capacity_leaf_failure abi ckb n h
  have hsum : ckb.m_capacity < to_intptr_t (to_size_t n + abi.prefix_size) →
      (ckernel_builder_ensure_capacity abi none ckb n).1 = -1 ∧
      (ckb.ensure_capacity abi none n).1 = some .bad_alloc ∧
      (ckernel_builder_ensure_capacity abi none ckb n).2.1.m_data = .null := by
    intro hm
    obtain ⟨m1, m2, _, m4⟩ := key (to_intptr_t (to_size_t n + abi.prefix_size)) hm
    exact ⟨m1, m2, m4⟩
  refine ⟨k1, k2, k3, k4, ?_, ?_, ?_, ?_, hsum, ?_⟩
  · rw [e]
    exact destroy_capacity abi ckb
  · rw [e]
  · unfold ckernel_builder.destruct
    rw [destroy_null abi _ k4]
  · unfold ckernel_builder.reset
    rw [destroy_null abi _ k4]
    rfl
  · intro h0 h1 hm
    apply hsum
    rw [to_intptr_t_sum n abi.prefix_size h0 h1]
    exact hm

/-- Witness of C16 (amended): the constructed builder asked for 129 bytes when the allocation
fails. -/
theorem ensure_capacity_leaf_failure_state_witness :
    ckernel_builder.construct.m_capacity < 129 ∧
    (ckernel_builder_ensure_capacity_leaf example_abi none ckernel_builder.construct 129).2.1.reset
        example_abi
      = (ckernel_builder.construct, []) ∧
    ckernel_builder.construct.m_capacity
      < to_intptr_t (to_size_t 129 + example_abi.prefix_size) ∧
    (ckernel_builder_ensure_capacity example_abi none ckernel_builder.construct 129).1 = -1 ∧
    (ckernel_builder.construct.ensure_capacity example_abi none 129).1 = some .bad_alloc ∧
    (ckernel_builder_ensure_capacity example_abi none
      ckernel_builder.construct 129).2.1.m_data = .null :=
  ⟨by decide,
    (ensure_capacity_leaf_failure_state example_abi ckernel_builder.construct 129
      (by decide)).2.2.2.2.2.2.2.1,
    by decide,
    (ensure_capacity_leaf_failure_state example_abi ckernel_builder.construct 129
      (by decide)).2.2.2.2.2.2.2.2.1 (by decide)⟩

/-- C17: `ensure_capacity(n)` hands the sum `n + sizeof(ckernel_prefix)`, computed in `size_t`
and converted to `intptr_t`, to `ensure_capacity_leaf`.  While `0 ≤ n` and the sum is at most
`INTPTR_MAX`, a successful call on a builder (on its inline storage or on a heap block) in which
every byte at an offset `>= n` below the capacity is zero leaves a capacity of at least
`n + sizeof(ckernel_prefix)` and every byte in `[n, n + sizeof(ckernel_prefix))` zero, so that
the prefix read at offset `n` has a null destructor.  When `n ≤ INTPTR_MAX` and the sum exceeds
`INTPTR_MAX`, the converted sum is negative: the call succeeds (0 from the C function, no
exception from the member) without allocating, whatever the allocator would do, and leaves the
builder as it was, so that its capacity is less than `n + sizeof(ckernel_prefix)` whenever it is
at most `INTPTR_MAX`. -/
theorem ensure_capacity_trailing_zero (abi : ckernel_prefix_abi)
    (alloc : Option (Nat → Fin 256)) (ckb : ckernel_builder) (n : Int) (hv : ckb.valid) :
    (0 ≤ n → n + abi.prefix_size < 2 ^ 63 →
      (∀ i : Nat, n.toNat ≤ i → i < ckb.m_capacity.toNat → ckb.bytes[i]? = some 0) →
      (ckb.ensure_capacity abi alloc n).1 = none →
      n + abi.prefix_size ≤ (ckb.ensure_capacity abi alloc n).2.1.m_capacity ∧
      (∀ i : Nat, n.toNat ≤ i → i < n.toNat + abi.prefix_size →
        (ckb.ensure_capacity abi alloc n).2.1.bytes[i]? = some 0) ∧
      (abi.destructor_offset + 8 ≤ abi.prefix_size →
        abi.destructor (ckb.ensure_capacity abi alloc n).2.1.bytes n.toNat = 0)) ∧
    (n < 2 ^ 63 → 2 ^ 63 ≤ n + abi.prefix_size → abi.prefix_size ≤ 2 ^ 63 →
      ckb.ensure_capacity abi alloc n = (none, ckb, []) ∧
      ckernel_builder_ensure_capacity abi alloc ckb n = (0, ckb, []) ∧
      (ckb.m_capacity < 2 ^ 63 →
        ¬ (n + abi.prefix_size ≤ (ckb.ensure_capacity abi alloc n).2.1.m_capacity))) := by
  have hc0 : (0 : Int) ≤ ckb.m_capacity := by
    unfold ckernel_builder.valid at hv
    split at hv
    · rw [hv.1]; decide
    · exact le_trans (by decide) hv.1
    · exact absurd hv id
  refine ⟨?_, ?_⟩
  · intro hn hsum hz hok
    have hs : to_intptr_t (to_size_t n + abi.prefix_size) = n + abi.prefix_size :=
      to_intptr_t_sum n abi.prefix_size (by omega) hsum
    have main : n + abi.prefix_size ≤ (ckb.ensure_capacity abi alloc n).2.1.m_capacity ∧
        (∀ i : Nat, n.toNat ≤ i → i < n.toNat + abi.prefix_size →
          (ckb.ensure_capacity abi alloc n).2.1.bytes[i]? = some 0) := by
      unfold ckernel_builder.ensure_capacity ckernel_builder.ensure_capacity_leaf at hok ⊢
      rw [hs] at hok ⊢
      by_cases h : n + abi.prefix_size ≤ ckb.m_capacity
      · have e := ensure_capacity_leaf_no_growth abi alloc ckb _ h
        rw [e]
        simp only [lt_self_iff_false, if_false]
        exact ⟨h, fun i hi hi' => hz i hi (by omega)⟩
      · have hlt : ckb.m_capacity < n + abi.prefix_size := not_le.mp h
        cases alloc with
        | none =>
          rw [ensure_capacity_leaf_failure abi ckb _ hlt] at hok
          simp at hok
        | some garbage =>
          obtain ⟨block, e, hb⟩ := ensure_capacity_leaf_growth abi garbage ckb _ hlt
          obtain ⟨hlen, hlow, hhigh⟩ := hb hv
          rw [e]
          simp only [lt_self_iff_false, if_false, ckernel_builder.bytes]
          have hN : n + abi.prefix_size ≤
              (if n + ↑abi.prefix_size < (ckb.m_capacity * 3).tdiv 2
                then (ckb.m_capacity * 3).tdiv 2 else n + ↑abi.prefix_size) := by
            split <;> omega
          refine ⟨hN, ?_⟩
          intro i hi hi'
          by_cases hic : i < ckb.m_capacity.toNat
          · rw [hlow i hic]
            exact hz i hi hic
          · exact hhigh i (not_lt.mp hic) (by rw [hlen]; omega)
    refine ⟨main.1, main.2, fun hoff => ?_⟩
    apply read_pointer_zero
    intro i hi
    have := main.2 (n.toNat + abi.destructor_offset + i) (by omega) (by omega)
    rw [List.getD_eq_getElem?_getD, this]
    rfl
  · intro hn hwrap hp
    have hs : to_intptr_t (to_size_t n + abi.prefix_size) = n + abi.prefix_size - 2 ^ 64 :=
      to_intptr_t_sum_wrapped n abi.prefix_size hwrap (by omega)
    have hle : to_intptr_t (to_size_t n + abi.prefix_size) ≤ ckb.m_capacity := by
      rw [hs]
      omega
    have e := ensure_capacity_leaf_no_growth abi alloc ckb _ hle
    have e1 : ckb.ensure_capacity abi alloc n = (none, ckb, []) := by
      unfold ckernel_builder.ensure_capacity ckernel_builder.ensure_capacity_leaf
      rw [e]
      simp only [lt_self_iff_false, if_false]
    refine ⟨e1, e, ?_⟩
    intro hcap
    rw [e1]
    show ¬ (n + abi.prefix_size ≤ ckb.m_capacity)
    omega

/-- Witness of C17: the constructed builder, `n = 120` with the allocation succeeding, and
`n = INTPTR_MAX`: with a prefix of 16 bytes the sum is `2 ^ 63 + 15`, which converts to
`-2 ^ 63 + 15`; the call succeeds although no memory can be allocated, and the capacity is still
128. -/
theorem ensure_capacity_trailing_zero_witness :
    ckernel_builder.construct.valid ∧
    (ckernel_builder.construct.ensure_capacity example_abi (some (fun _ => 7)) 120).1 = none ∧
    (120 : Int) + example_abi.prefix_size ≤
      (ckernel_builder.construct.ensure_capacity example_abi (some (fun _ => 7))
        120).2.1.m_capacity ∧
    to_intptr_t (to_size_t (2 ^ 63 - 1) + example_abi.prefix_size) = -2 ^ 63 + 15 ∧
    ckernel_builder.construct.ensure_capacity example_abi none (2 ^ 63 - 1)
      = (none, ckernel_builder.construct, []) ∧
    ckernel_builder_ensure_capacity example_abi none ckernel_builder.construct (2 ^ 63 - 1)
      = (0, ckernel_builder.construct, []) ∧
    ckernel_builder.construct.m_capacity = 128 ∧
    ¬ ((2 ^ 63 - 1 : Int) + example_abi.prefix_size
      ≤ (ckernel_builder.construct.ensure_capacity example_abi none
        (2 ^ 63 - 1)).2.1.m_capacity) :=
  ⟨⟨rfl, rfl⟩, by decide,
    ((ensure_capacity_trailing_zero example_abi (some (fun _ => 7)) ckernel_builder.construct
      120 ⟨rfl, rfl⟩).1 (by decide) (by decide)
      (fun i _ hi => by
        have hi' : i < sizeof_m_static_data := hi
        simp [ckernel_builder.bytes, ckernel_builder.construct, List.getElem?_replicate, hi'])
      (by decide)).1,
    by decide,
    ((ensure_capacity_trailing_zero example_abi none ckernel_builder.construct (2 ^ 63 - 1)
      ⟨rfl, rfl⟩).2 (by decide) (by decide) (by decide)).1,
    ((ensure_capacity_trailing_zero example_abi none ckernel_builder.construct (2 ^ 63 - 1)
      ⟨rfl, rfl⟩).2 (by decide) (by decide) (by decide)).2.1,
    rfl,
    ((ensure_capacity_trailing_zero example_abi none ckernel_builder.construct (2 ^ 63 - 1)
      ⟨rfl, rfl⟩).2 (by decide) (by decide) (by decide)).2.2 (by decide)⟩

/-- C18: after `reset()`, whatever the builder's prior state, the builder is in exactly the
state the constructor produces: the data pointer is the inline buffer, the capacity is the
size of the sixteen words of the inline buffer, and all inline bytes are zero; a second
`reset()` leaves this state as it is and calls no destructor and no `free`. -/
theorem reset_constructed (abi : ckernel_prefix_abi) (ckb : ckernel_builder) :
    (ckb.reset abi).1 = ckernel_builder.construct ∧
    (ckb.reset abi).1.m_data = .static_data ∧
    (ckb.reset abi).1.m_capacity = 16 * 8 ∧
    (ckb.reset abi).1.m_static_data = List.replicate (16 * 8) 0 ∧
    (ckb.reset abi).1.reset abi = (ckernel_builder.construct, []) ∧
    ((ckb.reset abi).1.reset abi).1 = (ckb.reset abi).1 := by
  have h1 : (ckb.reset abi).1 = ckernel_builder.construct := rfl
  have h2 : ckernel_builder.construct.reset abi = (ckernel_builder.construct, []) := by
    unfold ckernel_builder.reset
    rw [destroy_construct]
    rfl
  refine ⟨h1, rfl, rfl, rfl, ?_, ?_⟩
  · rw [h1, h2]
  · rw [h1, h2]

theorem destroy_events_valid (abi : ckernel_prefix_abi) (ckb : ckernel_builder) (d : Nat)
    (hv : ckb.valid) (hd : abi.destructor ckb.bytes 0 = d) (hd0 : d ≠ 0) :
    (ckb.destroy abi).2 = [.destructor_call d] ∨
    (ckb.destroy abi).2 = [.destructor_call d, .free] := by
  cases hm : ckb.m_data with
  | static_data =>
    left
    simp only [ckernel_builder.bytes, hm] at hd
    simp only [ckernel_builder.destroy, hm, hd, ne_eq, hd0, not_false_eq_true, if_true]
  | heap block =>
    right
    simp only [ckernel_builder.bytes, hm] at hd
    simp only [ckernel_builder.destroy, hm, hd, ne_eq, hd0, not_false_eq_true, if_true]
  | null =>
    simp only [ckernel_builder.valid, hm] at hv

theorem ensure_capacity_step (abi : ckernel_prefix_abi) (alloc : Option (Nat → Fin 256))
    (ckb : ckernel_builder) (n : Int) (d : Nat) (hv : ckb.valid)
    (hoff : abi.destructor_offset + 8 ≤ sizeof_m_static_data)
    (hd : abi.destructor ckb.bytes 0 = d) :
    (∃ ckb1, ckb.ensure_capacity abi alloc n = (none, ckb1, []) ∧ ckb1.valid ∧
      abi.destructor ckb1.bytes 0 = d) ∨
    (∃ ckb1, ckb.ensure_capacity abi alloc n = (some .bad_alloc, ckb1, (ckb.destroy abi).2) ∧
      ckb1.m_data = .null) := by
  unfold ckernel_builder.ensure_capacity ckernel_builder.ensure_capacity_leaf
  by_cases h : to_intptr_t (to_size_t n + abi.prefix_size) ≤ ckb.m_capacity
  · left
    rw [ensure_capacity_leaf_no_growth abi alloc ckb _ h]
    exact ⟨ckb, by simp, hv, hd⟩
  · have hlt : ckb.m_capacity < to_intptr_t (to_size_t n + abi.prefix_size) := not_le.mp h
    cases alloc with
    | none =>
      right
      rw [ensure_capacity_leaf_failure abi ckb _ hlt]
      refine ⟨{ (ckb.destroy abi).1 with m_data := .null }, ?_, rfl⟩
      simp
    | some garbage =>
      left
      obtain ⟨hvalid, hc⟩ := ensure_capacity_leaf_growth_valid abi garbage ckb _ hlt hv
      obtain ⟨block, e, hb⟩ := ensure_capacity_leaf_growth abi garbage ckb _ hlt
      obtain ⟨_, hlow, _⟩ := hb hv
      rw [e] at hvalid
      rw [e]
      refine ⟨_, by simp, hvalid, ?_⟩
      rw [← hd]
      simp only [ckernel_prefix_abi.destructor, ckernel_builder.bytes]
      apply read_pointer_congr
      intro i hi
      apply hlow
      have : (sizeof_m_static_data : Int).toNat ≤ ckb.m_capacity.toNat :=
        Int.toNat_le_toNat hc
      rw [Int.toNat_ofNat] at this
      omega

theorem ensure_capacity_calls_cases (abi : ckernel_prefix_abi) (d : Nat)
    (hoff : abi.destructor_offset + 8 ≤ sizeof_m_static_data) :
    ∀ (calls : List (Option (Nat → Fin 256) × Int)) (ckb : ckernel_builder), ckb.valid →
      abi.destructor ckb.bytes 0 = d → d ≠ 0 →
      ((ensure_capacity_calls abi calls ckb).1 = false ∧
        (ensure_capacity_calls abi calls ckb).2.2 = [] ∧
        (ensure_capacity_calls abi calls ckb).2.1.valid ∧
        abi.destructor (ensure_capacity_calls abi calls ckb).2.1.bytes 0 = d) ∨
      ((ensure_capacity_calls abi calls ckb).1 = true ∧
        ((ensure_capacity_calls abi calls ckb).2.2 = [.destructor_call d] ∨
          (ensure_capacity_calls abi calls ckb).2.2 = [.destructor_call d, .free]) ∧
        (ensure_capacity_calls abi calls ckb).2.1.m_data = .null) := by
  intro calls
  induction calls with
  | nil =>
    intro ckb hv hd _
    left
    exact ⟨rfl, rfl, hv, hd⟩
  | cons call calls ih =>
    intro ckb hv hd hd0
    obtain ⟨alloc, n⟩ := call
    rcases ensure_capacity_step abi alloc ckb n d hv hoff hd with
      ⟨ckb1, e, hv1, hd1⟩ | ⟨ckb1, e, hnull⟩
    · simp only [ensure_capacity_calls, e, List.nil_append]
      exact ih ckb1 hv1 hd1 hd0
    · right
      simp only [ensure_capacity_calls, e]
      exact ⟨trivial, destroy_events_valid abi ckb d hv hd hd0, hnull⟩

/-- C19: over the life of a builder (on its inline storage or on a heap block) whose root frame
has the non-null destructor `d`, that destructor is called exactly once and `free` at most once:
for any run of `ensure_capacity` calls followed by the destruction of the builder, or by
`reset()` and then the destruction.  If no call fails, nothing is destroyed during the run and
`d` is called at the destruction or `reset()`; if a call fails, `d` is called at the failure
and the later destruction calls no destructor and frees nothing. -/
theorem root_destructor_called_once (abi : ckernel_prefix_abi)
    (calls : List (Option (Nat → Fin 256) × Int)) (ckb : ckernel_builder) (d : Nat)
    (hv : ckb.valid) (hoff : abi.destructor_offset + 8 ≤ sizeof_m_static_data)
    (hd : abi.destructor ckb.bytes 0 = d) (hd0 : d ≠ 0) :
    destructor_calls (events_until_destruct abi calls ckb) = [d] ∧
    frees (events_until_destruct abi calls ckb) ≤ 1 ∧
    destructor_calls (events_until_reset_destruct abi calls ckb) = [d] ∧
    frees (events_until_reset_destruct abi calls ckb) ≤ 1 ∧
    ((ensure_capacity_calls abi calls ckb).1 = false →
      (ensure_capacity_calls abi calls ckb).2.2 = [] ∧
      destructor_calls ((ensure_capacity_calls abi calls ckb).2.1.destruct abi).2 = [d] ∧
      destructor_calls ((ensure_capacity_calls abi calls ckb).2.1.reset abi).2 = [d]) ∧
    ((ensure_capacity_calls abi calls ckb).1 = true →
      destructor_calls (ensure_capacity_calls abi calls ckb).2.2 = [d] ∧
      ((ensure_capacity_calls abi calls ckb).2.1.destruct abi).2 = []) := by
  have hreset : ∀ b : ckernel_builder, ((b.reset abi).1.destruct abi).2 = [] := by
    intro b
    show (ckernel_builder.construct.destroy abi).2 = []
    rw [destroy_construct]
  have hresetev : ∀ b : ckernel_builder, (b.reset abi).2 = (b.destruct abi).2 := fun _ => rfl
  simp only [events_until_destruct, events_until_reset_destruct, hreset, hresetev,
    List.append_nil]
  rcases ensure_capacity_calls_cases abi d hoff calls ckb hv hd hd0 with
    ⟨hf, hev, hv1, hd1⟩ | ⟨hf, hev, hnull⟩
  · have hdes := destroy_events_valid abi _ d hv1 hd1 hd0
    simp only [ckernel_builder.destruct, hf, hev, List.nil_append]
    rcases hdes with h | h <;> simp [h, destructor_calls, frees]
  · have hdes := destroy_null abi _ hnull
    simp only [ckernel_builder.destruct, hf, hdes, List.append_nil]
    rcases hev with h | h <;> simp [h, destructor_calls, frees]

/-- Witness of C19: the builder with the root destructor `0x1234`, grown once with success and
then asked for more when the allocation fails. -/
theorem root_destructor_called_once_witness :
    example_builder.valid ∧ example_abi.destructor_offset + 8 ≤ sizeof_m_static_data ∧
    example_abi.destructor example_builder.bytes 0 = 0x1234 ∧ (0x1234 : Nat) ≠ 0 ∧
    destructor_calls (events_until_destruct example_abi
      [(some (fun _ => 7), 200), (none, 1000)] example_builder) = [0x1234] :=
  ⟨⟨rfl, by simp [example_builder]⟩, by decide, by rfl, by decide,
    (root_destructor_called_once example_abi [(some (fun _ => 7), 200), (none, 1000)]
      example_builder 0x1234 ⟨rfl, by simp [example_builder]⟩ (by decide) (by rfl)
      (by decide)).1⟩

/-! ## Destruction of a reduction kernel -/

theorem kernel_tree_frames_ge (sizes : frame_sizes) :
    ∀ (tree : kernel_tree) (offset frame : Nat), frame ∈ tree.frames sizes offset →
      offset ≤ frame := by
  intro tree
  induction tree with
  | outer id child ih =>
    intro offset frame h
    simp only [kernel_tree.frames, List.mem_cons] at h
    rcases h with h | h
    · omega
    · have := ih _ _ h
      simp only [ kernel_prefix.get_child] at this
      omega
  | inner id init_offset =>
    intro offset frame h
    simp only [kernel_tree.frames, List.mem_cons, List.mem_singleton, List.not_mem_nil,
      or_false, kernel_prefix.get_child] at h
    omega

/-- C20: for a fully built reduction kernel in the buffer (every inner frame's init offset
recorded and pointing past the frame itself), destroying the root frame calls the destructor of
every frame of the kernel exactly once: the frames destroyed are without repetition and are
exactly the frames of the kernel, every outer frame destroying its single child and the inner
frame its accumulation child and its init child, which are distinct frames.  Any fuel above the
number of frames on the longest path suffices. -/
theorem kernel_destroy_each_frame_once (sizes : frame_sizes)
    (buffer : Nat → Option kernel_frame) (houter : ∀ id, 0 < sizes.outer id)
    (hinner : ∀ id, 0 < sizes.inner id) :
    ∀ (tree : kernel_tree) (offset fuel : Nat), tree.built sizes buffer offset →
      tree.depth + 2 ≤ fuel →
      ∃ events, destroy_frame sizes buffer fuel offset = some events ∧
        events.Nodup ∧ (∀ frame, frame ∈ events ↔ frame ∈ tree.frames sizes offset) ∧
        events.length = tree.depth + 3 := by
  intro tree
  induction tree with
  | outer id child ih =>
    intro offset fuel hbuilt hfuel
    obtain ⟨hroot, hchild⟩ := hbuilt
    obtain ⟨f, rfl⟩ : ∃ f, fuel = f + 1 := ⟨fuel - 1, by omega⟩
    simp only [kernel_tree.depth] at hfuel
    obtain ⟨events, he, hnodup, hmem, hlen⟩ := ih _ f hchild (by omega)
    refine ⟨offset :: events, ?_, ?_, ?_, ?_⟩
    · simp only [destroy_frame, Option.map, kernel_prefix.destroy] at he
      simp only [destroy_frame, hroot, Option.map, kernel_prefix.destroy,
        reduction_kernel.destruct]
      rw [he]
    · refine List.nodup_cons.mpr ⟨fun hin => ?_, hnodup⟩
      have := kernel_tree_frames_ge sizes child _ _ ((hmem offset).mp hin)
      have hpos := houter id
      simp only [ kernel_prefix.get_child, aligned_size] at this
      omega
    · intro frame
      simp only [kernel_tree.frames, List.mem_cons, hmem]
    · simp only [List.length_cons, hlen, kernel_tree.depth]
  | inner id init_offset =>
    intro offset fuel hbuilt hfuel
    obtain ⟨hroot, hacc, hinit, hpast⟩ := hbuilt
    obtain ⟨f, rfl⟩ : ∃ f, fuel = f + 2 := ⟨fuel - 2, by omega⟩
    have hpos := hinner id
    have hne1 : offset ≠ kernel_prefix.get_child offset (sizes.inner id) := by
      simp only [ kernel_prefix.get_child, aligned_size]
      omega
    have hne2 : offset ≠ kernel_prefix.get_child offset (aligned_size init_offset) := by
      simp only [ kernel_prefix.get_child, aligned_size] at hpast ⊢
      omega
    have hne3 : kernel_prefix.get_child offset (sizes.inner id)
        ≠ kernel_prefix.get_child offset (aligned_size init_offset) := by
      simp only [ kernel_prefix.get_child, aligned_size] at hpast ⊢
      omega
    cases id with
    | fixed_dim_false_true =>
      refine ⟨[offset, kernel_prefix.get_child offset (sizes.inner .fixed_dim_false_true),
        kernel_prefix.get_child offset (aligned_size init_offset)], ?_, ?_, ?_, rfl⟩
      · simp only [destroy_frame, hroot, hacc, hinit, Option.map, kernel_prefix.destroy,
          reduction_kernel.destruct, List.cons_append, List.nil_append]
      · simp [hne1, hne2, hne3]
      · intro frame
        simp only [kernel_tree.frames]
    | var_dim_false_true =>
      refine ⟨[offset, kernel_prefix.get_child offset (aligned_size init_offset),
        kernel_prefix.get_child offset (sizes.inner .var_dim_false_true)], ?_, ?_, ?_, rfl⟩
      · simp only [destroy_frame, hroot, hacc, hinit, Option.map, kernel_prefix.destroy,
          reduction_kernel.destruct, List.cons_append, List.nil_append]
      · simp [hne1, hne2, hne3, Ne.symm hne3]
      · intro frame
        simp only [kernel_tree.frames, List.mem_cons, List.mem_singleton, List.not_mem_nil,
          or_false]
        tauto
    | fixed_dim_true_true =>
      refine ⟨[offset, kernel_prefix.get_child offset (sizes.inner .fixed_dim_true_true),
        kernel_prefix.get_child offset (aligned_size init_offset)], ?_, ?_, ?_, rfl⟩
      · simp only [destroy_frame, hroot, hacc, hinit, Option.map, kernel_prefix.destroy,
          reduction_kernel.destruct, List.cons_append, List.nil_append]
      · simp [hne1, hne2, hne3]
      · intro frame
        simp only [kernel_tree.frames]

/-- Witness of C20: the example buffer, which holds a reduce-outer frame over a fixed-dim
reduce-inner frame with its two children. -/
theorem kernel_destroy_each_frame_once_witness :
    (∀ id, 0 < example_frame_sizes.outer id) ∧ (∀ id, 0 < example_frame_sizes.inner id) ∧
    (kernel_tree.outer .fixed_dim_false_false (.inner .fixed_dim_false_true 96)).built
      example_frame_sizes example_kernel_buffer 0 ∧
    (kernel_tree.outer .fixed_dim_false_false (.inner .fixed_dim_false_true 96)).depth + 2 ≤ 3 ∧
    destroy_frame example_frame_sizes example_kernel_buffer 3 0 = some [0, 40, 104, 136] ∧
    ∃ events, destroy_frame example_frame_sizes example_kernel_buffer 3 0 = some events ∧
      events.Nodup ∧
      (∀ frame, frame ∈ events ↔
        frame ∈ (kernel_tree.outer .fixed_dim_false_false
          (.inner .fixed_dim_false_true 96)).frames example_frame_sizes 0) ∧
      events.length =
        (kernel_tree.outer .fixed_dim_false_false (.inner .fixed_dim_false_true 96)).depth + 3 :=
  ⟨fun _ => (by decide : 0 < 40), fun _ => (by decide : 0 < 64),
    ⟨rfl, rfl, rfl, rfl, by decide⟩, by decide, by decide,
    kernel_destroy_each_frame_once example_frame_sizes example_kernel_buffer
      (fun _ => (by decide : 0 < 40)) (fun _ => (by decide : 0 < 64))
      (.outer .fixed_dim_false_false (.inner .fixed_dim_false_true 96)) 0 3
      ⟨rfl, rfl, rfl, rfl, by decide⟩ (by decide)⟩

/-! ## The traversal record along an `instantiate` walk -/

/-- C21 (counterexample): a record with a null `axes` pointer.  The predicate of the
specification holds of it, and `is_broadcast()` returns false. -/
theorem is_broadcast_null_axes :
    ({ identity := none, ndim := 2, naxis := 2, axes := none, keepdims := false,
       stored_ndim := 2 } : reduction_data_type Int).is_broadcast_here ∧
    ({ identity := none, ndim := 2, naxis := 2, axes := none, keepdims := false,
       stored_ndim := 2 } : reduction_data_type Int).is_broadcast = some false :=
  ⟨Or.inl rfl, rfl⟩

/-- C21 (amended): for every record, `is_broadcast()` is true exactly when `axes` is not null
and `naxis == 0` or `stored_ndim - axes[0] != ndim`.  When the array `axes` lists the `naxis`
remaining reduction axes in strictly ascending order within `[stored_ndim - ndim, stored_ndim)`,
this says that the current axis `stored_ndim - ndim` is not a reduction axis. -/
theorem is_broadcast_iff {α : Type} (data : reduction_data_type α) :
    (data.is_broadcast = some true ↔
      ∃ axes, data.axes = some axes ∧
        (data.naxis = 0 ∨
          ∃ axis rest, axes = axis :: rest ∧ data.stored_ndim - axis ≠ data.ndim)) ∧
    (∀ axes, data.axes = some axes → data.axes_ascending →
      data.is_broadcast = some (decide (data.stored_ndim - data.ndim ∉ axes))) := by
  constructor
  · unfold reduction_data_type.is_broadcast
    cases h : data.axes with
    | none => simp
    | some axes =>
      by_cases h0 : data.naxis = 0
      · simp [h0]
      · cases axes with
        | nil => simp [h0]
        | cons axis rest => simp [h0]
  · intro axes h hasc
    obtain ⟨hlen, hpair, hrange⟩ := hasc axes h
    unfold reduction_data_type.is_broadcast
    rw [h]
    by_cases h0 : data.naxis = 0
    · have : axes = [] := by
        apply List.eq_nil_of_length_eq_zero
        omega
      subst this
      simp [h0]
    · cases axes with
      | nil =>
        simp only [List.length_nil, Nat.cast_zero] at hlen
        exact absurd hlen.symm h0
      | cons axis rest =>
        simp only [h0, if_false]
        congr 1
        rw [decide_eq_decide]
        rw [List.pairwise_cons] at hpair
        constructor
        · intro hne hmem
          rcases List.mem_cons.mp hmem with heq | hin
          · omega
          · have h1 := hpair.1 _ hin
            have h2 := (hrange axis (List.mem_cons_self _ _)).1
            omega
        · intro hn heq
          apply hn
          have : data.stored_ndim - data.ndim = axis := by omega
          rw [this]
          exact List.mem_cons_self _ _

/-- Witness of C21: the record of a reduction over the axes 0 and 2 of a three-dimensional
array, at its first step. -/
theorem is_broadcast_iff_witness :
    ({ identity := none, ndim := 3, naxis := 2, axes := some [0, 2], keepdims := false,
       stored_ndim := 3 } : reduction_data_type Int).axes_ascending ∧
    ({ identity := none, ndim := 3, naxis := 2, axes := some [0, 2], keepdims := false,
       stored_ndim := 3 } : reduction_data_type Int).is_broadcast
      = some (decide ((3 : Int) - 3 ∉ [(0 : Int), 2])) :=
  ⟨fun axes h => by
      simp only [Option.some.injEq] at h
      subst h
      refine ⟨rfl, by decide, by decide⟩,
    (is_broadcast_iff _).2 [0, 2] rfl (fun axes h => by
      simp only [Option.some.injEq] at h
      subst h
      refine ⟨rfl, by decide, by decide⟩)⟩
theorem ascending_length_le : ∀ (l : List Int) (a b : Int), l.Pairwise (fun x y => x < y) →
    (∀ x ∈ l, a ≤ x ∧ x < b) → l = [] ∨ (l.length : Int) ≤ b - a := by
  intro l
  induction l with
  | nil => intro a b _ _; exact Or.inl rfl
  | cons x rest ih =>
    intro a b hp hr
    right
    rw [List.pairwise_cons] at hp
    have hx := hr x (List.mem_cons_self _ _)
    rcases ih (x + 1) b hp.2 (fun y hy =>
      ⟨by have := hp.1 y hy; omega, (hr y (List.mem_cons_of_mem _ hy)).2⟩) with h | h
    · subst h
      simp only [List.length_singleton, Nat.cast_one]
      omega
    · simp only [List.length_cons, Nat.cast_add, Nat.cast_one]
      omega

/-- The record that a reduce frame for a fixed dimension hands to its child. -/
theorem reduce_step_invariant {α : Type} (data : reduction_data_type α)
    (hinv : data.invariant) (hndim : 1 ≤ data.ndim) (hasc : data.axes_ascending)
    (hnull : data.null_axes_reduce_all) (hb : data.is_broadcast = some false) :
    ({ data with ndim := data.ndim - 1, naxis := data.naxis - 1,
                 axes := data.axes.map List.tail } : reduction_data_type α).invariant ∧
    ({ data with ndim := data.ndim - 1, naxis := data.naxis - 1,
                 axes := data.axes.map List.tail } : reduction_data_type α).axes_ascending ∧
    ({ data with ndim := data.ndim - 1, naxis := data.naxis - 1,
                 axes := data.axes.map List.tail } :
      reduction_data_type α).null_axes_reduce_all := by
  obtain ⟨h0, h1, h2⟩ := hinv
  unfold reduction_data_type.is_broadcast at hb
  cases h : data.axes with
  | none =>
    have hn := hnull h
    refine ⟨⟨?_, ?_, ?_⟩, ?_, ?_⟩
    · show 0 ≤ data.naxis - 1
      omega
    · show data.naxis - 1 ≤ data.ndim - 1
      omega
    · show data.ndim - 1 ≤ data.stored_ndim
      omega
    · intro axes ha
      simp [h] at ha
    · intro _
      show data.naxis - 1 = data.ndim - 1
      omega
  | some axes =>
    rw [h] at hb
    obtain ⟨hlen, hpair, hrange⟩ := hasc axes h
    by_cases hz : data.naxis = 0
    · simp [hz] at hb
    · cases axes with
      | nil => simp [hz] at hb
      | cons axis rest =>
        simp only [hz, if_false, Option.some.injEq, decide_eq_false_iff_not, ne_eq,
          not_not] at hb
        simp only [List.length_cons, Nat.cast_add, Nat.cast_one] at hlen
        rw [List.pairwise_cons] at hpair
        refine ⟨⟨?_, ?_, ?_⟩, ?_, ?_⟩
        · show 0 ≤ data.naxis - 1
          omega
        · show data.naxis - 1 ≤ data.ndim - 1
          omega
        · show data.ndim - 1 ≤ data.stored_ndim
          omega
        · intro axes1 ha
          simp only [h, Option.map_some', List.tail_cons, Option.some.injEq] at ha
          subst ha
          refine ⟨?_, hpair.2, fun x hx => ⟨?_, (hrange x (List.mem_cons_of_mem _ hx)).2⟩⟩
          · show (rest.length : Int) = data.naxis - 1
            omega
          · show data.stored_ndim - (data.ndim - 1) ≤ x
            have := hpair.1 x hx
            omega
        · intro ha
          simp [h] at ha

/-- The record that a broadcast frame hands to its child. -/
theorem broadcast_step_invariant {α : Type} (data : reduction_data_type α)
    (hinv : data.invariant) (hndim : 1 ≤ data.ndim) (hasc : data.axes_ascending)
    (hb : data.is_broadcast = some true) :
    ({ data with ndim := data.ndim - 1 } : reduction_data_type α).invariant ∧
    ({ data with ndim := data.ndim - 1 } : reduction_data_type α).axes_ascending ∧
    ({ data with ndim := data.ndim - 1 } : reduction_data_type α).null_axes_reduce_all := by
  obtain ⟨h0, h1, h2⟩ := hinv
  unfold reduction_data_type.is_broadcast at hb
  cases h : data.axes with
  | none => simp [h] at hb
  | some axes =>
    rw [h] at hb
    obtain ⟨hlen, hpair, hrange⟩ := hasc axes h
    have hshift : ∀ x ∈ axes, data.stored_ndim - (data.ndim - 1) ≤ x := by
      by_cases hz : data.naxis = 0
      · have : axes = [] := by
          apply List.eq_nil_of_length_eq_zero
          omega
        subst this
        intro x hx
        simp at hx
      · cases axes with
        | nil => simp [hz] at hb
        | cons axis rest =>
          simp only [hz, if_false, Option.some.injEq, decide_eq_true_eq, ne_eq] at hb
          rw [List.pairwise_cons] at hpair
          have ha := (hrange axis (List.mem_cons_self _ _)).1
          intro x hx
          rcases List.mem_cons.mp hx with heq | hin
          · subst heq
            omega
          · have := hpair.1 x hin
            omega
    have hcount := ascending_length_le axes (data.stored_ndim - (data.ndim - 1))
      data.stored_ndim hpair (fun x hx => ⟨hshift x hx, (hrange x hx).2⟩)
    refine ⟨⟨h0, ?_, ?_⟩, ?_, ?_⟩
    · show data.naxis ≤ data.ndim - 1
      rcases hcount with hnil | hle
      · subst hnil
        simp only [List.length_nil, Nat.cast_zero] at hlen
        omega
      · omega
    · show data.ndim - 1 ≤ data.stored_ndim
      omega
    · intro axes1 ha
      have ha : some axes = some axes1 := ha
      simp only [Option.some.injEq] at ha
      subst ha
      exact ⟨hlen, hpair, fun x hx => ⟨hshift x hx, (hrange x hx).2⟩⟩
    · intro ha
      have ha : some axes = none := ha
      simp at ha

/-- The record that the var_dim reduce frame hands to its child. -/
theorem var_dim_step_invariant {α : Type} (data : reduction_data_type α)
    (hinv : data.invariant) (hasc : data.axes_ascending)
    (hnull : data.null_axes_reduce_all) (hndim : 1 ≤ data.ndim)
    (hb : data.is_broadcast = some false) :
    ({ data with ndim := data.ndim - 1, naxis := data.naxis - 1 } :
      reduction_data_type α).invariant := by
  have := (reduce_step_invariant data hinv hndim hasc hnull hb).1
  exact this
/-- C23 (counterexample): a record with `ndim = 1`, `naxis = 0` and a null `axes` pointer
satisfies `0 ≤ naxis ≤ ndim ≤ stored_ndim` and the condition on `axes`, and `is_broadcast()` is
false for it, so that a reduce frame is instantiated; the reduce-inner `instantiate` hands its
child a record with `naxis = -1`. -/
theorem instantiate_null_axes_breaks_invariant :
    ({ identity := some 0, ndim := 1, naxis := 0, axes := none, keepdims := false,
       stored_ndim := 1 } : reduction_data_type Int).invariant ∧
    ({ identity := some 0, ndim := 1, naxis := 0, axes := none, keepdims := false,
       stored_ndim := 1 } : reduction_data_type Int).axes_ascending ∧
    ({ identity := some 0, ndim := 1, naxis := 0, axes := none, keepdims := false,
       stored_ndim := 1 } : reduction_data_type Int).is_broadcast = some false ∧
    (reduction_kernel_fixed_dim_false_true.instantiate
        (fun data _ _ _ =>
          if data.naxis = -1 then .error "the child is handed naxis = -1"
          else .ok (identity_init_single (0 : Int), accumulate_strided (fun a b => a + b)))
        { identity := some 0, ndim := 1, naxis := 0, axes := none, keepdims := false,
          stored_ndim := 1 }
        .scalar (.fixed_dim 3 1 .scalar) .kernel_request_single).toOption.isNone = true := by
  refine ⟨⟨by decide, by decide, by decide⟩, ?_, rfl, rfl⟩
  intro axes h
  simp at h

/-- C23 (amended): every `instantiate` step of a reduction frame preserves the invariant
`0 ≤ naxis ≤ ndim ≤ stored_ndim`.  Let the record satisfy it with `ndim ≥ 1`, let `axes` list
the `naxis` remaining reduction axes in strictly ascending order within
`[stored_ndim - ndim, stored_ndim)` when it is not null, and let `naxis = ndim` when it is null
(every axis is reduced).  Then a reduce frame instantiated when `is_broadcast()` is false and a
broadcast frame instantiated when it is true call `self->instantiate` only with a record that
satisfies the invariant: the result of `instantiate` is the same for two functions `self` that
agree on the records satisfying it.  For the fixed-dim frames the record handed on satisfies
the conditions on `axes` as well. -/
theorem instantiate_preserves_invariant {α : Type} (data : reduction_data_type α)
    (hinv : data.invariant) (hndim : 1 ≤ data.ndim) (hasc : data.axes_ascending)
    (hnull : data.null_axes_reduce_all) (dst_tp src_tp : ndt_type) (kernreq : kernel_request_t) :
    (data.is_broadcast = some false →
      (∀ self self1,
        agree_where (fun d => d.invariant ∧ d.axes_ascending ∧ d.null_axes_reduce_all)
          self self1 →
        reduction_kernel_fixed_dim_false_false.instantiate self data dst_tp src_tp kernreq
          = reduction_kernel_fixed_dim_false_false.instantiate self1 data dst_tp src_tp
              kernreq) ∧
      (∀ self self1,
        agree_where (fun d => d.invariant ∧ d.axes_ascending ∧ d.null_axes_reduce_all)
          self self1 →
        reduction_kernel_fixed_dim_false_true.instantiate self data dst_tp src_tp kernreq
          = reduction_kernel_fixed_dim_false_true.instantiate self1 data dst_tp src_tp
              kernreq) ∧
      (∀ self self1, agree_where (fun d => d.invariant) self self1 →
        reduction_kernel_var_dim_false_true.instantiate self data dst_tp src_tp kernreq
          = reduction_kernel_var_dim_false_true.instantiate self1 data dst_tp src_tp
              kernreq)) ∧
    (data.is_broadcast = some true →
      (∀ self self1,
        agree_where (fun d => d.invariant ∧ d.axes_ascending ∧ d.null_axes_reduce_all)
          self self1 →
        reduction_kernel_fixed_dim_true_false.instantiate self data dst_tp src_tp kernreq
          = reduction_kernel_fixed_dim_true_false.instantiate self1 data dst_tp src_tp
              kernreq) ∧
      (∀ self self1,
        agree_where (fun d => d.invariant ∧ d.axes_ascending ∧ d.null_axes_reduce_all)
          self self1 →
        reduction_kernel_fixed_dim_true_true.instantiate self data dst_tp src_tp kernreq
          = reduction_kernel_fixed_dim_true_true.instantiate self1 data dst_tp src_tp
              kernreq)) := by
  refine ⟨fun hb => ⟨?_, ?_, ?_⟩, fun hb => ⟨?_, ?_⟩⟩
  · intro self self1 hagree
    have hP := reduce_step_invariant data hinv hndim hasc hnull hb
    unfold reduction_kernel_fixed_dim_false_false.instantiate
    simp only [fun t s r => hagree _ t s r hP]
  · intro self self1 hagree
    have hP := reduce_step_invariant data hinv hndim hasc hnull hb
    unfold reduction_kernel_fixed_dim_false_true.instantiate
    simp only [fun t s r => hagree _ t s r hP]
  · intro self self1 hagree
    have hP := var_dim_step_invariant data hinv hasc hnull hndim hb
    unfold reduction_kernel_var_dim_false_true.instantiate
    simp only [fun t s r => hagree _ t s r hP]
  · intro self self1 hagree
    have hP := broadcast_step_invariant data hinv hndim hasc hb
    unfold reduction_kernel_fixed_dim_true_false.instantiate
    simp only [fun t s r => hagree _ t s r hP]
  · intro self self1 hagree
    have hP := broadcast_step_invariant data hinv hndim hasc hb
    unfold reduction_kernel_fixed_dim_true_true.instantiate
    simp only [fun t s r => hagree _ t s r hP]
/-- Witness of C23: the record of a reduction over axis 1 of a two-dimensional array, at its
first step, where a broadcast-outer frame is instantiated. -/
theorem instantiate_preserves_invariant_witness :
    example_reduction_data.invariant ∧ 1 ≤ example_reduction_data.ndim ∧
    example_reduction_data.axes_ascending ∧ example_reduction_data.null_axes_reduce_all ∧
    example_reduction_data.is_broadcast = some true ∧
    (∀ self self1,
      agree_where (fun d => d.invariant ∧ d.axes_ascending ∧ d.null_axes_reduce_all)
        self self1 →
      reduction_kernel_fixed_dim_true_false.instantiate self example_reduction_data
          (.fixed_dim 3 1 .scalar) (.fixed_dim 3 2 (.fixed_dim 2 1 .scalar))
          .kernel_request_call
        = reduction_kernel_fixed_dim_true_false.instantiate self1 example_reduction_data
          (.fixed_dim 3 1 .scalar) (.fixed_dim 3 2 (.fixed_dim 2 1 .scalar))
          .kernel_request_call) :=
  ⟨⟨by decide, by decide, by decide⟩, by decide,
    fun axes h => by
      simp only [example_reduction_data, Option.some.injEq] at h
      subst h
      exact ⟨rfl, by decide, by decide⟩,
    fun h => by simp [example_reduction_data] at h,
    rfl,
    ((instantiate_preserves_invariant example_reduction_data
      ⟨by decide, by decide, by decide⟩ (by decide)
      (fun axes h => by
        simp only [example_reduction_data, Option.some.injEq] at h
        subst h
        exact ⟨rfl, by decide, by decide⟩)
      (fun h => by simp [example_reduction_data] at h) _ _ _).2 rfl).1⟩
theorem count_true_add_count_false (kinds : List Bool) :
    kinds.count true + kinds.count false = kinds.length := by
  induction kinds with
  | nil => rfl
  | cons b rest ih =>
    cases b <;> simp [List.count_cons] <;> omega

theorem option_map_drop_zero {β : Type} (x : Option (List β)) :
    x.map (List.drop 0) = x := by
  cases x <;> rfl

theorem count_false_cons_true (l : List Bool) : (true :: l).count false = l.count false := by
  simp [List.count_cons]

theorem count_false_cons_false (l : List Bool) :
    (false :: l).count false = l.count false + 1 := by
  simp [List.count_cons]

theorem count_true_cons_true (l : List Bool) : (true :: l).count true = l.count true + 1 := by
  simp [List.count_cons]

theorem count_true_cons_false (l : List Bool) : (false :: l).count true = l.count true := by
  simp [List.count_cons]

theorem option_map_drop_one {β : Type} (x : Option (List β)) :
    x.map (List.drop 1) = x.map List.tail := by
  cases x with
  | none => rfl
  | some l => cases l <;> rfl

theorem after_reduce_step {α : Type} (data : reduction_data_type α) (n k : Nat) :
    ({ data with ndim := data.ndim - 1 - (n : Int), naxis := data.naxis - 1 - (k : Int),
                 axes := (data.axes.map List.tail).map (List.drop k) } : reduction_data_type α)
      = { data with ndim := data.ndim - ((n + 1 : Nat) : Int),
                    naxis := data.naxis - ((k + 1 : Nat) : Int),
                    axes := data.axes.map (List.drop (k + 1)) } := by
  have h1 : data.ndim - 1 - (n : Int) = data.ndim - ((n + 1 : Nat) : Int) := by
    push_cast
    ring
  have h2 : data.naxis - 1 - (k : Int) = data.naxis - ((k + 1 : Nat) : Int) := by
    push_cast
    ring
  have h3 : (data.axes.map List.tail).map (List.drop k) = data.axes.map (List.drop (k + 1)) := by
    cases data.axes with
    | none => rfl
    | some axes =>
      cases axes with
      | nil => simp
      | cons a rest => simp
  rw [h1, h2, h3]

theorem after_broadcast_step {α : Type} (data : reduction_data_type α) (n k : Nat) :
    ({ data with ndim := data.ndim - 1 - (n : Int), naxis := data.naxis - (k : Int),
                 axes := data.axes.map (List.drop k) } : reduction_data_type α)
      = { data with ndim := data.ndim - ((n + 1 : Nat) : Int),
                    naxis := data.naxis - (k : Int),
                    axes := data.axes.map (List.drop k) } := by
  have h1 : data.ndim - 1 - (n : Int) = data.ndim - ((n + 1 : Nat) : Int) := by
    push_cast
    ring
  rw [h1]

theorem instantiate_walk_leaf {α : Type} : ∀ (kinds : List Bool), kinds ≠ [] →
    ∀ (data : reduction_data_type α) (dst_dims src_dims : List (Int × Int))
      (dst_element_tp src_element_tp : ndt_type) (kernreq : kernel_request_t)
      (first_call : first_call_t),
    src_dims.length = kinds.length →
    dst_dims.length = (if data.keepdims then kinds.length else kinds.count true) →
    base_reduction_kernel.init kernreq = .ok first_call →
    ∃ (wrap_single : kernel_single_t α × kernel_strided_t α → reduction_kernel_prefix α)
      (wrap_strided : kernel_strided_t α × kernel_strided_t α → reduction_kernel_prefix α),
      ∀ leaf_single leaf_strided,
        instantiate_walk leaf_single leaf_strided kinds data
            (add_fixed_dims dst_dims dst_element_tp) (add_fixed_dims src_dims src_element_tp)
            kernreq
          = if kinds.getLast? = some true then
              (leaf_strided
                { data with ndim := data.ndim - (kinds.length : Int),
                            naxis := data.naxis - (kinds.count false : Int),
                            axes := data.axes.map (List.drop (kinds.count false)) }
                dst_element_tp src_element_tp .kernel_request_strided).map wrap_strided
            else
              (leaf_single
                { data with ndim := data.ndim - (kinds.length : Int),
                            naxis := data.naxis - (kinds.count false : Int),
                            axes := data.axes.map (List.drop (kinds.count false)) }
                dst_element_tp src_element_tp .kernel_request_single).map wrap_single
  | [], h => absurd rfl h
  | [true], _ => by
    intro data dst_dims src_dims dst_el src_el kernreq fc hsrc hdst hinit
    obtain ⟨⟨n, s⟩, rfl⟩ : ∃ d, src_dims = [d] := List.length_eq_one.mp hsrc
    have hdst1 : dst_dims.length = 1 := by
      rw [hdst]
      split <;> rfl
    obtain ⟨⟨dn, dstride⟩, rfl⟩ : ∃ d, dst_dims = [d] := List.length_eq_one.mp hdst1
    refine ⟨fun _ => ⟨fun _ _ m => m, fun _ _ _ _ _ m => m, fun _ _ _ _ _ m => m⟩,
      fun children =>
        (reduction_kernel_fixed_dim_true_true.instantiate_frame n dstride s data.identity
          children.1 children.2).to_reduction_child, ?_⟩
    intro leaf_single leaf_strided
    have hd : ({ data with ndim := data.ndim - (([true] : List Bool).length : Int),
                           naxis := data.naxis - (([true] : List Bool).count false : Int),
                           axes := data.axes.map (List.drop (([true] : List Bool).count false)) }
                : reduction_data_type α) = { data with ndim := data.ndim - 1 } := by
      simp [option_map_drop_zero]
    rw [hd]
    simp only [instantiate_walk, add_fixed_dims, List.foldr,
      reduction_kernel_fixed_dim_true_true.instantiate, hinit]
    cases leaf_strided { data with ndim := data.ndim - 1 } dst_el src_el .kernel_request_strided
      <;> rfl
  | [false], _ => by
    intro data dst_dims src_dims dst_el src_el kernreq fc hsrc hdst hinit
    obtain ⟨⟨n, s⟩, rfl⟩ : ∃ d, src_dims = [d] := List.length_eq_one.mp hsrc
    refine ⟨fun children =>
        (reduction_kernel_fixed_dim_false_true.instantiate_frame n s data.identity
          children.1 children.2).to_reduction_child,
      fun _ => ⟨fun _ _ m => m, fun _ _ _ _ _ m => m, fun _ _ _ _ _ m => m⟩, ?_⟩
    intro leaf_single leaf_strided
    have hd : ({ data with ndim := data.ndim - (([false] : List Bool).length : Int),
                           naxis := data.naxis - (([false] : List Bool).count false : Int),
                           axes := data.axes.map (List.drop (([false] : List Bool).count false)) }
                : reduction_data_type α)
        = { data with ndim := data.ndim - 1, naxis := data.naxis - 1,
                      axes := data.axes.map List.tail } := by
      simp [option_map_drop_one]
    rw [hd]
    by_cases hk : data.keepdims = true
    · rw [if_pos hk] at hdst
      obtain ⟨⟨dn, dstride⟩, rfl⟩ : ∃ d, dst_dims = [d] := List.length_eq_one.mp hdst
      simp only [instantiate_walk, add_fixed_dims, List.foldr,
        reduction_kernel_fixed_dim_false_true.instantiate, hinit, if_pos hk]
      cases leaf_single { data with ndim := data.ndim - 1, naxis := data.naxis - 1,
                                    axes := data.axes.map List.tail }
        dst_el src_el .kernel_request_single <;> rfl
    · rw [if_neg hk] at hdst
      have : dst_dims = [] := List.eq_nil_of_length_eq_zero hdst
      subst this
      simp only [instantiate_walk, add_fixed_dims, List.foldr,
        reduction_kernel_fixed_dim_false_true.instantiate, hinit, if_neg hk]
      cases leaf_single { data with ndim := data.ndim - 1, naxis := data.naxis - 1,
                                    axes := data.axes.map List.tail }
        dst_el src_el .kernel_request_single <;> rfl
  | true :: kind :: kinds, _ => by
    intro data dst_dims src_dims dst_el src_el kernreq fc hsrc hdst hinit
    obtain ⟨⟨n, s⟩, src_rest, rfl⟩ : ∃ d rest, src_dims = d :: rest := by
      cases src_dims with
      | nil => simp at hsrc
      | cons d rest => exact ⟨d, rest, rfl⟩
    rw [count_true_cons_true] at hdst
    obtain ⟨⟨dn, dstride⟩, dst_rest, rfl⟩ : ∃ d rest, dst_dims = d :: rest := by
      cases dst_dims with
      | nil =>
        exfalso
        split at hdst <;> simp at hdst
      | cons d rest => exact ⟨d, rest, rfl⟩
    obtain ⟨w1, w2, hih⟩ := instantiate_walk_leaf (kind :: kinds) (by simp)
      ({ data with ndim := data.ndim - 1 } : reduction_data_type α) dst_rest src_rest
      dst_el src_el .kernel_request_strided .strided_first_wrapper
      (by simpa using hsrc)
      (by
        show dst_rest.length = if data.keepdims = true then _ else _
        split at hdst <;> rename_i hk
        · rw [if_pos hk]
          simpa using hdst
        · rw [if_neg hk]
          simpa using hdst)
      rfl
    refine ⟨fun x =>
        (reduction_kernel_fixed_dim_true_false.instantiate_frame n dstride s
          (w1 x)).to_reduction_child,
      fun x =>
        (reduction_kernel_fixed_dim_true_false.instantiate_frame n dstride s
          (w2 x)).to_reduction_child, ?_⟩
    intro leaf_single leaf_strided
    have hih := hih leaf_single leaf_strided
    simp only [after_broadcast_step] at hih
    rw [count_false_cons_true, List.getLast?_cons_cons, List.length_cons]
    simp only [instantiate_walk, add_fixed_dims, List.foldr,
      reduction_kernel_fixed_dim_true_false.instantiate, hinit]
    simp only [add_fixed_dims] at hih
    rw [hih]
    by_cases hlast : (kind :: kinds).getLast? = some true
    · rw [if_pos hlast, if_pos hlast]
      cases leaf_strided
        { data with ndim := data.ndim - (((kind :: kinds).length + 1 : Nat) : Int),
                    naxis := data.naxis - ((kind :: kinds).count false : Int),
                    axes := data.axes.map (List.drop ((kind :: kinds).count false)) }
        dst_el src_el .kernel_request_strided <;> rfl
    · rw [if_neg hlast, if_neg hlast]
      cases leaf_single
        { data with ndim := data.ndim - (((kind :: kinds).length + 1 : Nat) : Int),
                    naxis := data.naxis - ((kind :: kinds).count false : Int),
                    axes := data.axes.map (List.drop ((kind :: kinds).count false)) }
        dst_el src_el .kernel_request_single <;> rfl
  | false :: kind :: kinds, _ => by
    intro data dst_dims src_dims dst_el src_el kernreq fc hsrc hdst hinit
    obtain ⟨⟨n, s⟩, src_rest, rfl⟩ : ∃ d rest, src_dims = d :: rest := by
      cases src_dims with
      | nil => simp at hsrc
      | cons d rest => exact ⟨d, rest, rfl⟩
    rw [count_true_cons_false] at hdst
    by_cases hk : data.keepdims = true
    · rw [if_pos hk] at hdst
      obtain ⟨⟨dn, dstride⟩, dst_rest, rfl⟩ : ∃ d rest, dst_dims = d :: rest := by
        cases dst_dims with
        | nil => simp at hdst
        | cons d rest => exact ⟨d, rest, rfl⟩
      obtain ⟨w1, w2, hih⟩ := instantiate_walk_leaf (kind :: kinds) (by simp)
        ({ data with ndim := data.ndim - 1, naxis := data.naxis - 1,
                     axes := data.axes.map List.tail } : reduction_data_type α)
        dst_rest src_rest dst_el src_el .kernel_request_single .single_first_wrapper
        (by simpa using hsrc)
        (by
          show dst_rest.length = if data.keepdims = true then _ else _
          rw [if_pos hk]
          simpa using hdst)
        rfl
      refine ⟨fun x =>
          (reduction_kernel_fixed_dim_false_false.instantiate_frame n s
            (w1 x)).to_reduction_child,
        fun x =>
          (reduction_kernel_fixed_dim_false_false.instantiate_frame n s
            (w2 x)).to_reduction_child, ?_⟩
      intro leaf_single leaf_strided
      have hih := hih leaf_single leaf_strided
      simp only [after_reduce_step] at hih
      rw [count_false_cons_false, List.getLast?_cons_cons, List.length_cons]
      simp only [instantiate_walk, add_fixed_dims, List.foldr,
        reduction_kernel_fixed_dim_false_false.instantiate, hinit, if_pos hk]
      simp only [add_fixed_dims] at hih
      rw [hih]
      by_cases hlast : (kind :: kinds).getLast? = some true
      · rw [if_pos hlast, if_pos hlast]
        cases leaf_strided
          { data with ndim := data.ndim - (((kind :: kinds).length + 1 : Nat) : Int),
                      naxis := data.naxis - (((kind :: kinds).count false + 1 : Nat) : Int),
                      axes := data.axes.map (List.drop ((kind :: kinds).count false + 1)) }
          dst_el src_el .kernel_request_strided <;> rfl
      · rw [if_neg hlast, if_neg hlast]
        cases leaf_single
          { data with ndim := data.ndim - (((kind :: kinds).length + 1 : Nat) : Int),
                      naxis := data.naxis - (((kind :: kinds).count false + 1 : Nat) : Int),
                      axes := data.axes.map (List.drop ((kind :: kinds).count false + 1)) }
          dst_el src_el .kernel_request_single <;> rfl
    · rw [if_neg hk] at hdst
      obtain ⟨w1, w2, hih⟩ := instantiate_walk_leaf (kind :: kinds) (by simp)
        ({ data with ndim := data.ndim - 1, naxis := data.naxis - 1,
                     axes := data.axes.map List.tail } : reduction_data_type α)
        dst_dims src_rest dst_el src_el .kernel_request_single .single_first_wrapper
        (by simpa using hsrc)
        (by
          show dst_dims.length = if data.keepdims = true then _ else _
          rw [if_neg hk]
          exact hdst)
        rfl
      refine ⟨fun x =>
          (reduction_kernel_fixed_dim_false_false.instantiate_frame n s
            (w1 x)).to_reduction_child,
        fun x =>
          (reduction_kernel_fixed_dim_false_false.instantiate_frame n s
            (w2 x)).to_reduction_child, ?_⟩
      intro leaf_single leaf_strided
      have hih := hih leaf_single leaf_strided
      simp only [after_reduce_step] at hih
      rw [count_false_cons_false, List.getLast?_cons_cons, List.length_cons]
      simp only [instantiate_walk, add_fixed_dims, List.foldr,
        reduction_kernel_fixed_dim_false_false.instantiate, hinit, if_neg hk]
      simp only [add_fixed_dims] at hih
      rw [hih]
      by_cases hlast : (kind :: kinds).getLast? = some true
      · rw [if_pos hlast, if_pos hlast]
        cases leaf_strided
          { data with ndim := data.ndim - (((kind :: kinds).length + 1 : Nat) : Int),
                      naxis := data.naxis - (((kind :: kinds).count false + 1 : Nat) : Int),
                      axes := data.axes.map (List.drop ((kind :: kinds).count false + 1)) }
          dst_el src_el .kernel_request_strided <;> rfl
      · rw [if_neg hlast, if_neg hlast]
        cases leaf_single
          { data with ndim := data.ndim - (((kind :: kinds).length + 1 : Nat) : Int),
                      naxis := data.naxis - (((kind :: kinds).count false + 1 : Nat) : Int),
                      axes := data.axes.map (List.drop ((kind :: kinds).count false + 1)) }
          dst_el src_el .kernel_request_single <;> rfl
/-- C22: along an `instantiate` walk through fixed-dim reduction frames the destination type is
peeled by one dimension at every broadcast axis and, at a reduce axis, exactly when `keepdims`
is set.  Hence, for a source of rank `kinds.length` of which `kinds.count false` axes are
reduced, and a destination with `kinds.length` dimensions over its element type when `keepdims`
is set and `kinds.length - kinds.count false` dimensions when it is not, the walk hands the
children of the inner frame exactly the destination element type (and the source element
type): whatever the leaf calls are, the result of the walk is that of the leaf call with these
types, wrapped into the frames.  The steps of the reduce-outer, reduce-inner and broadcast-outer
frames are given as well. -/
theorem instantiate_walk_peels_dst {α : Type} (kinds : List Bool)
    (data : reduction_data_type α) (dst_dims src_dims : List (Int × Int))
    (dst_element_tp src_element_tp : ndt_type) (kernreq : kernel_request_t)
    (first_call : first_call_t) (hkinds : kinds ≠ [])
    (hsrc : src_dims.length = kinds.length)
    (hdst : dst_dims.length =
      if data.keepdims then kinds.length else kinds.length - kinds.count false)
    (hinit : base_reduction_kernel.init kernreq = .ok first_call) :
    (∃ (wrap_single : kernel_single_t α × kernel_strided_t α → reduction_kernel_prefix α)
      (wrap_strided : kernel_strided_t α × kernel_strided_t α → reduction_kernel_prefix α),
      ∀ leaf_single leaf_strided,
        instantiate_walk leaf_single leaf_strided kinds data
            (add_fixed_dims dst_dims dst_element_tp) (add_fixed_dims src_dims src_element_tp)
            kernreq
          = if kinds.getLast? = some true then
              (leaf_strided
                { data with ndim := data.ndim - (kinds.length : Int),
                            naxis := data.naxis - (kinds.count false : Int),
                            axes := data.axes.map (List.drop (kinds.count false)) }
                dst_element_tp src_element_tp .kernel_request_strided).map wrap_strided
            else
              (leaf_single
                { data with ndim := data.ndim - (kinds.length : Int),
                            naxis := data.naxis - (kinds.count false : Int),
                            axes := data.axes.map (List.drop (kinds.count false)) }
                dst_element_tp src_element_tp .kernel_request_single).map wrap_single) ∧
    (∀ self dst_size dst_stride (dst_tp : ndt_type) src_size src_stride (src_tp : ndt_type),
      data.keepdims = true →
      reduction_kernel_fixed_dim_false_false.instantiate self data
          (.fixed_dim dst_size dst_stride dst_tp) (.fixed_dim src_size src_stride src_tp) kernreq
        = (self { data with ndim := data.ndim - 1, naxis := data.naxis - 1,
                            axes := data.axes.map List.tail }
            dst_tp src_tp .kernel_request_single).map (fun child =>
              (first_call,
                reduction_kernel_fixed_dim_false_false.instantiate_frame src_size src_stride
                  child))) ∧
    (∀ self (dst_tp : ndt_type) src_size src_stride (src_tp : ndt_type),
      data.keepdims = false →
      reduction_kernel_fixed_dim_false_false.instantiate self data
          dst_tp (.fixed_dim src_size src_stride src_tp) kernreq
        = (self { data with ndim := data.ndim - 1, naxis := data.naxis - 1,
                            axes := data.axes.map List.tail }
            dst_tp src_tp .kernel_request_single).map (fun child =>
              (first_call,
                reduction_kernel_fixed_dim_false_false.instantiate_frame src_size src_stride
                  child))) ∧
    (∀ self dst_size dst_stride (dst_tp : ndt_type) src_size src_stride (src_tp : ndt_type),
      data.keepdims = true →
      reduction_kernel_fixed_dim_false_true.instantiate self data
          (.fixed_dim dst_size dst_stride dst_tp) (.fixed_dim src_size src_stride src_tp) kernreq
        = (self { data with ndim := data.ndim - 1, naxis := data.naxis - 1,
                            axes := data.axes.map List.tail }
            dst_tp src_tp .kernel_request_single).map (fun children =>
              (first_call,
                reduction_kernel_fixed_dim_false_true.instantiate_frame src_size src_stride
                  data.identity children.1 children.2))) ∧
    (∀ self (dst_tp : ndt_type) src_size src_stride (src_tp : ndt_type),
      data.keepdims = false →
      reduction_kernel_fixed_dim_false_true.instantiate self data
          dst_tp (.fixed_dim src_size src_stride src_tp) kernreq
        = (self { data with ndim := data.ndim - 1, naxis := data.naxis - 1,
                            axes := data.axes.map List.tail }
            dst_tp src_tp .kernel_request_single).map (fun children =>
              (first_call,
                reduction_kernel_fixed_dim_false_true.instantiate_frame src_size src_stride
                  data.identity children.1 children.2))) ∧
    (∀ self dst_size dst_stride (dst_tp : ndt_type) src_size src_stride (src_tp : ndt_type),
      reduction_kernel_fixed_dim_true_false.instantiate self data
          (.fixed_dim dst_size dst_stride dst_tp) (.fixed_dim src_size src_stride src_tp) kernreq
        = (self { data with ndim := data.ndim - 1 }
            dst_tp src_tp .kernel_request_strided).map (fun child =>
              (first_call,
                reduction_kernel_fixed_dim_true_false.instantiate_frame src_size dst_stride
                  src_stride child))) := by
  refine ⟨?_, ?_, ?_, ?_, ?_, ?_⟩
  · apply instantiate_walk_leaf kinds hkinds data dst_dims src_dims dst_element_tp
      src_element_tp kernreq first_call hsrc _ hinit
    rw [hdst]
    have := count_true_add_count_false kinds
    split <;> omega
  · intro self dst_size dst_stride dst_tp src_size src_stride src_tp hk
    simp only [reduction_kernel_fixed_dim_false_false.instantiate, hinit, if_pos hk]
    cases self { data with ndim := data.ndim - 1, naxis := data.naxis - 1,
                           axes := data.axes.map List.tail }
      dst_tp src_tp .kernel_request_single <;> rfl
  · intro self dst_tp src_size src_stride src_tp hk
    have hk1 : ¬ data.keepdims = true := by simp [hk]
    simp only [reduction_kernel_fixed_dim_false_false.instantiate, hinit, if_neg hk1]
    cases self { data with ndim := data.ndim - 1, naxis := data.naxis - 1,
                           axes := data.axes.map List.tail }
      dst_tp src_tp .kernel_request_single <;> rfl
  · intro self dst_size dst_stride dst_tp src_size src_stride src_tp hk
    simp only [reduction_kernel_fixed_dim_false_true.instantiate, hinit, if_pos hk]
    cases self { data with ndim := data.ndim - 1, naxis := data.naxis - 1,
                           axes := data.axes.map List.tail }
      dst_tp src_tp .kernel_request_single <;> rfl
  · intro self dst_tp src_size src_stride src_tp hk
    have hk1 : ¬ data.keepdims = true := by simp [hk]
    simp only [reduction_kernel_fixed_dim_false_true.instantiate, hinit, if_neg hk1]
    cases self { data with ndim := data.ndim - 1, naxis := data.naxis - 1,
                           axes := data.axes.map List.tail }
      dst_tp src_tp .kernel_request_single <;> rfl
  · intro self dst_size dst_stride dst_tp src_size src_stride src_tp
    simp only [reduction_kernel_fixed_dim_true_false.instantiate, hinit]
    cases self { data with ndim := data.ndim - 1 } dst_tp src_tp .kernel_request_strided <;> rfl

/-- Witness of C22: the walk for the reduction over axis 1 of a `3 x 2` array without
`keepdims` (a broadcast-outer frame over a reduce-inner frame), with a one-dimensional
destination. -/
theorem instantiate_walk_peels_dst_witness :
    [true, false] ≠ [] ∧ [((3 : Int), (2 : Int)), (2, 1)].length = [true, false].length ∧
    [((3 : Int), (1 : Int))].length =
      (if example_reduction_data.keepdims then [true, false].length
        else [true, false].length - [true, false].count false) ∧
    base_reduction_kernel.init .kernel_request_call = .ok .call_wrapper ∧
    ∃ (wrap_single : kernel_single_t Int × kernel_strided_t Int → reduction_kernel_prefix Int)
      (wrap_strided : kernel_strided_t Int × kernel_strided_t Int → reduction_kernel_prefix Int),
      ∀ leaf_single leaf_strided,
        instantiate_walk leaf_single leaf_strided [true, false] example_reduction_data
            (add_fixed_dims [(3, 1)] .scalar) (add_fixed_dims [(3, 2), (2, 1)] .scalar)
            .kernel_request_call
          = if [true, false].getLast? = some true then
              (leaf_strided
                { example_reduction_data with
                    ndim := example_reduction_data.ndim - ([true, false].length : Int),
                    naxis := example_reduction_data.naxis - ([true, false].count false : Int),
                    axes := example_reduction_data.axes.map
                      (List.drop ([true, false].count false)) }
                .scalar .scalar .kernel_request_strided).map wrap_strided
            else
              (leaf_single
                { example_reduction_data with
                    ndim := example_reduction_data.ndim - ([true, false].length : Int),
                    naxis := example_reduction_data.naxis - ([true, false].count false : Int),
                    axes := example_reduction_data.axes.map
                      (List.drop ([true, false].count false)) }
                .scalar .scalar .kernel_request_single).map wrap_single :=
  ⟨by decide, by decide, by decide, rfl,
    (instantiate_walk_peels_dst [true, false] example_reduction_data [(3, 1)]
      [(3, 2), (2, 1)] .scalar .scalar .kernel_request_call .call_wrapper (by decide)
      (by decide) (by decide) rfl).1⟩

/-! ## The strided wrapper -/

theorem strided_assign_loop_foldl {σ : Type} (e : strided_assign_kernel_extra σ) :
    ∀ (count : Nat) (dst src : Int) (m : σ),
      e.loop count dst src m
        = (List.range count).foldl
            (fun m (i : Nat) => e.child (dst + i * e.dst_stride) (src + i * e.src_stride) m) m := by
  intro count
  induction count with
  | zero => intro dst src m; rfl
  | succ k ih =>
    intro dst src m
    rw [strided_assign_kernel_extra.loop, ih, List.range_succ_eq_map, List.foldl_cons,
      List.foldl_map]
    simp only [Nat.cast_zero, zero_mul, add_zero]
    congr 1
    funext m1 i
    rw [addr_succ, addr_succ]

theorem strided_assign_loop_copies (e : strided_assign_kernel_extra byte_memory) (n : Nat)
    (hchild : ∀ (d s : Int) (m : byte_memory),
      (∀ i j : Nat, i < n → j < n → s + i ≠ d + j) → copies n d s m (e.child d s m)) :
    ∀ (count : Nat) (dst src : Int) (m : byte_memory),
      (∀ i j : Nat, i < count → j < count → i ≠ j → ∀ a b : Nat, a < n → b < n →
        dst + i * e.dst_stride + a ≠ dst + j * e.dst_stride + b) →
      (∀ i j : Nat, i < count → j < count → ∀ a b : Nat, a < n → b < n →
        src + i * e.src_stride + a ≠ dst + j * e.dst_stride + b) →
      (∀ i : Nat, i < count → ∀ b : Nat, b < n →
        e.loop count dst src m (dst + i * e.dst_stride + b) = m (src + i * e.src_stride + b)) ∧
      (∀ a : Int, (∀ i : Nat, i < count → ∀ b : Nat, b < n → a ≠ dst + i * e.dst_stride + b) →
        e.loop count dst src m a = m a) := by
  intro count
  induction count with
  | zero =>
    intro dst src m _ _
    exact ⟨fun i hi => absurd hi (Nat.not_lt_zero i), fun a _ => rfl⟩
  | succ k ih =>
    intro dst src m hdst hsrc
    have hcopy := hchild dst src m (fun i j hi hj => by
      have := hsrc 0 0 (Nat.succ_pos k) (Nat.succ_pos k) i j hi hj
      simpa using this)
    obtain ⟨ih1, ih2⟩ := ih (dst + e.dst_stride) (src + e.src_stride) (e.child dst src m)
      (fun i j hi hj hij a b ha hb => by
        have := hdst (i + 1) (j + 1) (by omega) (by omega) (by omega) a b ha hb
        rw [addr_succ, addr_succ]
        exact this)
      (fun i j hi hj a b ha hb => by
        have := hsrc (i + 1) (j + 1) (by omega) (by omega) a b ha hb
        rw [addr_succ, addr_succ]
        exact this)
    rw [strided_assign_kernel_extra.loop]
    constructor
    · intro i hi b hb
      cases i with
      | zero =>
        simp only [Nat.cast_zero, zero_mul, add_zero]
        rw [ih2 (dst + b) (fun i' hi' b' hb' => by
          have := hdst 0 (i' + 1) (Nat.succ_pos k) (by omega) (by omega) b b' hb hb'
          rw [addr_succ]
          simpa using this)]
        exact hcopy.1 b hb
      | succ i' =>
        have h1 := ih1 i' (by omega) b hb
        rw [addr_succ, addr_succ] at h1
        rw [h1]
        apply hcopy.2
        intro b' hb'
        have := hsrc (i' + 1) 0 (by omega) (Nat.succ_pos k) b b' hb hb'
        simpa using this
    · intro a ha
      rw [ih2 a (fun i' hi' b' hb' => by
        have := ha (i' + 1) (by omega) b' hb'
        rw [addr_succ]
        exact this)]
      apply hcopy.2
      intro b' hb'
      have := ha 0 (Nat.succ_pos k) b' hb'
      simpa using this

/-- C24: `strided_assign_kernel_extra::single` invokes the child's single-element function
exactly `max(size, 0)` times, invocation `i` (for `i = 0 .. size - 1`, in increasing order)
receiving `dst + i * dst_stride` and `src + i * src_stride`.  So with a child that copies an
element of `n` bytes, on destination elements that overlap neither each other nor a source
element, element `i` of `dst` afterwards equals element `i` of `src` for every `i < size`, and
no other location is written. -/
theorem strided_assign_kernel_extra_single_spec (e : strided_assign_kernel_extra byte_memory)
    (n : Nat) (dst src : Int) (m : byte_memory)
    (hchild : ∀ (d s : Int) (m : byte_memory),
      (∀ i j : Nat, i < n → j < n → s + i ≠ d + j) → copies n d s m (e.child d s m))
    (hdst : ∀ i j : Nat, (i : Int) < e.size → (j : Int) < e.size → i ≠ j →
      ∀ a b : Nat, a < n → b < n → dst + i * e.dst_stride + a ≠ dst + j * e.dst_stride + b)
    (hsrc : ∀ i j : Nat, (i : Int) < e.size → (j : Int) < e.size →
      ∀ a b : Nat, a < n → b < n → src + i * e.src_stride + a ≠ dst + j * e.dst_stride + b) :
    (∀ (σ : Type) (k : strided_assign_kernel_extra σ) (dst src : Int) (s : σ),
      k.single dst src s
        = (List.range k.size.toNat).foldl
            (fun s (i : Nat) => k.child (dst + i * k.dst_stride) (src + i * k.src_stride) s) s ∧
      (k.size.toNat : Int) = max k.size 0) ∧
    (∀ i : Nat, (i : Int) < e.size → ∀ b : Nat, b < n →
      e.single dst src m (dst + i * e.dst_stride + b) = m (src + i * e.src_stride + b)) ∧
    (∀ a : Int,
      (∀ i : Nat, (i : Int) < e.size → ∀ b : Nat, b < n → a ≠ dst + i * e.dst_stride + b) →
      e.single dst src m a = m a) := by
  have key := strided_assign_loop_copies e n hchild e.size.toNat dst src m
    (fun i j hi hj hij a b ha hb => hdst i j (by omega) (by omega) hij a b ha hb)
    (fun i j hi hj a b ha hb => hsrc i j (by omega) (by omega) a b ha hb)
  refine ⟨fun σ k dst src s => ⟨strided_assign_loop_foldl k _ dst src s, ?_⟩, ?_, ?_⟩
  · rw [Int.toNat_eq_max]
  · intro i hi b hb
    exact key.1 i (by omega) b hb
  · intro a ha
    exact key.2 a (fun i hi b hb => ha i (by omega) b hb)

/-- Witness of C24: three elements of four bytes copied from address 0 to address 100. -/
theorem strided_assign_kernel_extra_single_spec_witness :
    (∀ (d s : Int) (m : byte_memory),
      (∀ i j : Nat, i < 4 → j < 4 → s + i ≠ d + j) →
        copies 4 d s m (example_strided_assign.child d s m)) ∧
    (∀ i j : Nat, (i : Int) < example_strided_assign.size →
      (j : Int) < example_strided_assign.size → i ≠ j → ∀ a b : Nat, a < 4 → b < 4 →
      (100 : Int) + i * example_strided_assign.dst_stride + a
        ≠ 100 + j * example_strided_assign.dst_stride + b) ∧
    (∀ i j : Nat, (i : Int) < example_strided_assign.size →
      (j : Int) < example_strided_assign.size → ∀ a b : Nat, a < 4 → b < 4 →
      (0 : Int) + i * example_strided_assign.src_stride + a
        ≠ 100 + j * example_strided_assign.dst_stride + b) ∧
    (∀ i : Nat, (i : Int) < example_strided_assign.size → ∀ b : Nat, b < 4 →
      example_strided_assign.single 100 0 example_bytes
          (100 + i * example_strided_assign.dst_stride + b)
        = example_bytes (0 + i * example_strided_assign.src_stride + b)) :=
  ⟨fun d s m h => memcpy_copies 4 d s m h,
    fun i j hi hj hij a b ha hb => by
      simp only [example_strided_assign] at hi hj ⊢
      omega,
    fun i j hi hj a b ha hb => by
      simp only [example_strided_assign] at hi hj ⊢
      omega,
    (strided_assign_kernel_extra_single_spec example_strided_assign 4 100 0 example_bytes
      (fun d s m h => memcpy_copies 4 d s m h)
      (fun i j hi hj hij a b ha hb => by
        simp only [example_strided_assign] at hi hj ⊢
        omega)
      (fun i j hi hj a b ha hb => by
        simp only [example_strided_assign] at hi hj ⊢
        omega)).2.1⟩

/-! ## Handing the kernel over -/

theorem move_into_cki_static (ckb : ckernel_builder) (out : ckernel_instance)
    (kernel_size : Nat) (garbage : Nat → Fin 256) (hd : ckb.m_data = .static_data)
    (hcap : ckb.m_capacity = sizeof_m_static_data) :
    ckb.move_into_cki (some garbage) out kernel_size
      = (none, ckernel_builder.construct,
          { kernel := some (memcpy_block ((List.range kernel_size).map garbage)
              ckb.m_static_data kernel_size),
            kernel_size := kernel_size, free_func := .free }) := by
  unfold ckernel_builder.move_into_cki
  rw [hd]
  simp only [malloc, Option.map_some']
  refine Prod.ext rfl (Prod.ext ?_ rfl)
  show ({ m_data := .static_data, m_capacity := ckb.m_capacity,
          m_static_data := List.replicate sizeof_m_static_data 0 } : ckernel_builder)
    = ckernel_builder.construct
  unfold ckernel_builder.construct
  rw [hcap]

theorem move_into_cki_static_failure (ckb : ckernel_builder) (out : ckernel_instance)
    (kernel_size : Nat) (hd : ckb.m_data = .static_data) :
    ckb.move_into_cki none out kernel_size
      = (some .bad_alloc, ckb, { out with kernel := none, free_func := .null }) := by
  unfold ckernel_builder.move_into_cki
  rw [hd]
  rfl

theorem move_into_cki_heap (alloc : Option (Nat → Fin 256)) (ckb : ckernel_builder)
    (out : ckernel_instance) (kernel_size : Nat) (block : List (Fin 256))
    (hd : ckb.m_data = .heap block) :
    ckb.move_into_cki alloc out kernel_size
      = (none, ckernel_builder.construct,
          { kernel := some block, kernel_size := kernel_size, free_func := .free }) := by
  unfold ckernel_builder.move_into_cki
  rw [hd]
  rfl

/-- C25: after a successful `move_into_cki(out, kernel_size)` with `kernel_size` no larger than
the capacity, `out->kernel` holds the first `kernel_size` bytes of the builder's previous
contents, `out->kernel_size` is `kernel_size` (and `out->free_func` is `free`), and the builder
is in the freshly constructed state, so that destroying it afterwards invokes no kernel
destructor (and frees nothing).  This holds both when the builder was inline, where
`kernel_size` bytes are copied into a new block, and when it was heap-backed, where the block
itself is handed over. -/
theorem move_into_cki_spec (abi : ckernel_prefix_abi) (alloc : Option (Nat → Fin 256))
    (ckb : ckernel_builder) (out : ckernel_instance) (kernel_size : Nat)
    (hvalid : ckb.valid) (hsize : (kernel_size : Int) ≤ ckb.m_capacity)
    (hok : (ckb.move_into_cki alloc out kernel_size).1 = none) :
    (∃ kernel, (ckb.move_into_cki alloc out kernel_size).2.2.kernel = some kernel ∧
      (∀ i : Nat, i < kernel_size → kernel[i]? = some (ckb.bytes.getD i 0)) ∧
      (∀ i : Nat, i < kernel_size → i < ckb.bytes.length) ∧
      (ckb.m_data = .static_data → kernel.length = kernel_size) ∧
      (∀ block, ckb.m_data = .heap block → kernel = block)) ∧
    (ckb.move_into_cki alloc out kernel_size).2.2.kernel_size = kernel_size ∧
    (ckb.move_into_cki alloc out kernel_size).2.2.free_func = .free ∧
    (ckb.move_into_cki alloc out kernel_size).2.1 = ckernel_builder.construct ∧
    ((ckb.move_into_cki alloc out kernel_size).2.1.destruct abi).2 = [] := by
  unfold ckernel_builder.valid at hvalid
  have hdestruct : (ckernel_builder.construct.destruct abi).2 = [] := by
    rw [ckernel_builder.destruct, destroy_construct]
  cases hd : ckb.m_data with
  | static_data =>
    rw [hd] at hvalid
    obtain ⟨hcap, hlen⟩ := hvalid
    cases alloc with
    | none =>
      rw [move_into_cki_static_failure ckb out kernel_size hd] at hok
      simp at hok
    | some garbage =>
      have hks : kernel_size ≤ sizeof_m_static_data := by
        rw [hcap] at hsize
        exact_mod_cast hsize
      rw [move_into_cki_static ckb out kernel_size garbage hd hcap]
      refine ⟨⟨_, rfl, ?_, ?_, ?_, ?_⟩, rfl, rfl, rfl, hdestruct⟩
      · intro i hi
        rw [memcpy_block_getElem? _ _ _ _ (by simpa using hi), if_pos hi]
        simp [ckernel_builder.bytes, hd]
      · intro i hi
        simp only [ckernel_builder.bytes, hd, hlen]
        omega
      · intro _
        simp [memcpy_block_length]
      · intro block hb
        simp at hb
  | heap block =>
    rw [hd] at hvalid
    obtain ⟨hcap, hlen⟩ := hvalid
    rw [move_into_cki_heap alloc ckb out kernel_size block hd]
    refine ⟨⟨block, rfl, ?_, ?_, ?_, ?_⟩, rfl, rfl, rfl, hdestruct⟩
    · intro i hi
      simp only [ckernel_builder.bytes, hd]
      exact getElem?_eq_some_getD block i (by omega)
    · intro i hi
      simp only [ckernel_builder.bytes, hd]
      omega
    · intro h
      simp at h
    · intro block1 hb
      simp only [ckb_data.heap.injEq] at hb
      exact hb
  | null =>
    rw [hd] at hvalid
    exact absurd hvalid (by simp)

/-- Witness of C25: the inline example builder, whose root frame has the destructor `0x1234`,
hands over its first 16 bytes; the heap-backed example builder hands over its block. -/
theorem move_into_cki_spec_witness :
    example_builder.valid ∧ ((16 : Nat) : Int) ≤ example_builder.m_capacity ∧
    (example_builder.move_into_cki (some (fun _ => 0))
      { kernel := none, kernel_size := 0, free_func := .null } 16).1 = none ∧
    (example_builder.move_into_cki (some (fun _ => 0))
      { kernel := none, kernel_size := 0, free_func := .null } 16).2.1
        = ckernel_builder.construct ∧
    ((example_builder.move_into_cki (some (fun _ => 0))
      { kernel := none, kernel_size := 0, free_func := .null } 16).2.1.destruct
        example_abi).2 = [] ∧
    (example_heap_builder.move_into_cki none
      { kernel := none, kernel_size := 0, free_func := .null } 16).2.1
        = ckernel_builder.construct :=
  ⟨⟨rfl, by simp [example_builder]⟩, by decide, rfl,
    (move_into_cki_spec example_abi (some (fun _ => 0)) example_builder
      { kernel := none, kernel_size := 0, free_func := .null } 16
      ⟨rfl, by simp [example_builder]⟩ (by decide) rfl).2.2.2.1,
    (move_into_cki_spec example_abi (some (fun _ => 0)) example_builder
      { kernel := none, kernel_size := 0, free_func := .null } 16
      ⟨rfl, by simp [example_builder]⟩ (by decide) rfl).2.2.2.2,
    (move_into_cki_spec example_abi none example_heap_builder
      { kernel := none, kernel_size := 0, free_func := .null } 16
      ⟨by decide, by simp [example_heap_builder]⟩ (by decide) rfl).2.2.2.1⟩

/-! ## The short vector -/

/-- C26: for two distinct shortvector objects, each inline or heap-backed, `a.swap(b)` leaves
`a` holding exactly the previous elements of `b` and `b` holding exactly the previous elements
of `a`; the data pointer of each refers to its own inline array (when the other vector was
inline) or to the heap block of the other vector, which it now owns, and never to the inline
array of the other vector; and swapping twice restores the data pointer and the elements of both
vectors. -/
theorem shortvector_swap_spec {T : Type} (heap : Nat → Option (List T)) (a b : shortvector T)
    (hab : a.address ≠ b.address) (ha : a.owns_data) (hb : b.owns_data) :
    (a.swap b).1.elements heap = b.elements heap ∧
    (a.swap b).2.elements heap = a.elements heap ∧
    (a.swap b).1.address = a.address ∧ (a.swap b).2.address = b.address ∧
    (b.m_data = .shortdata b.address → (a.swap b).1.m_data = .shortdata a.address) ∧
    (∀ block, b.m_data = .heap block → (a.swap b).1.m_data = .heap block) ∧
    (a.m_data = .shortdata a.address → (a.swap b).2.m_data = .shortdata b.address) ∧
    (∀ block, a.m_data = .heap block → (a.swap b).2.m_data = .heap block) ∧
    (a.swap b).1.m_data ≠ .shortdata b.address ∧
    (a.swap b).2.m_data ≠ .shortdata a.address ∧
    ((a.swap b).1.swap (a.swap b).2).1.m_data = a.m_data ∧
    ((a.swap b).1.swap (a.swap b).2).2.m_data = b.m_data ∧
    ((a.swap b).1.swap (a.swap b).2).1.elements heap = a.elements heap ∧
    ((a.swap b).1.swap (a.swap b).2).2.elements heap = b.elements heap := by
  have hba : b.address ≠ a.address := fun h => hab h.symm
  rcases ha with ha | ⟨blocka, ha⟩ <;> rcases hb with hb | ⟨blockb, hb⟩ <;>
    simp [shortvector.swap, shortvector.elements, ha, hb, hab, hba]

/-- Witness of C26: the inline example vector swapped with the heap-backed one. -/
theorem shortvector_swap_spec_witness :
    example_inline_shortvector.address ≠ example_heap_shortvector.address ∧
    example_inline_shortvector.owns_data ∧ example_heap_shortvector.owns_data ∧
    (example_inline_shortvector.swap example_heap_shortvector).1.elements
        example_shortvector_heap = some [4, 5, 6, 7, 8] ∧
    (example_inline_shortvector.swap example_heap_shortvector).2.elements
        example_shortvector_heap = some [1, 2, 3] ∧
    (example_inline_shortvector.swap example_heap_shortvector).1.elements
        example_shortvector_heap = example_heap_shortvector.elements example_shortvector_heap :=
  ⟨by decide, Or.inl rfl, Or.inr ⟨7, rfl⟩, rfl, rfl,
    (shortvector_swap_spec example_shortvector_heap example_inline_shortvector
      example_heap_shortvector (by decide) (Or.inl rfl) (Or.inr ⟨7, rfl⟩)).1⟩

/-- C27: move-constructing or move-assigning a shortvector from `rhs` (a distinct object, both
inline or heap-backed, owning different heap blocks) yields a vector that holds the previous
elements of `rhs`.  If `rhs` was inline, the whole inline array is copied and the destination
points to its own inline array; if `rhs` was heap-backed, the destination takes the heap pointer
and `rhs` is reset to its own inline array, so that no heap block is referenced by both vectors.
Move-assigning a vector to itself changes nothing. -/
theorem shortvector_move_spec {T : Type} (heap : Nat → Option (List T))
    (a rhs : shortvector T) (address : Nat) (uninitialized : List T)
    (hne : a.address ≠ rhs.address) (ha : a.owns_data) (hrhs : rhs.owns_data)
    (hblocks : ∀ block, a.m_data = .heap block → rhs.m_data ≠ .heap block) :
    ((shortvector.move_construct address uninitialized rhs).1.elements heap
        = rhs.elements heap ∧
      (shortvector.move_construct address uninitialized rhs).1.address = address ∧
      (rhs.m_data = .shortdata rhs.address →
        (shortvector.move_construct address uninitialized rhs).1.m_data = .shortdata address ∧
        (shortvector.move_construct address uninitialized rhs).1.m_shortdata
          = rhs.m_shortdata ∧
        (shortvector.move_construct address uninitialized rhs).2 = rhs) ∧
      (∀ block, rhs.m_data = .heap block →
        (shortvector.move_construct address uninitialized rhs).1.m_data = .heap block ∧
        (shortvector.move_construct address uninitialized rhs).2.m_data
          = .shortdata rhs.address) ∧
      (∀ block, ¬ ((shortvector.move_construct address uninitialized rhs).1.m_data
            = .heap block ∧
          (shortvector.move_construct address uninitialized rhs).2.m_data = .heap block))) ∧
    ((a.move_assign heap rhs).2.1.elements (a.move_assign heap rhs).1 = rhs.elements heap ∧
      (a.move_assign heap rhs).2.1.address = a.address ∧
      (rhs.m_data = .shortdata rhs.address →
        (a.move_assign heap rhs).2.1.m_data = .shortdata a.address ∧
        (a.move_assign heap rhs).2.1.m_shortdata = rhs.m_shortdata ∧
        (a.move_assign heap rhs).2.2 = rhs) ∧
      (∀ block, rhs.m_data = .heap block →
        (a.move_assign heap rhs).2.1.m_data = .heap block ∧
        (a.move_assign heap rhs).2.2.m_data = .shortdata rhs.address) ∧
      (∀ block, ¬ ((a.move_assign heap rhs).2.1.m_data = .heap block ∧
          (a.move_assign heap rhs).2.2.m_data = .heap block))) ∧
    a.move_assign heap a = (heap, a, a) := by
  refine ⟨?_, ?_, ?_⟩
  · rcases hrhs with hr | ⟨blockr, hr⟩ <;>
      simp [shortvector.move_construct, shortvector.elements, hr]
  · rcases ha with ha | ⟨blocka, ha⟩ <;> rcases hrhs with hr | ⟨blockr, hr⟩
    · simp [shortvector.move_assign, shortvector.elements, ha, hr, hne]
    · simp [shortvector.move_assign, shortvector.elements, ha, hr, hne]
    · simp [shortvector.move_assign, shortvector.elements, ha, hr, hne]
    · have hbl : blockr ≠ blocka := by
        intro h
        apply hblocks blocka ha
        rw [hr, h]
      simp [shortvector.move_assign, shortvector.elements, shortvector.delete_array, ha, hr,
        hne, hbl]
  · simp [shortvector.move_assign]

/-- Witness of C27: the heap-backed example vector moved into a new object at address 3000 and
move-assigned to the inline example vector. -/
theorem shortvector_move_spec_witness :
    example_inline_shortvector.address ≠ example_heap_shortvector.address ∧
    example_inline_shortvector.owns_data ∧ example_heap_shortvector.owns_data ∧
    (∀ block, example_inline_shortvector.m_data = .heap block →
      example_heap_shortvector.m_data ≠ .heap block) ∧
    (example_inline_shortvector.move_assign example_shortvector_heap
      example_heap_shortvector).2.1.elements
        (example_inline_shortvector.move_assign example_shortvector_heap
          example_heap_shortvector).1 = some [4, 5, 6, 7, 8] ∧
    (shortvector.move_construct 3000 [] example_heap_shortvector).1.elements
        example_shortvector_heap = example_heap_shortvector.elements example_shortvector_heap :=
  ⟨by decide, Or.inl rfl, Or.inr ⟨7, rfl⟩, fun block h => by simp [example_inline_shortvector] at h,
    rfl,
    (shortvector_move_spec example_shortvector_heap example_inline_shortvector
      example_heap_shortvector 3000 [] (by decide) (Or.inl rfl) (Or.inr ⟨7, rfl⟩)
      (fun block h => by simp [example_inline_shortvector] at h)).1.1⟩

/-! ## First calls of the inner frames -/

/-- For a source stride that is not zero, the broadcast-inner `single_first` of a reduction
without identity is the call of the destination-initialisation child alone, whatever the
accumulation child is. -/
theorem broadcast_inner_single_first_nonzero_stride {α : Type} (src_size dst_stride : Int)
    (src_stride : Int) (init_child reduction_child : kernel_strided_t α)
    (h : src_stride ≠ 0) (dst src : Int) (m : Mem α) :
    (reduction_kernel_fixed_dim_true_true.instantiate_frame src_size dst_stride src_stride none
        init_child reduction_child).single_first dst src m
      = init_child dst dst_stride src src_stride (to_size_t src_size) m := by
  simp only [reduction_kernel_fixed_dim_true_true.single_first,
    reduction_kernel_fixed_dim_true_true.instantiate_frame, if_neg h]

/-- C28 (the code at a source row of stride 0, sum, no identity): the frame built by
`instantiate` has `src_stride_first = src_stride = 0`, and `single_first` takes
`src_stride_first == 0` for the sign of a reduction with identity: after the
destination-initialisation child has copied the source element 1 into the two cells of the
destination row, the accumulation child is invoked and adds the source element once more, so
both cells end as 2 instead of 1. -/
theorem broadcast_inner_single_first_zero_stride_values :
    (reduction_kernel_fixed_dim_true_true.instantiate_frame 2 1 0 (none : Option Int)
      copy_init_strided (accumulate_strided (fun a b : Int => a + b))).src_stride_first = 0 ∧
    example_array 0 = 1 ∧
    (reduction_kernel_fixed_dim_true_true.instantiate_frame 2 1 0 none
      copy_init_strided (accumulate_strided (fun a b : Int => a + b))).single_first
        100 0 example_array 100 = 2 ∧
    (reduction_kernel_fixed_dim_true_true.instantiate_frame 2 1 0 none
      copy_init_strided (accumulate_strided (fun a b : Int => a + b))).single_first
        100 0 example_array 101 = 2 ∧
    (reduction_kernel_fixed_dim_true_true.instantiate_frame 2 1 0 none
      copy_init_strided (fun _ _ _ _ _ m => m)).single_first
        100 0 example_array 100 = 1 := by
  refine ⟨rfl, ?_, ?_, ?_, ?_⟩ <;> decide

/-- C29 (the code at `[[1,2],[3,4],[5,6]]`, sum, identity 0, `dst_stride = 0`): the
broadcast-inner `strided_first` initialises the destination row and then runs the accumulation
child `count - 1` times, from the first source row on, so the last source row is never
accumulated: for `count = 3` the row ends as `[4, 6]` instead of `[9, 12]`, and for `count = 1`
as `[0, 0]` instead of `[1, 2]`. -/
theorem broadcast_inner_strided_first_zero_stride_values :
    (reduction_kernel_fixed_dim_true_true.instantiate_frame 2 1 1 (some 0)
      (identity_init_strided 0) (accumulate_strided (fun a b : Int => a + b))).strided_first
        100 0 0 2 3 example_array 100 = 4 ∧
    (reduction_kernel_fixed_dim_true_true.instantiate_frame 2 1 1 (some 0)
      (identity_init_strided 0) (accumulate_strided (fun a b : Int => a + b))).strided_first
        100 0 0 2 3 example_array 101 = 6 ∧
    (reduction_kernel_fixed_dim_true_true.instantiate_frame 2 1 1 (some 0)
      (identity_init_strided 0) (accumulate_strided (fun a b : Int => a + b))).strided_first
        100 0 0 2 1 example_array 100 = 0 ∧
    (reduction_kernel_fixed_dim_true_true.instantiate_frame 2 1 1 (some 0)
      (identity_init_strided 0) (accumulate_strided (fun a b : Int => a + b))).strided_first
        100 0 0 2 1 example_array 101 = 0 ∧
    (reduction_kernel_fixed_dim_true_true.instantiate_frame 2 1 1 (some 0)
      (identity_init_strided 0) (accumulate_strided (fun a b : Int => a + b))).single_first
        100 0 example_array 100 = 1 := by
  refine ⟨?_, ?_, ?_, ?_, ?_⟩ <;> decide

/-- C30 (the code at `[[1,2],[3,4],[5,6]]`, sum, `dst_stride = 0`, `count = 3`): after the
first row has been reduced, the loop of the reduce-inner `strided_first` starts at the same
source pointer, so the first row is accumulated twice and the last row never: with identity 0
the result is `(1+2) + (1+2) + (3+4) = 13` instead of 21, and with `count = 2` it is 6 instead
of 10.  Without identity the loop moreover keeps the offset `src_stride_first` and the count
`size_first`, and the result is `1 + 2 + 2 + 4 = 9`.  With `count = 1` the row is reduced
once, to 3. -/
theorem reduce_inner_strided_first_zero_stride_values :
    (reduction_kernel_fixed_dim_false_true.instantiate_frame 2 1 (some 0)
      (identity_init_single 0) (accumulate_strided (fun a b : Int => a + b))).strided_first
        100 0 0 2 3 example_array 100 = 13 ∧
    (reduction_kernel_fixed_dim_false_true.instantiate_frame 2 1 (some 0)
      (identity_init_single 0) (accumulate_strided (fun a b : Int => a + b))).strided_first
        100 0 0 2 2 example_array 100 = 6 ∧
    (reduction_kernel_fixed_dim_false_true.instantiate_frame 2 1 none
      copy_init_single (accumulate_strided (fun a b : Int => a + b))).strided_first
        100 0 0 2 3 example_array 100 = 9 ∧
    (reduction_kernel_fixed_dim_false_true.instantiate_frame 2 1 (some 0)
      (identity_init_single 0) (accumulate_strided (fun a b : Int => a + b))).strided_first
        100 0 0 2 1 example_array 100 = 3 := by
  refine ⟨?_, ?_, ?_, ?_⟩ <;> decide

/-! ## First calls of the outer frames -/

theorem strided_loop_foldl {α : Type} (body : Int → Int → Mem α → Mem α) (ds ss : Int) :
    ∀ (count : Nat) (dst src : Int) (m : Mem α),
      strided_loop body dst ds src ss count m
        = (List.range count).foldl
            (fun m (i : Nat) => body (dst + i * ds) (src + i * ss) m) m := by
  intro count
  induction count with
  | zero => intro dst src m; rfl
  | succ k ih =>
    intro dst src m
    rw [strided_loop, ih, List.range_succ_eq_map, List.foldl_cons, List.foldl_map]
    simp only [Nat.cast_zero, zero_mul, add_zero]
    congr 1
    funext m1 i
    rw [addr_succ, addr_succ]

theorem size_t_dec_pos (count : Nat) (h1 : 1 ≤ count) (h2 : count < 2 ^ 64) :
    size_t_dec count = count - 1 := by
  unfold size_t_dec
  norm_num at h2 ⊢
  omega

/-- C31: reduce-outer `strided_first` on `count ≥ 1` rows of `size ≥ 1` sub-elements each, for
any child.  With `dst_stride = 0` the child's `single_first` is invoked once, on the first
sub-element of the first row, then its `strided_followup` on the same `dst` over the remaining
`size - 1` sub-elements of that row (if there are any) and, row by row, over the `size`
sub-elements of each later row.  With `dst_stride ≠ 0`, for each row `i` in turn the child's
`single_first` runs on `dst + i * dst_stride` with the first sub-element of the row, followed by
its `strided_followup` over the remaining `size - 1` sub-elements of the row (if there are
any). -/
theorem reduce_outer_strided_first_calls {α : Type} (child : reduction_kernel_prefix α)
    (size count : Nat) (element_stride dst dst_stride src row_stride : Int) (m : Mem α)
    (hsize : 1 ≤ size) (hsize1 : (size : Int) < 2 ^ 63) (hcount : 1 ≤ count)
    (hcount1 : count < 2 ^ 64) :
    (reduction_kernel_fixed_dim_false_false.instantiate_frame size element_stride
        child).strided_first dst 0 src row_stride count m
      = (List.range (count - 1)).foldl
          (fun m (i : Nat) =>
            child.strided_followup dst 0 (src + ((i + 1 : Nat) : Int) * row_stride)
              element_stride size m)
          (if 1 < size then
            child.strided_followup dst 0 (src + element_stride) element_stride (size - 1)
              (child.single_first dst src m)
          else child.single_first dst src m) ∧
    (dst_stride ≠ 0 →
      (reduction_kernel_fixed_dim_false_false.instantiate_frame size element_stride
          child).strided_first dst dst_stride src row_stride count m
        = (List.range count).foldl
            (fun m (i : Nat) =>
              if 1 < size then
                child.strided_followup (dst + i * dst_stride) 0
                  (src + i * row_stride + element_stride) element_stride (size - 1)
                  (child.single_first (dst + i * dst_stride) (src + i * row_stride) m)
              else child.single_first (dst + i * dst_stride) (src + i * row_stride) m)
            m) := by
  have hs1 : to_size_t ((size : Int) - 1) = size - 1 := by
    have : ((size : Int) - 1) = ((size - 1 : Nat) : Int) := by omega
    rw [this]
    exact to_size_t_natCast _ (by omega)
  have hs : to_size_t (size : Int) = size := to_size_t_natCast _ hsize1
  have hgt : ((size : Int) > 1) ↔ 1 < size := by omega
  constructor
  · simp only [reduction_kernel_fixed_dim_false_false.strided_first,
      reduction_kernel_fixed_dim_false_false.instantiate_frame, if_true, hs1, hs,
      size_t_dec_pos count hcount hcount1, strided_loop_foldl, mul_zero, add_zero, addr_succ]
    by_cases h : 1 < size
    · rw [if_pos h, if_pos (hgt.mpr h)]
    · rw [if_neg h, if_neg (fun h' => h (hgt.mp h'))]
  · intro hds
    simp only [reduction_kernel_fixed_dim_false_false.strided_first,
      reduction_kernel_fixed_dim_false_false.instantiate_frame, if_neg hds, hs1,
      strided_loop_foldl]
    by_cases h : 1 < size
    · simp only [if_pos h, if_pos (hgt.mpr h)]
    · simp only [if_neg h, if_neg (fun h' => h (hgt.mp h'))]

/-- C35: for the fixed-dim reduce-outer, the fixed-dim reduce-inner and the broadcast-outer
frame, with any children, `strided_first` called with `count = 1` is `single_first` on the same
`dst` and `src`, for every `dst_stride` (zero or not) and every source stride: the same child
calls with the same arguments. -/
theorem strided_first_count_one {α : Type}
    (outer : reduction_kernel_fixed_dim_false_false α)
    (inner : reduction_kernel_fixed_dim_false_true α)
    (broadcast : reduction_kernel_fixed_dim_true_false α)
    (dst dst_stride src src_stride : Int) (m : Mem α) :
    outer.strided_first dst dst_stride src src_stride 1 m = outer.single_first dst src m ∧
    inner.strided_first dst dst_stride src src_stride 1 m = inner.single_first dst src m ∧
    broadcast.strided_first dst dst_stride src src_stride 1 m
      = broadcast.single_first dst src m := by
  have h1 : size_t_dec 1 = 0 := by decide
  have h2 : (to_intptr_t 1 - 1).toNat = 0 := by decide
  refine ⟨?_, ?_, ?_⟩
  · unfold reduction_kernel_fixed_dim_false_false.strided_first
      reduction_kernel_fixed_dim_false_false.single_first
    by_cases h : dst_stride = 0
    · simp only [if_pos h, h1, strided_loop]
    · simp only [if_neg h, strided_loop]
  · unfold reduction_kernel_fixed_dim_false_true.strided_first
      reduction_kernel_fixed_dim_false_true.single_first
    by_cases h : dst_stride = 0
    · simp only [if_pos h, h1, strided_loop]
    · simp only [if_neg h, strided_loop]
  · unfold reduction_kernel_fixed_dim_true_false.strided_first
      reduction_kernel_fixed_dim_true_false.single_first
    by_cases h : dst_stride = 0
    · simp only [if_pos h, h2, strided_loop]
    · simp only [if_neg h, strided_loop]

/-- Witness of C31: the reduce-outer frame over three sub-elements (stride 2) with the
reduce-inner frame of a sum with identity 0 as its child, called on two rows (stride 6). -/
theorem reduce_outer_strided_first_calls_witness :
    1 ≤ 3 ∧ ((3 : Nat) : Int) < 2 ^ 63 ∧ 1 ≤ 2 ∧ 2 < 2 ^ 64 ∧
    (reduction_kernel_fixed_dim_false_false.instantiate_frame (3 : Nat) 2
        (reduction_kernel_fixed_dim_false_true.instantiate_frame 2 1 (some (0 : Int))
          (identity_init_single 0)
          (accumulate_strided (fun a b => a + b))).to_reduction_child).strided_first
        100 0 0 6 2 example_array
      = (List.range (2 - 1)).foldl
          (fun m (i : Nat) =>
            (reduction_kernel_fixed_dim_false_true.instantiate_frame 2 1 (some (0 : Int))
              (identity_init_single 0)
              (accumulate_strided (fun a b => a + b))).to_reduction_child.strided_followup
              100 0 (0 + ((i + 1 : Nat) : Int) * 6) 2 3 m)
          (if 1 < 3 then
            (reduction_kernel_fixed_dim_false_true.instantiate_frame 2 1 (some (0 : Int))
              (identity_init_single 0)
              (accumulate_strided (fun a b => a + b))).to_reduction_child.strided_followup
              100 0 (0 + 2) 2 (3 - 1)
              ((reduction_kernel_fixed_dim_false_true.instantiate_frame 2 1 (some (0 : Int))
                (identity_init_single 0)
                (accumulate_strided (fun a b => a + b))).to_reduction_child.single_first
                100 0 example_array)
          else
            (reduction_kernel_fixed_dim_false_true.instantiate_frame 2 1 (some (0 : Int))
              (identity_init_single 0)
              (accumulate_strided (fun a b => a + b))).to_reduction_child.single_first
              100 0 example_array) :=
  ⟨by decide, by decide, by decide, by decide,
    (reduce_outer_strided_first_calls
      (reduction_kernel_fixed_dim_false_true.instantiate_frame 2 1 (some (0 : Int))
        (identity_init_single 0) (accumulate_strided (fun a b => a + b))).to_reduction_child
      3 2 2 100 1 0 6 example_array (by decide) (by decide) (by decide) (by decide)).1⟩

/-! ## The record handed on by `instantiate` -/

/-- C32 (the code): what each `instantiate` does to the record before it builds its child, for
every `self`: the result is the same when `self` is given the record written here in place of
the one it is called with.  The fixed-dim reduce-outer and reduce-inner frames decrement `ndim`
and `naxis` and advance `axes`; the two broadcast frames decrement `ndim` only; the var_dim
reduce-inner frame decrements `ndim` and `naxis` and does not advance `axes`: for the record
of a reduction over axis 0 of a one-dimensional var_dim array, the child is handed `axes` still
at the entry 0. -/
theorem instantiate_child_record {α : Type} (data : reduction_data_type α)
    (dst_tp src_tp : ndt_type) (kernreq : kernel_request_t) :
    (∀ self, reduction_kernel_fixed_dim_false_false.instantiate self data dst_tp src_tp kernreq
      = reduction_kernel_fixed_dim_false_false.instantiate
          (fun _ dst_tp src_tp kernreq =>
            self { identity := data.identity, ndim := data.ndim - 1, naxis := data.naxis - 1,
                   axes := data.axes.map List.tail, keepdims := data.keepdims,
                   stored_ndim := data.stored_ndim } dst_tp src_tp kernreq)
          data dst_tp src_tp kernreq) ∧
    (∀ self, reduction_kernel_fixed_dim_false_true.instantiate self data dst_tp src_tp kernreq
      = reduction_kernel_fixed_dim_false_true.instantiate
          (fun _ dst_tp src_tp kernreq =>
            self { identity := data.identity, ndim := data.ndim - 1, naxis := data.naxis - 1,
                   axes := data.axes.map List.tail, keepdims := data.keepdims,
                   stored_ndim := data.stored_ndim } dst_tp src_tp kernreq)
          data dst_tp src_tp kernreq) ∧
    (∀ self, reduction_kernel_var_dim_false_true.instantiate self data dst_tp src_tp kernreq
      = reduction_kernel_var_dim_false_true.instantiate
          (fun _ dst_tp src_tp kernreq =>
            self { identity := data.identity, ndim := data.ndim - 1, naxis := data.naxis - 1,
                   axes := data.axes, keepdims := data.keepdims,
                   stored_ndim := data.stored_ndim } dst_tp src_tp kernreq)
          data dst_tp src_tp kernreq) ∧
    (∀ self, reduction_kernel_fixed_dim_true_false.instantiate self data dst_tp src_tp kernreq
      = reduction_kernel_fixed_dim_true_false.instantiate
          (fun _ dst_tp src_tp kernreq =>
            self { identity := data.identity, ndim := data.ndim - 1, naxis := data.naxis,
                   axes := data.axes, keepdims := data.keepdims,
                   stored_ndim := data.stored_ndim } dst_tp src_tp kernreq)
          data dst_tp src_tp kernreq) ∧
    (∀ self, reduction_kernel_fixed_dim_true_true.instantiate self data dst_tp src_tp kernreq
      = reduction_kernel_fixed_dim_true_true.instantiate
          (fun _ dst_tp src_tp kernreq =>
            self { identity := data.identity, ndim := data.ndim - 1, naxis := data.naxis,
                   axes := data.axes, keepdims := data.keepdims,
                   stored_ndim := data.stored_ndim } dst_tp src_tp kernreq)
          data dst_tp src_tp kernreq) ∧
    (reduction_kernel_var_dim_false_true.instantiate
        (fun data _ _ _ =>
          if data.axes = some [0] then .error "axes has not been advanced"
          else .ok (identity_init_single (0 : Int), accumulate_strided (fun a b => a + b)))
        { identity := some 0, ndim := 1, naxis := 1, axes := some [0], keepdims := false,
          stored_ndim := 1 }
        .scalar (.var_dim 1 .scalar) .kernel_request_single).toOption.isNone = true ∧
    (reduction_kernel_fixed_dim_false_true.instantiate
        (fun data _ _ _ =>
          if data.axes = some [0] then .error "axes has not been advanced"
          else .ok (identity_init_single (0 : Int), accumulate_strided (fun a b => a + b)))
        { identity := some 0, ndim := 1, naxis := 1, axes := some [0], keepdims := false,
          stored_ndim := 1 }
        .scalar (.fixed_dim 3 1 .scalar) .kernel_request_single).toOption.isSome = true := by
  refine ⟨fun _ => rfl, fun _ => rfl, fun _ => rfl, fun _ => rfl, fun _ => rfl, rfl, rfl⟩

/-! ## Interrupted builds -/

/-- The destructor of an inner frame whose `init_offset` is zero destroys `get_child(0)`, the
frame itself, and so never returns. -/
theorem destroy_frame_init_offset_zero (sizes : frame_sizes)
    (buffer : Nat → Option kernel_frame) (id : inner_kernel_id) (offset : Nat)
    (h : buffer offset = some (.inner id 0)) :
    ∀ fuel, destroy_frame sizes buffer fuel offset = none := by
  have hself : kernel_prefix.get_child offset (aligned_size 0) = offset := by
    simp [ kernel_prefix.get_child, aligned_size]
  intro fuel
  induction fuel with
  | zero =>
    simp only [destroy_frame, h, Option.map, kernel_prefix.destroy, reduction_kernel.destruct]
  | succ fuel ih =>
    simp only [destroy_frame, h, Option.map, kernel_prefix.destroy] at ih ⊢
    cases id <;>
      simp only [reduction_kernel.destruct, hself, h, Option.map, kernel_prefix.destroy, ih] <;>
      split <;> simp_all

/-- C33 (the code at a build interrupted in the child's `instantiate`): an inner frame of any
of the three types lies at offset 0 of the zero-filled buffer and its init offset has not been
recorded, so it is zero.  Destroying the buffer calls the frame's destructor, which destroys
`get_child()` and `get_child(0)`; the latter is the frame itself, whose destructor is set, so
the destruction never comes to an end, whether the accumulation kernel had already been
appended or not: with every fuel the walk of the destructors is still running. -/
theorem destroy_interrupted_inner_frame :
    ∀ (id : inner_kernel_id) (accumulation_child : Bool) (fuel : Nat),
      kernel_prefix.get_child 0 (aligned_size 0) = 0 ∧
      destroy_frame example_frame_sizes (interrupted_kernel_buffer id accumulation_child)
        fuel 0 = none := by
  intro id accumulation_child fuel
  exact ⟨rfl, destroy_frame_init_offset_zero example_frame_sizes _ id 0 rfl fuel⟩

/-! ## The broadcast predicate -/

/-- C34: when `axes` is not null and lists the `naxis` remaining reduction axes in strictly
ascending order, all of them at least the current axis `stored_ndim - ndim`, `is_broadcast()`
is true if and only if the current axis is not one of the remaining reduction axes; with
`naxis = 0` the result is true whatever lies behind the pointer, `axes[0]` not being read.  When
`axes` is null, `is_broadcast()` is false. -/
theorem is_broadcast_current_axis {α : Type} (data : reduction_data_type α) (axes : List Int)
    (hlen : (axes.length : Int) = data.naxis) (hpair : axes.Pairwise (fun a b => a < b))
    (hrange : ∀ axis ∈ axes, data.stored_ndim - data.ndim ≤ axis) :
    (data.axes = some axes →
      (data.is_broadcast = some true ↔ data.stored_ndim - data.ndim ∉ axes) ∧
      (data.is_broadcast = some false ↔ data.stored_ndim - data.ndim ∈ axes)) ∧
    (∀ behind : List Int,
      ({ data with naxis := 0, axes := some behind } : reduction_data_type α).is_broadcast
        = some true) ∧
    ({ data with axes := none } : reduction_data_type α).is_broadcast = some false := by
  refine ⟨fun h => ?_, fun behind => ?_, rfl⟩
  · unfold reduction_data_type.is_broadcast
    rw [h]
    by_cases h0 : data.naxis = 0
    · have : axes = [] := by
        apply List.eq_nil_of_length_eq_zero
        omega
      subst this
      simp [h0]
    · cases axes with
      | nil =>
        simp only [List.length_nil, Nat.cast_zero] at hlen
        exact absurd hlen.symm h0
      | cons axis rest =>
        rw [List.pairwise_cons] at hpair
        have hmem : data.stored_ndim - data.ndim ∈ axis :: rest ↔
            data.stored_ndim - axis = data.ndim := by
          constructor
          · intro hmem
            rcases List.mem_cons.mp hmem with heq | hin
            · omega
            · have h1 := hpair.1 _ hin
              have h2 := hrange axis (List.mem_cons_self _ _)
              omega
          · intro heq
            have : data.stored_ndim - data.ndim = axis := by omega
            rw [this]
            exact List.mem_cons_self _ _
        simp [h0, hmem]
  · simp [reduction_data_type.is_broadcast]

/-- Witness of C34: the record of a reduction over the axes 0 and 2 of a three-dimensional
array at its second step, where the current axis 1 is not a reduction axis. -/
theorem is_broadcast_current_axis_witness :
    (([2] : List Int).length : Int) = example_reduction_data_second.naxis ∧
    ([2] : List Int).Pairwise (fun a b => a < b) ∧
    (∀ axis ∈ ([2] : List Int),
      example_reduction_data_second.stored_ndim - example_reduction_data_second.ndim ≤ axis) ∧
    example_reduction_data_second.axes = some [2] ∧
    (example_reduction_data_second.is_broadcast = some true ↔
      example_reduction_data_second.stored_ndim - example_reduction_data_second.ndim
        ∉ ([2] : List Int)) :=
  ⟨rfl, by decide, by decide, rfl,
    ((is_broadcast_current_axis example_reduction_data_second [2] rfl (by decide)
      (by decide)).1 rfl).1⟩

/-! ## The function pointers set by `base_reduction_kernel::init` -/

/-- C38: `base_reduction_kernel::init` fails with a runtime error if and only if the kernel
request is none of call, single and strided.  Otherwise it installs as `first_call` the wrapper
matching the request: for call the wrapper of `call`, which runs `single_first` on the data
pointers of the arrays, for single that of `single_first`, for strided that of `strided_first`;
and for each of these requests it installs the wrapper of `strided_followup` as
`followup_call`. -/
theorem base_reduction_kernel_init_spec {α : Type} (self : reduction_kernel_prefix α) :
    (∀ kernreq, (∃ message, base_reduction_kernel.init_functions kernreq = .error message) ↔
      kernreq ≠ .kernel_request_call ∧ kernreq ≠ .kernel_request_single ∧
        kernreq ≠ .kernel_request_strided) ∧
    (∀ value, base_reduction_kernel.init_functions (.unrecognized value)
      = .error ("make_lifted_reduction_ckernel: unrecognized request " ++ toString value)) ∧
    base_reduction_kernel.init_functions .kernel_request_call
      = .ok { first_call := .call_wrapper, followup_call := .strided_followup_wrapper } ∧
    base_reduction_kernel.init_functions .kernel_request_single
      = .ok { first_call := .single_first_wrapper,
              followup_call := .strided_followup_wrapper } ∧
    base_reduction_kernel.init_functions .kernel_request_strided
      = .ok { first_call := .strided_first_wrapper,
              followup_call := .strided_followup_wrapper } ∧
    first_call_t.function self .call_wrapper
      = .call (fun dst src0 => self.single_first dst.cdata src0.cdata) ∧
    first_call_t.function self .single_first_wrapper = .single self.single_first ∧
    first_call_t.function self .strided_first_wrapper = .strided self.strided_first ∧
    followup_call_t.function self .strided_followup_wrapper = self.strided_followup := by
  refine ⟨fun kernreq => ?_, fun _ => rfl, rfl, rfl, rfl, rfl, rfl, rfl, rfl⟩
  cases kernreq <;>
    simp [base_reduction_kernel.init_functions, base_reduction_kernel.init]

/-! ## The assignment kernel factory: default error mode and delegation -/

/-- C36: for two builtin scalar types (type ids within the table),
`make_assignment_kernel` called with `assign_error_default` and a null evaluation context fails
if and only if the two types differ and the assignment is not lossless.  For identical builtin
types it returns the POD copy frame of `make_pod_dtype_assignment_kernel` for every error mode,
default included, and every evaluation context. -/
theorem make_assignment_kernel_default {E : Type} (ts : dtype_system E)
    (offset_out dst_type_id src_type_id : Nat) (dst_metadata src_metadata : Int)
    (hdst : ts.bool_type_id ≤ dst_type_id ∧ dst_type_id ≤ ts.complex_float64_type_id)
    (hsrc : ts.bool_type_id ≤ src_type_id ∧ src_type_id ≤ ts.complex_float64_type_id) :
    ((∃ message,
        make_assignment_kernel ts offset_out (.builtin dst_type_id) dst_metadata
          (.builtin src_type_id) src_metadata .assign_error_default none = .error message) ↔
      dst_type_id ≠ src_type_id ∧
        ts.is_lossless_assignment (.builtin dst_type_id) (.builtin src_type_id) = false) ∧
    (∀ errmode ectx,
      make_assignment_kernel ts offset_out (.builtin dst_type_id) dst_metadata
          (.builtin dst_type_id) src_metadata errmode ectx
        = .ok (make_pod_dtype_assignment_kernel ts offset_out (ts.get_data_size dst_type_id)
            (ts.get_alignment dst_type_id))) := by
  constructor
  · by_cases heq : dst_type_id = src_type_id
    · subst heq
      simp [make_assignment_kernel]
    · cases hl : ts.is_lossless_assignment (.builtin dst_type_id) (.builtin src_type_id) with
      | true =>
        rw [make_assignment_kernel_lossless_eq ts offset_out dst_type_id src_type_id
          dst_metadata src_metadata .assign_error_default none heq hl]
        have hd12 : dst_type_id - ts.bool_type_id ≤ 12 := by
          have := hdst.2
          simp only [dtype_system.complex_float64_type_id] at this
          omega
        have hs12 : src_type_id - ts.bool_type_id ≤ 12 := by
          have := hsrc.2
          simp only [dtype_system.complex_float64_type_id] at this
          omega
        obtain ⟨d, hd⟩ := builtin_types_getElem _ hd12
        obtain ⟨t, ht⟩ := builtin_types_getElem _ hs12
        have hcond : dst_type_id ≥ ts.bool_type_id ∧ dst_type_id ≤ ts.complex_float64_type_id ∧
            src_type_id ≥ ts.bool_type_id ∧ src_type_id ≤ ts.complex_float64_type_id ∧
            assign_error_mode.assign_error_none ≠ .assign_error_default :=
          ⟨hdst.1, hdst.2, hsrc.1, hsrc.2, by decide⟩
        simp [make_builtin_dtype_assignment_function, hcond, assign_table_single_kernel, hd, ht,
          assign_error_mode.toNat, table_error_modes, heq]
      | false =>
        simp [make_assignment_kernel, heq, hl, make_builtin_dtype_assignment_function]
  · intro errmode ectx
    simp [make_assignment_kernel]

/-- Witness of C36: `int32` (type id 4) from `int16` (type id 3) in the example dtype system,
where every assignment counts as lossless. -/
theorem make_assignment_kernel_default_witness :
    (example_dtype_system.bool_type_id ≤ 4 ∧ 4 ≤ example_dtype_system.complex_float64_type_id) ∧
    (example_dtype_system.bool_type_id ≤ 3 ∧ 3 ≤ example_dtype_system.complex_float64_type_id) ∧
    ((∃ message,
        make_assignment_kernel example_dtype_system 0 (.builtin 4) 0 (.builtin 3) 0
          .assign_error_default none = .error message) ↔
      (4 : Nat) ≠ 3 ∧
        example_dtype_system.is_lossless_assignment (.builtin 4) (.builtin 3) = false) :=
  ⟨by decide, by decide,
    (make_assignment_kernel_default example_dtype_system 0 4 3 0 0 (by decide) (by decide)).1⟩

/-- C37: when the destination type is not builtin, `make_assignment_kernel` returns what the
`make_assignment_kernel` of the destination type returns for the same offset, types and
metadata, whether the source type is builtin or not; when the destination type is builtin and
the source type is not, what that of the source type returns.  The error mode passed on is the
one of the caller, with `assign_error_default` replaced by the default of the evaluation
context when a context is given; the lossless downgrade is not applied, and the context is
passed on as it is. -/
theorem make_assignment_kernel_delegates {E : Type} (ts : dtype_system E) (offset_out : Nat)
    (dst_metadata src_metadata : Int) (errmode : assign_error_mode)
    (ectx : Option eval_context) :
    (∀ (dst_descriptor : E) (src_dt : dtype E),
      make_assignment_kernel ts offset_out (.extended dst_descriptor) dst_metadata src_dt
          src_metadata errmode ectx
        = ts.extended_make_assignment_kernel dst_descriptor offset_out
            (.extended dst_descriptor) dst_metadata src_dt src_metadata
            (match ectx with
              | some ctx =>
                if errmode = .assign_error_default then ctx.default_assign_error_mode
                else errmode
              | none => errmode)
            ectx) ∧
    (∀ (dst_type_id : Nat) (src_descriptor : E),
      make_assignment_kernel ts offset_out (.builtin dst_type_id) dst_metadata
          (.extended src_descriptor) src_metadata errmode ectx
        = ts.extended_make_assignment_kernel src_descriptor offset_out
            (.builtin dst_type_id) dst_metadata (.extended src_descriptor) src_metadata
            (match ectx with
              | some ctx =>
                if errmode = .assign_error_default then ctx.default_assign_error_mode
                else errmode
              | none => errmode)
            ectx) := by
  constructor
  · intro dst_descriptor src_dt
    rfl
  · intro dst_type_id src_descriptor
    rfl

/-! ## The bytes written by `make_pod_dtype_assignment_kernel` -/

theorem ensure_capacity_leaf_success_capacity (abi : ckernel_prefix_abi)
    (alloc : Option (Nat → Fin 256)) (ckb : ckernel_builder) (n : Int)
    (h : (ckb.ensure_capacity_leaf abi alloc n).1 = none) :
    n ≤ (ckb.ensure_capacity_leaf abi alloc n).2.1.m_capacity := by
  unfold ckernel_builder.ensure_capacity_leaf at h ⊢
  by_cases hn : n ≤ ckb.m_capacity
  · rw [ensure_capacity_leaf_no_growth abi alloc ckb n hn]
    simpa using hn
  · have hlt : ckb.m_capacity < n := not_le.mp hn
    cases alloc with
    | none =>
      rw [ensure_capacity_leaf_failure abi ckb n hlt] at h
      simp at h
    | some garbage =>
      obtain ⟨block, e, _⟩ := ensure_capacity_leaf_growth abi garbage ckb n hlt
      rw [e]
      simp only [show ¬ ((0 : Int) < 0) from by decide, if_false]
      split <;> omega

/-- The member `ensure_capacity` of the buffer of the assignment kernel factories is that of
`ckernel_builder` whenever the sum `n + sizeof(ckernel_prefix)` is an `intptr_t` value. -/
theorem hierarchical_kernel_ensure_capacity_eq (abi : ckernel_prefix_abi)
    (alloc : Option (Nat → Fin 256)) (out : ckernel_builder) (n : Int)
    (h0 : -2 ^ 63 ≤ n + abi.prefix_size) (h1 : n + abi.prefix_size < 2 ^ 63) :
    hierarchical_kernel.ensure_capacity abi alloc out n = out.ensure_capacity abi alloc n := by
  unfold hierarchical_kernel.ensure_capacity ckernel_builder.ensure_capacity
  rw [to_intptr_t_sum n abi.prefix_size h0 h1]

theorem make_pod_dtype_assignment_kernel_cases {E : Type} (ts : dtype_system E)
    (offset_out data_size data_alignment : Nat) :
    ((data_size = data_alignment ∧ (data_size = 1 ∨ data_size = 2 ∨ data_size = 4 ∨
          data_size = 8)) ∨
        (data_size ≠ data_alignment ∧ (data_size = 2 ∨ data_size = 4 ∨ data_size = 8)) →
      (make_pod_dtype_assignment_kernel ts offset_out data_size data_alignment).offset
        = offset_out + ts.sizeof_hierarchical_kernel_common_base ∧
      (make_pod_dtype_assignment_kernel ts offset_out data_size data_alignment).data_size
        = none ∧
      (make_pod_dtype_assignment_kernel ts offset_out data_size data_alignment).ensure_capacity
        = none) ∧
    (¬ ((data_size = data_alignment ∧ (data_size = 1 ∨ data_size = 2 ∨ data_size = 4 ∨
          data_size = 8)) ∨
        (data_size ≠ data_alignment ∧ (data_size = 2 ∨ data_size = 4 ∨ data_size = 8))) →
      (make_pod_dtype_assignment_kernel ts offset_out data_size data_alignment).offset
        = offset_out + ts.sizeof_unaligned_copy_single_kernel_extra ∧
      (make_pod_dtype_assignment_kernel ts offset_out data_size data_alignment).data_size
        = some data_size ∧
      (make_pod_dtype_assignment_kernel ts offset_out data_size data_alignment).ensure_capacity
        = some (offset_out + ts.sizeof_unaligned_copy_single_kernel_extra
            - ts.sizeof_hierarchical_kernel_common_base)) := by
  unfold make_pod_dtype_assignment_kernel
  constructor
  · intro h
    split
    · split <;> simp_all
    · split <;> simp_all
  · intro h
    split
    · split <;> simp_all
    · split <;> simp_all

/-- C39: let the capacity of the buffer be at least `offset_out + sizeof(prefix)` on entry, and
let `make_pod_dtype_assignment_kernel` return (its `ensure_capacity` call not throwing).  Then
every byte it writes lies in `[offset_out, returned offset)`, and the returned offset is at most
the capacity after the call.  The returned offset is `offset_out + sizeof(prefix)` for the
aligned sizes 1, 2, 4, 8 and the unaligned sizes 2, 4, 8, where the buffer is left as it is, and
`offset_out + sizeof(prefix) + sizeof(size_t)` in the generic memcpy case, where
`ensure_capacity` is called first and `data_size` is stored behind the prefix.  The prefix is
`hierarchical_kernel_common_base`, which holds the function pointer, and
`unaligned_copy_single_kernel_extra` is the prefix followed by the `size_t` field. -/
theorem make_pod_dtype_assignment_kernel_within_capacity {E : Type} (ts : dtype_system E)
    (abi : ckernel_prefix_abi) (layout : assignment_frame_layout)
    (alloc : Option (Nat → Fin 256)) (out : ckernel_builder)
    (offset_out data_size data_alignment : Nat)
    (habi : abi.prefix_size = ts.sizeof_hierarchical_kernel_common_base)
    (hfunction : layout.function_offset + layout.sizeof_function_pointer
      ≤ ts.sizeof_hierarchical_kernel_common_base)
    (hdata_size : layout.data_size_offset = ts.sizeof_hierarchical_kernel_common_base)
    (hextra : ts.sizeof_unaligned_copy_single_kernel_extra
      = ts.sizeof_hierarchical_kernel_common_base + layout.sizeof_size_t)
    (hcapacity : ((offset_out + ts.sizeof_hierarchical_kernel_common_base : Nat) : Int)
      ≤ out.m_capacity)
    (hreturns : (make_pod_dtype_assignment_kernel_on ts abi alloc out offset_out data_size
      data_alignment).1 = none) :
    (∀ write ∈ (make_pod_dtype_assignment_kernel_on ts abi alloc out offset_out data_size
        data_alignment).2.2.writes layout offset_out,
      offset_out ≤ write.1 ∧
      write.1 + write.2 ≤ (make_pod_dtype_assignment_kernel_on ts abi alloc out offset_out
        data_size data_alignment).2.2.offset) ∧
    (((make_pod_dtype_assignment_kernel_on ts abi alloc out offset_out data_size
        data_alignment).2.2.offset : Nat) : Int)
      ≤ (make_pod_dtype_assignment_kernel_on ts abi alloc out offset_out data_size
        data_alignment).2.1.m_capacity ∧
    ((data_size = data_alignment ∧ (data_size = 1 ∨ data_size = 2 ∨ data_size = 4 ∨
          data_size = 8)) ∨
        (data_size ≠ data_alignment ∧ (data_size = 2 ∨ data_size = 4 ∨ data_size = 8)) →
      (make_pod_dtype_assignment_kernel_on ts abi alloc out offset_out data_size
        data_alignment).2.2.offset = offset_out + ts.sizeof_hierarchical_kernel_common_base ∧
      (make_pod_dtype_assignment_kernel_on ts abi alloc out offset_out data_size
        data_alignment).2.1 = out) ∧
    (¬ ((data_size = data_alignment ∧ (data_size = 1 ∨ data_size = 2 ∨ data_size = 4 ∨
          data_size = 8)) ∨
        (data_size ≠ data_alignment ∧ (data_size = 2 ∨ data_size = 4 ∨ data_size = 8))) →
      (make_pod_dtype_assignment_kernel_on ts abi alloc out offset_out data_size
        data_alignment).2.2.offset
          = offset_out + ts.sizeof_hierarchical_kernel_common_base + layout.sizeof_size_t ∧
      (make_pod_dtype_assignment_kernel_on ts abi alloc out offset_out data_size
        data_alignment).2.2.data_size = some data_size ∧
      (make_pod_dtype_assignment_kernel_on ts abi alloc out offset_out data_size
        data_alignment).2.1
          = (hierarchical_kernel.ensure_capacity abi alloc out
              ((offset_out + ts.sizeof_unaligned_copy_single_kernel_extra
                - ts.sizeof_hierarchical_kernel_common_base : Nat) : Int)).2.1) := by
  obtain ⟨hsmall, hgeneric⟩ :=
    make_pod_dtype_assignment_kernel_cases ts offset_out data_size data_alignment
  by_cases hcase : (data_size = data_alignment ∧ (data_size = 1 ∨ data_size = 2 ∨
      data_size = 4 ∨ data_size = 8)) ∨
    (data_size ≠ data_alignment ∧ (data_size = 2 ∨ data_size = 4 ∨ data_size = 8))
  · obtain ⟨hoff, hds, hec⟩ := hsmall hcase
    have hon : make_pod_dtype_assignment_kernel_on ts abi alloc out offset_out data_size
        data_alignment
        = (none, out, make_pod_dtype_assignment_kernel ts offset_out data_size
            data_alignment) := by
      unfold make_pod_dtype_assignment_kernel_on
      rw [hec]
    rw [hon]
    refine ⟨?_, ?_, fun _ => ⟨hoff, rfl⟩, fun h => absurd hcase h⟩
    · intro write hw
      simp only [assignment_kernel.writes, hds, List.mem_singleton] at hw
      subst hw
      show offset_out ≤ offset_out + layout.function_offset ∧
        offset_out + layout.function_offset + layout.sizeof_function_pointer
          ≤ (make_pod_dtype_assignment_kernel ts offset_out data_size data_alignment).offset
      rw [hoff]
      omega
    · show (((make_pod_dtype_assignment_kernel ts offset_out data_size data_alignment).offset
        : Nat) : Int) ≤ out.m_capacity
      rw [hoff]
      exact hcapacity
  · obtain ⟨hoff, hds, hec⟩ := hgeneric hcase
    have hon : make_pod_dtype_assignment_kernel_on ts abi alloc out offset_out data_size
        data_alignment
        = ((hierarchical_kernel.ensure_capacity abi alloc out
              ((offset_out + ts.sizeof_unaligned_copy_single_kernel_extra
                - ts.sizeof_hierarchical_kernel_common_base : Nat) : Int)).1,
            (hierarchical_kernel.ensure_capacity abi alloc out
              ((offset_out + ts.sizeof_unaligned_copy_single_kernel_extra
                - ts.sizeof_hierarchical_kernel_common_base : Nat) : Int)).2.1,
            make_pod_dtype_assignment_kernel ts offset_out data_size data_alignment) := by
      unfold make_pod_dtype_assignment_kernel_on
      rw [hec]
    rw [hon] at hreturns ⊢
    have hgrown := ensure_capacity_leaf_success_capacity abi alloc out _ hreturns
    refine ⟨?_, ?_, fun h => absurd h hcase, fun _ => ⟨?_, hds, rfl⟩⟩
    · intro write hw
      simp only [assignment_kernel.writes, hds, List.mem_cons, List.mem_singleton,
        List.not_mem_nil, or_false] at hw
      show offset_out ≤ write.1 ∧ write.1 + write.2
        ≤ (make_pod_dtype_assignment_kernel ts offset_out data_size data_alignment).offset
      rw [hoff]
      rcases hw with hw | hw <;> subst hw <;> simp only <;> omega
    · have hgrown1 : ((offset_out + ts.sizeof_unaligned_copy_single_kernel_extra
            - ts.sizeof_hierarchical_kernel_common_base : Nat) : Int) + (abi.prefix_size : Int)
          ≤ (hierarchical_kernel.ensure_capacity abi alloc out
              ((offset_out + ts.sizeof_unaligned_copy_single_kernel_extra
                - ts.sizeof_hierarchical_kernel_common_base : Nat) : Int)).2.1.m_capacity :=
        hgrown
      have hsum : offset_out + ts.sizeof_unaligned_copy_single_kernel_extra
            - ts.sizeof_hierarchical_kernel_common_base + abi.prefix_size
          = offset_out + ts.sizeof_unaligned_copy_single_kernel_extra := by
        omega
      have hsum1 : ((offset_out + ts.sizeof_unaligned_copy_single_kernel_extra
            - ts.sizeof_hierarchical_kernel_common_base : Nat) : Int) + (abi.prefix_size : Int)
          = ((offset_out + ts.sizeof_unaligned_copy_single_kernel_extra : Nat) : Int) := by
        exact_mod_cast hsum
      show (((make_pod_dtype_assignment_kernel ts offset_out data_size data_alignment).offset
        : Nat) : Int) ≤ _
      rw [hoff, ← hsum1]
      exact hgrown1
    · show (make_pod_dtype_assignment_kernel ts offset_out data_size data_alignment).offset = _
      rw [hoff]
      omega

/-- Witness of C39: a POD frame for three bytes (the generic case) written at offset 0 of the
constructed builder, with frames of 16 and 24 bytes. -/
theorem make_pod_dtype_assignment_kernel_within_capacity_witness :
    example_abi.prefix_size = example_dtype_system.sizeof_hierarchical_kernel_common_base ∧
    example_frame_layout.function_offset + example_frame_layout.sizeof_function_pointer
      ≤ example_dtype_system.sizeof_hierarchical_kernel_common_base ∧
    example_frame_layout.data_size_offset
      = example_dtype_system.sizeof_hierarchical_kernel_common_base ∧
    example_dtype_system.sizeof_unaligned_copy_single_kernel_extra
      = example_dtype_system.sizeof_hierarchical_kernel_common_base
        + example_frame_layout.sizeof_size_t ∧
    ((0 + example_dtype_system.sizeof_hierarchical_kernel_common_base : Nat) : Int)
      ≤ ckernel_builder.construct.m_capacity ∧
    (make_pod_dtype_assignment_kernel_on example_dtype_system example_abi none
      ckernel_builder.construct 0 3 1).1 = none ∧
    (((make_pod_dtype_assignment_kernel_on example_dtype_system example_abi none
        ckernel_builder.construct 0 3 1).2.2.offset : Nat) : Int)
      ≤ (make_pod_dtype_assignment_kernel_on example_dtype_system example_abi none
        ckernel_builder.construct 0 3 1).2.1.m_capacity :=
  ⟨rfl, by decide, rfl, rfl, by decide, rfl,
    (make_pod_dtype_assignment_kernel_within_capacity example_dtype_system example_abi
      example_frame_layout none ckernel_builder.construct 0 3 1 rfl (by decide) rfl rfl
      (by decide) rfl).2.1⟩

/-! ## The array of short vectors -/

/-- C40 (the code at `init(5)` followed by `init(2)`, with `M = 2` and `staticN = 3`): the
second `init` deletes the block of the first and leaves `m_alloc_data` pointing to it, since
`internal_init` does not touch `m_alloc_data` when `n <= staticN`.  So a non-null pointer is
held although the most recent `n` does not exceed `staticN`, and the destructor deletes the
block a second time; a third `init` would do the same. -/
theorem multi_shortvector_init_twice :
    (multi_shortvector.init 2 3 7 (multi_shortvector.construct []) 5)
      = ({ m_shortvectors := [.alloc_data 7 0, .alloc_data 7 5], m_alloc_data := some 7 },
          [.new_array 7 10]) ∧
    (multi_shortvector.init 2 3 8
        (multi_shortvector.init 2 3 7 (multi_shortvector.construct []) 5).1 2)
      = ({ m_shortvectors := [.static_data 0, .static_data 2], m_alloc_data := some 7 },
          [.delete_array 7]) ∧
    (multi_shortvector.init 2 3 8
        (multi_shortvector.init 2 3 7 (multi_shortvector.construct []) 5).1 2).1.destruct
      = [.delete_array 7] ∧
    ((multi_shortvector.init 2 3 7 (multi_shortvector.construct []) 5).2 ++
      (multi_shortvector.init 2 3 8
        (multi_shortvector.init 2 3 7 (multi_shortvector.construct []) 5).1 2).2 ++
      (multi_shortvector.init 2 3 8
        (multi_shortvector.init 2 3 7 (multi_shortvector.construct []) 5).1 2).1.destruct).count
        (.delete_array 7) = 2 ∧
    (multi_shortvector.init 2 3 9
        (multi_shortvector.init 2 3 8
          (multi_shortvector.init 2 3 7 (multi_shortvector.construct []) 5).1 2).1 1).2
      = [.delete_array 7] := by
  refine ⟨?_, ?_, ?_, ?_, ?_⟩ <;> decide

end dynd
